import Mathlib

/-!
# Intel 8080 emulator core (`src/8080.h`)

A shallow embedding of the CPU core of the Space Invaders emulator.

Conventions of the embedding.

* `uint8_t` and `uint16_t` values are natural numbers; every store into such a
  field reduces modulo `2 ^ 8` resp. `2 ^ 16`.  The one-bit fields of
  `ConditionCodes` are natural numbers too, and a store of an integer
  expression into one of them reduces modulo `2`.
* C `bool` is `Bool`; `Bool.toNat` is the integer value of a `bool`.
* `state->memory` is a buffer of `0x10000` bytes (`malloc(0x10000)` in
  `Init8080`).  It is a function from indices to bytes together with the
  checked accessors `load` and `store`: an index outside the buffer has no
  defined behaviour in C, and the embedding answers `none` there.
* The state is passed explicitly: a C function that mutates `*state` is a
  function from states to states (to `Option` states when it touches memory).
-/

namespace Emu8080

/-! ## Machine state -/

/-- The bit-field record `ConditionCodes`: five one-bit flags and three pad bits. -/
structure ConditionCodes where
  z : Nat
  s : Nat
  p : Nat
  cy : Nat
  ac : Nat
  pad : Nat

/-- The record `State8080`. -/
structure State8080 where
  a : Nat
  b : Nat
  c : Nat
  d : Nat
  e : Nat
  h : Nat
  l : Nat
  sp : Nat
  pc : Nat
  memory : Nat → Nat
  cc : ConditionCodes
  int_enable : Nat
  halted : Nat
  cycles : Nat

/-- Range invariant of the bit-fields: what the C types guarantee. -/
structure ConditionCodes.WF (cc : ConditionCodes) : Prop where
  z_lt : cc.z < 2
  s_lt : cc.s < 2
  p_lt : cc.p < 2
  cy_lt : cc.cy < 2
  ac_lt : cc.ac < 2
  pad_lt : cc.pad < 8

/-- Range invariant of a machine state: what the C types guarantee. -/
structure State8080.WF (st : State8080) : Prop where
  a_lt : st.a < 256
  b_lt : st.b < 256
  c_lt : st.c < 256
  d_lt : st.d < 256
  e_lt : st.e < 256
  h_lt : st.h < 256
  l_lt : st.l < 256
  sp_lt : st.sp < 65536
  pc_lt : st.pc < 65536
  mem_lt : ∀ i, st.memory i < 256
  cc_wf : st.cc.WF
  int_enable_lt : st.int_enable < 256
  halted_lt : st.halted < 256
  cycles_lt : st.cycles < 65536

/-- Number of bytes in the buffer `state->memory` (`malloc(0x10000)`). -/
def MEMORY_SIZE : Nat := 0x10000

/-- Read `memory[i]`; `none` when `i` is outside the buffer. -/
def load (memory : Nat → Nat) (i : Nat) : Option Nat :=
  if i < MEMORY_SIZE then some (memory i) else none

/-- Write `memory[i] = v` (the value is converted to `uint8_t`); `none` when `i`
is outside the buffer. -/
def store (memory : Nat → Nat) (i : Nat) (v : Nat) : Option (Nat → Nat) :=
  if i < MEMORY_SIZE then some (fun j => if j = i then v % 256 else memory j) else none

/-- A `uint8_t *` that points at one of the register fields of the state. -/
inductive Reg8 where
  | a | b | c | d | e | h | l
  deriving DecidableEq, Repr

/-- Dereference a register pointer: `*reg`. -/
def State8080.getReg (st : State8080) : Reg8 → Nat
  | .a => st.a
  | .b => st.b
  | .c => st.c
  | .d => st.d
  | .e => st.e
  | .h => st.h
  | .l => st.l

/-- Assign through a register pointer: `*reg = v`, converted to `uint8_t`. -/
def State8080.setReg (st : State8080) (reg : Reg8) (v : Nat) : State8080 :=
  match reg with
  | .a => { st with a := v % 256 }
  | .b => { st with b := v % 256 }
  | .c => { st with c := v % 256 }
  | .d => { st with d := v % 256 }
  | .e => { st with e := v % 256 }
  | .h => { st with h := v % 256 }
  | .l => { st with l := v % 256 }

/-- The C value of `~v` converted back to `uint8_t`. -/
def not8 (v : Nat) : Nat := 0xFF ^^^ (v % 256)

/-! ## Condition flag updaters -/

/-- The function `parity`: true when `value` has an even number of one bits. -/
def parity (value : Nat) : Bool :=
  let one_bits := (List.range 8).foldl (fun acc i => (acc + ((value >>> i) &&& 1)) % 256) 0
  (one_bits &&& 1) == 0

/-- The function `update_zsp`: sets z, s and p from `value` (a `uint8_t` parameter). -/
def update_zsp (state : State8080) (value : Nat) : State8080 :=
  let value := value % 256
  let state := { state with cc := { state.cc with z := (decide (value = 0)).toNat } }
  let state := { state with cc := { state.cc with s := (value >>> 7) % 2 } }
  { state with cc := { state.cc with p := (parity value).toNat } }

/-- The function `carry`: whether adding `a`, `b` and `cy` carries into bit `bit_no`. -/
def carry (bit_no : Nat) (a b : Nat) (cy : Bool) : Bool :=
  let result := a + b + cy.toNat
  let carry := result ^^^ a ^^^ b
  (carry &&& (1 <<< bit_no)) != 0

/-! ## Register pairs -/

/-- The function `write_bc`. -/
def write_bc (state : State8080) (value : Nat) : State8080 :=
  let value := value % 65536
  let state := { state with b := (value >>> 8) % 256 }
  { state with c := (value &&& 0xff) % 256 }

/-- The function `read_bc`. -/
def read_bc (state : State8080) : Nat := ((state.b <<< 8) + state.c) % 65536

/-- The function `write_de`. -/
def write_de (state : State8080) (value : Nat) : State8080 :=
  let value := value % 65536
  let state := { state with d := (value >>> 8) % 256 }
  { state with e := (value &&& 0xff) % 256 }

/-- The function `read_de`. -/
def read_de (state : State8080) : Nat := ((state.d <<< 8) + state.e) % 65536

/-- The function `write_hl`. -/
def write_hl (state : State8080) (value : Nat) : State8080 :=
  let value := value % 65536
  let state := { state with h := (value >>> 8) % 256 }
  { state with l := (value &&& 0xff) % 256 }

/-- The function `write_sp`. -/
def write_sp (state : State8080) (value : Nat) : State8080 :=
  { state with sp := value % 65536 }

/-- The function `read_hl`. -/
def read_hl (state : State8080) : Nat := ((state.h <<< 8) + state.l) % 65536

/-! ## Stack -/

/-- The function `push`: `sp -= 2`, then the high byte goes to `memory[sp + 1]`
and the low byte to `memory[sp]`.  The index `sp + 1` is computed in `int`,
so it does not wrap. -/
def push (state : State8080) (value : Nat) : Option State8080 :=
  let value := value % 65536
  let state := { state with sp := (state.sp + 65536 - 2) % 65536 }
  (store state.memory (state.sp + 1) (value >>> 8)).bind fun m1 =>
    let state := { state with memory := m1 }
    (store state.memory state.sp (value &&& 0xff)).bind fun m2 =>
      some { state with memory := m2 }

/-- The function `pop`: reads `memory[sp + 1]` and `memory[sp]`, then `sp += 2`;
returns the value read and the new state. -/
def pop (state : State8080) : Option (Nat × State8080) :=
  (load state.memory (state.sp + 1)).bind fun hi =>
    (load state.memory state.sp).bind fun lo =>
      let value := ((hi <<< 8) ||| lo) % 65536
      some (value, { state with sp := (state.sp + 2) % 65536 })

/-! ## Arithmetic -/

/-- The function `add`: `*reg += val + cy` with z, s, p, cy and ac updated. -/
def add (state : State8080) (reg : Reg8) (val : Nat) (cy : Bool) : State8080 :=
  let sum := (state.getReg reg + val + cy.toNat) % 256
  let state := update_zsp state sum
  let state := { state with cc := { state.cc with cy := (carry 8 (state.getReg reg) val cy).toNat } }
  let state := { state with cc := { state.cc with ac := (carry 4 (state.getReg reg) val cy).toNat } }
  state.setReg reg sum

/-- The function `subtract`: `add` of the complement with the complemented
borrow, followed by inverting the carry flag. -/
def subtract (state : State8080) (reg : Reg8) (val : Nat) (cy : Bool) : State8080 :=
  let state := add state reg (not8 val) (!cy)
  { state with cc := { state.cc with cy := (decide (state.cc.cy = 0)).toNat } }

/-- The function `cmp`.  The `int16_t result` is held as its 16-bit
two's-complement pattern; sign extension to `int` leaves the bits used here
(bits 0 to 8) as they are. -/
def cmp (state : State8080) (value : Nat) : State8080 :=
  let result := (state.a + 65536 - value % 256) % 65536
  let state := { state with cc := { state.cc with cy := (result >>> 8) % 2 } }
  let state := { state with cc := { state.cc with
    ac := ((0xFFFF ^^^ (state.a ^^^ result ^^^ (value % 256))) &&& 0x10) % 2 } }
  update_zsp state (result &&& 0xFF)

/-! ## Jump, call, return -/

/-- The function `jmp`. -/
def jmp (state : State8080) (address : Nat) : State8080 :=
  { state with pc := address % 65536 }

/-- The function `ret`. -/
def ret (state : State8080) : Option State8080 :=
  (pop state).bind fun r => some { r.2 with pc := r.1 }

/-- The function `call`. -/
def call (state : State8080) (address : Nat) : Option State8080 :=
  (push state state.pc).bind fun state => some (jmp state address)

/-- The function `generate_interrupt`. -/
def generate_interrupt (state : State8080) (interrupt_num : Nat) : Option State8080 :=
  let state := { state with pc := (state.pc + 0) % 65536 }
  (call state (interrupt_num * 8)).bind fun state =>
    let state := { state with int_enable := 0 }
    some { state with halted := 0 }

/-! ## Bodies of the cases of the switch in `emulate8080Op` -/

/-- The table `OPCODES_CYCLES`. -/
def OPCODES_CYCLES : List Nat := [
  4, 10, 7,  5,  5,  5,  7,  4,  4, 10, 7,  5,  5,  5,  7, 4,
  4, 10, 7,  5,  5,  5,  7,  4,  4, 10, 7,  5,  5,  5,  7, 4,
  4, 10, 16, 5,  5,  5,  7,  4,  4, 10, 16, 5,  5,  5,  7, 4,
  4, 10, 13, 5,  10, 10, 10, 4,  4, 10, 13, 5,  5,  5,  7, 4,
  5, 5,  5,  5,  5,  5,  7,  5,  5, 5,  5,  5,  5,  5,  7, 5,
  5, 5,  5,  5,  5,  5,  7,  5,  5, 5,  5,  5,  5,  5,  7, 5,
  5, 5,  5,  5,  5,  5,  7,  5,  5, 5,  5,  5,  5,  5,  7, 5,
  7, 7,  7,  7,  7,  7,  7,  7,  5, 5,  5,  5,  5,  5,  7, 5,
  4, 4,  4,  4,  4,  4,  7,  4,  4, 4,  4,  4,  4,  4,  7, 4,
  4, 4,  4,  4,  4,  4,  7,  4,  4, 4,  4,  4,  4,  4,  7, 4,
  4, 4,  4,  4,  4,  4,  7,  4,  4, 4,  4,  4,  4,  4,  7, 4,
  4, 4,  4,  4,  4,  4,  7,  4,  4, 4,  4,  4,  4,  4,  7, 4,
  5, 10, 10, 10, 11, 11, 7,  11, 5, 10, 10, 10, 11, 17, 7, 11,
  5, 10, 10, 10, 11, 11, 7,  11, 5, 10, 10, 10, 11, 17, 7, 11,
  5, 10, 10, 18, 11, 11, 7,  11, 5, 5,  10, 4,  11, 17, 7, 11,
  5, 10, 10, 4,  11, 11, 7,  11, 5, 5,  10, 4,  11, 17, 7, 11]

/-- The statement `state->pc += n`. -/
def pc_add (state : State8080) (n : Nat) : State8080 :=
  { state with pc := (state.pc + n) % 65536 }

/-- The byte `opcode[k]`, where `opcode = &state->memory[pc0]`; the index
`pc0 + k` is not wrapped. -/
def opcode_at (state : State8080) (pc0 k : Nat) : Option Nat :=
  load state.memory (pc0 + k)

/-- The expression `(opcode[2] << 8) | opcode[1]`. -/
def opcode_word (state : State8080) (pc0 : Nat) : Option Nat :=
  (opcode_at state pc0 2).bind fun hi =>
    (opcode_at state pc0 1).bind fun lo => some ((hi <<< 8) ||| lo)

/-- The initialiser `opcode[1] + (opcode[2] << 8)` of a `uint16_t` variable. -/
def opcode_word_add (state : State8080) (pc0 : Nat) : Option Nat :=
  (opcode_at state pc0 1).bind fun lo =>
    (opcode_at state pc0 2).bind fun hi => some ((lo + (hi <<< 8)) % 65536)

/-- The function `stax_b`. -/
def stax_b (state : State8080) : Option State8080 :=
  let address := read_bc state
  (store state.memory address state.a).bind fun m => some { state with memory := m }

/-- The function `stax_d`. -/
def stax_d (state : State8080) : Option State8080 :=
  let address := read_de state
  (store state.memory address state.a).bind fun m => some { state with memory := m }

/-- The function `dad_b`. -/
def dad_b (state : State8080) : State8080 :=
  let state := { state with cc := { state.cc with
    cy := ((read_hl state + (read_bc state >>> 16)) &&& 1) % 2 } }
  write_hl state (read_hl state + read_bc state)

/-- The function `dad_d`. -/
def dad_d (state : State8080) : State8080 :=
  let state := { state with cc := { state.cc with
    cy := (((read_hl state + read_de state) >>> 16) &&& 1) % 2 } }
  write_hl state (read_hl state + read_de state)

/-- The function `dad_h`. -/
def dad_h (state : State8080) : State8080 :=
  let state := { state with cc := { state.cc with
    cy := ((read_hl state + (read_hl state >>> 16)) &&& 1) % 2 } }
  write_hl state (read_hl state + read_hl state)

/-- The function `dad_sp`. -/
def dad_sp (state : State8080) : State8080 :=
  let state := { state with cc := { state.cc with
    cy := ((read_hl state + (state.sp >>> 16)) &&& 1) % 2 } }
  write_hl state (read_hl state + state.sp)

/-- Case 0x03 (INX B): `state->c++; if (state->c == 0) state->b++;`. -/
def inx_b (state : State8080) : State8080 :=
  let state := { state with c := (state.c + 1) % 256 }
  if state.c = 0 then { state with b := (state.b + 1) % 256 } else state

/-- Cases INR r: `state->r++; update_zsp(state, state->r);
state->cc.ac = (state->r & 0xf) == 0;`. -/
def inr_reg (state : State8080) (reg : Reg8) : State8080 :=
  let state := state.setReg reg (state.getReg reg + 1)
  let state := update_zsp state (state.getReg reg)
  { state with cc := { state.cc with ac := (decide (state.getReg reg &&& 0xf = 0)).toNat } }

/-- Cases DCR r: `state->r--; update_zsp(state, state->r);
state->cc.ac = !((state->r & 0xF) == 0xF);`. -/
def dcr_reg (state : State8080) (reg : Reg8) : State8080 :=
  let state := state.setReg reg (state.getReg reg + 256 - 1)
  let state := update_zsp state (state.getReg reg)
  { state with cc := { state.cc with ac := (!(decide (state.getReg reg &&& 0xF = 0xF))).toNat } }

/-- Case 0x34 (INR M). -/
def inr_m (state : State8080) : Option State8080 :=
  (load state.memory (read_hl state)).bind fun v =>
    (store state.memory (read_hl state) (v + 1)).bind fun m =>
      let state := { state with memory := m }
      (load state.memory (read_hl state)).bind fun v1 =>
        let state := { state with cc := { state.cc with ac := (decide (v1 &&& 0xf = 0)).toNat } }
        some (update_zsp state (read_hl state))

/-- Case 0x35 (DCR M). -/
def dcr_m (state : State8080) : Option State8080 :=
  (load state.memory (read_hl state)).bind fun v =>
    (store state.memory (read_hl state) (v + 256 - 1)).bind fun m =>
      let state := { state with memory := m }
      (load state.memory (read_hl state)).bind fun v1 =>
        let state := { state with cc := { state.cc with
          ac := (!(decide (v1 &&& 0xF = 0xF))).toNat } }
        (load state.memory (read_hl state)).bind fun v2 =>
          some (update_zsp state v2)

/-- Case 0x07 (RLC). -/
def rlc (state : State8080) : State8080 :=
  let state := { state with cc := { state.cc with cy := (state.a >>> 7) % 2 } }
  { state with a := ((state.a <<< 1) ||| state.cc.cy) % 256 }

/-- Case 0x0f (RRC). -/
def rrc (state : State8080) : State8080 :=
  let state := { state with cc := { state.cc with cy := (state.a &&& 1) % 2 } }
  { state with a := ((state.a >>> 1) ||| (state.cc.cy <<< 7)) % 256 }

/-- Case 0x17 (RAL). -/
def ral (state : State8080) : State8080 :=
  let cy : Bool := decide (state.cc.cy ≠ 0)
  let state := { state with cc := { state.cc with cy := (state.a >>> 7) % 2 } }
  { state with a := ((state.a <<< 1) ||| cy.toNat) % 256 }

/-- Case 0x1f (RAR). -/
def rar (state : State8080) : State8080 :=
  let cy : Bool := decide (state.cc.cy ≠ 0)
  let state := { state with cc := { state.cc with cy := (state.a &&& 1) % 2 } }
  { state with a := ((state.a >>> 1) ||| (cy.toNat <<< 7)) % 256 }

/-- Case 0x22 (SHLD), after `address` is read: `memory[address] = l;
memory[address + 1] = h`.  The index `address + 1` is computed in `int`. -/
def shld (state : State8080) (address : Nat) : Option State8080 :=
  (store state.memory address state.l).bind fun m1 =>
    let state := { state with memory := m1 }
    (store state.memory (address + 1) state.h).bind fun m2 =>
      some { state with memory := m2 }

/-- Case 0x2a (LHLD), after `address` is read: `l = memory[address];
h = memory[address + 1]`. -/
def lhld (state : State8080) (address : Nat) : Option State8080 :=
  (load state.memory address).bind fun lo =>
    let state := { state with l := lo % 256 }
    (load state.memory (address + 1)).bind fun hi =>
      some { state with h := hi % 256 }

/-- Case 0x27 (DAA). -/
def daa (state : State8080) : State8080 :=
  let cy : Bool := decide (state.cc.cy ≠ 0)
  let correction := 0
  let lsb := state.a &&& 0x0F
  let msb := state.a >>> 4
  let correction :=
    if state.cc.ac ≠ 0 ∨ lsb > 9 then (correction + 0x06) % 256 else correction
  let high : Bool := decide (state.cc.cy ≠ 0 ∨ msb > 9 ∨ (msb ≥ 9 ∧ lsb > 9))
  let correction := if high then (correction + 0x60) % 256 else correction
  let cy := if high then true else cy
  let state := add state .a correction false
  { state with cc := { state.cc with cy := cy.toNat } }

/-- Cases ANA r and ANA M, with operand `x`: `uint8_t val = state->a &= x;
update_zsp(state, val); state->cc.ac = ((state->a | val) & 0x08) != 0;
state->cc.cy = 0; state->a = val;`. -/
def ana (state : State8080) (x : Nat) : State8080 :=
  let state := { state with a := (state.a &&& x) % 256 }
  let val := state.a
  let state := update_zsp state val
  let state := { state with cc := { state.cc with
    ac := (decide ((state.a ||| val) &&& 0x08 ≠ 0)).toNat } }
  let state := { state with cc := { state.cc with cy := 0 } }
  { state with a := val }

/-- Cases XRA r and XRA M, with operand `x`: `state->a ^= x; state->cc.cy = 0;
state->cc.ac = 0; update_zsp(state, state->a);`. -/
def xra (state : State8080) (x : Nat) : State8080 :=
  let state := { state with a := (state.a ^^^ x) % 256 }
  let state := { state with cc := { state.cc with cy := 0 } }
  let state := { state with cc := { state.cc with ac := 0 } }
  update_zsp state state.a

/-- Cases ORA r and ORA M, with operand `x`: `state->a |= x; state->cc.cy = 0;
state->cc.ac = 0; update_zsp(state, state->a);`. -/
def ora (state : State8080) (x : Nat) : State8080 :=
  let state := { state with a := (state.a ||| x) % 256 }
  let state := { state with cc := { state.cc with cy := 0 } }
  let state := { state with cc := { state.cc with ac := 0 } }
  update_zsp state state.a

/-- Case 0xe6 (ANI): `state->a &= opcode[1]; update_zsp(state, state->a);
state->cc.cy = 0;`. -/
def ani (state : State8080) (x : Nat) : State8080 :=
  let state := { state with a := (state.a &&& x) % 256 }
  let state := update_zsp state state.a
  { state with cc := { state.cc with cy := 0 } }

/-- Case 0xee (XRI): `state->a ^= opcode[1]; update_zsp(state, state->a);
state->cc.ac = 0; state->cc.cy = 0;`. -/
def xri (state : State8080) (x : Nat) : State8080 :=
  let state := { state with a := (state.a ^^^ x) % 256 }
  let state := update_zsp state state.a
  let state := { state with cc := { state.cc with ac := 0 } }
  { state with cc := { state.cc with cy := 0 } }

/-- Case 0xf6 (ORI): `state->a |= opcode[1]; state->cc.cy = 0;
update_zsp(state, state->a);`. -/
def ori (state : State8080) (x : Nat) : State8080 :=
  let state := { state with a := (state.a ||| x) % 256 }
  let state := { state with cc := { state.cc with cy := 0 } }
  update_zsp state state.a

/-- Case 0xe3 (XTHL). -/
def xthl (state : State8080) : Option State8080 :=
  (load state.memory (state.sp + 1)).bind fun hi =>
    (load state.memory state.sp).bind fun lo =>
      let val := ((hi <<< 8) ||| lo) % 65536
      (store state.memory (state.sp + 1) state.h).bind fun m1 =>
        let state := { state with memory := m1 }
        (store state.memory state.sp state.l).bind fun m2 =>
          let state := { state with memory := m2 }
          some (write_hl state val)

/-- Case 0xeb (XCHG). -/
def xchg (state : State8080) : State8080 :=
  let hl := read_hl state
  let state := write_hl state (read_de state)
  write_de state hl

/-- Case 0xf1 (POP PSW), without the final `state->pc += 1`. -/
def pop_psw (state : State8080) : Option State8080 :=
  (pop state).bind fun r =>
    let af := r.1
    let state := r.2
    let state := { state with a := (af >>> 8) % 256 }
    let flags := (af &&& 0xff) % 256
    let state := { state with cc := { state.cc with s := ((flags >>> 7) &&& 1) % 2 } }
    let state := { state with cc := { state.cc with z := ((flags >>> 6) &&& 1) % 2 } }
    let state := { state with cc := { state.cc with ac := ((flags >>> 4) &&& 1) % 2 } }
    let state := { state with cc := { state.cc with p := ((flags >>> 2) &&& 1) % 2 } }
    let state := { state with cc := { state.cc with cy := ((flags >>> 0) &&& 1) % 2 } }
    some state

/-- The flag byte built in case 0xf5 (PUSH PSW). -/
def psw_flags (state : State8080) : Nat :=
  let flags := 0x00
  let flags := (flags ||| (state.cc.s <<< 7)) % 256
  let flags := (flags ||| (state.cc.z <<< 6)) % 256
  let flags := (flags ||| (state.cc.ac <<< 4)) % 256
  let flags := (flags ||| (state.cc.p <<< 2)) % 256
  let flags := (flags ||| (1 <<< 1)) % 256
  let flags := (flags ||| (state.cc.cy <<< 0)) % 256
  flags

/-- Case 0xf5 (PUSH PSW), without the final `state->pc += 1`. -/
def push_psw (state : State8080) : Option State8080 :=
  let flags := psw_flags state
  push state ((state.a <<< 8) ||| flags)

/-! ## The instruction step -/

set_option maxRecDepth 8000 in
/-- The `case` labels of the `switch (*opcode)` of `emulate8080Op`, one line per
`case`; `pc0` is the value of `state->pc` on entry, which `opcode` points at, and
`dflt` is the outcome of the `default:` label. -/
def emulate8080Op_cases (dflt : Option State8080) (state : State8080) (pc0 : Nat) (op : Nat) :
    Option State8080 :=
  if op = 0x00 then (some (pc_add state 1)) -- NOP
  else if op = 0x01 then ((opcode_word_add state pc0).bind fun value => some (pc_add (write_bc state value) 3)) -- LXI B
  else if op = 0x02 then ((stax_b state).bind fun state => some (pc_add state 1)) -- STAX B
  else if op = 0x03 then (some (pc_add (inx_b state) 1)) -- INX B
  else if op = 0x04 then (some (pc_add (inr_reg state .b) 1)) -- INR B
  else if op = 0x05 then (some (pc_add (dcr_reg state .b) 1)) -- DCR B
  else if op = 0x06 then ((opcode_at state pc0 1).bind fun v => some (pc_add (state.setReg .b v) 2)) -- MVI B
  else if op = 0x07 then (some (pc_add (rlc state) 1)) -- RLC
  else if op = 0x08 then (some (pc_add state 1)) -- NOP
  else if op = 0x09 then (some (pc_add (dad_b state) 1)) -- DAD B
  else if op = 0x0a then ((load state.memory (read_bc state)).bind fun v => some (pc_add { state with a := v % 256 } 1)) -- LDAX B
  else if op = 0x0b then (some (pc_add (write_bc state (read_bc state + 65536 - 1)) 1)) -- DCX B
  else if op = 0x0c then (some (pc_add (inr_reg state .c) 1)) -- INR C
  else if op = 0x0d then (some (pc_add (dcr_reg state .c) 1)) -- DCR C
  else if op = 0x0e then ((opcode_at state pc0 1).bind fun v => some (pc_add (state.setReg .c v) 2)) -- MVI C
  else if op = 0x0f then (some (pc_add (rrc state) 1)) -- RRC
  else if op = 0x10 then (some (pc_add state 1)) -- NOP
  else if op = 0x11 then ((opcode_word_add state pc0).bind fun value => some (pc_add (write_de state value) 3)) -- LXI D
  else if op = 0x12 then ((stax_d state).bind fun state => some (pc_add state 1)) -- STAX D
  else if op = 0x13 then (some (pc_add (write_de state (read_de state + 1)) 1)) -- INX D
  else if op = 0x14 then (some (pc_add (inr_reg state .d) 1)) -- INR D
  else if op = 0x15 then (some (pc_add (dcr_reg state .d) 1)) -- DCR D
  else if op = 0x16 then ((opcode_at state pc0 1).bind fun v => some (pc_add (state.setReg .d v) 2)) -- MVI D
  else if op = 0x17 then (some (pc_add (ral state) 1)) -- RAL
  else if op = 0x18 then (some (pc_add state 1)) -- NOP
  else if op = 0x19 then (some (pc_add (dad_d state) 1)) -- DAD D
  else if op = 0x1a then ((load state.memory (read_de state)).bind fun v => some (pc_add { state with a := v % 256 } 1)) -- LDAX D
  else if op = 0x1b then (some (pc_add (write_de state (read_de state + 65536 - 1)) 1)) -- DCX D
  else if op = 0x1c then (some (pc_add (inr_reg state .e) 1)) -- INR E
  else if op = 0x1d then (some (pc_add (dcr_reg state .e) 1)) -- DCR E
  else if op = 0x1e then ((opcode_at state pc0 1).bind fun v => some (pc_add (state.setReg .e v) 2)) -- MVI E
  else if op = 0x1f then (some (pc_add (rar state) 1)) -- RAR
  else if op = 0x20 then (some (pc_add state 1)) -- NOP
  else if op = 0x21 then ((opcode_word_add state pc0).bind fun value => some (pc_add (write_hl state value) 3)) -- LXI H
  else if op = 0x22 then ((opcode_word_add state pc0).bind fun address => (shld state address).bind fun state => some (pc_add state 3)) -- SHLD
  else if op = 0x23 then (some (pc_add (write_hl state (read_hl state + 1)) 1)) -- INX H
  else if op = 0x24 then (some (pc_add (inr_reg state .h) 1)) -- INR H
  else if op = 0x25 then (some (pc_add (dcr_reg state .h) 1)) -- DCR H
  else if op = 0x26 then ((opcode_at state pc0 1).bind fun v => some (pc_add (state.setReg .h v) 2)) -- MVI H
  else if op = 0x27 then (some (pc_add (daa state) 1)) -- DAA
  else if op = 0x28 then (some (pc_add state 1)) -- NOP
  else if op = 0x29 then (some (pc_add (dad_h state) 1)) -- DAD H
  else if op = 0x2a then ((opcode_word_add state pc0).bind fun address => (lhld state address).bind fun state => some (pc_add state 3)) -- LHLD
  else if op = 0x2b then (some (pc_add (write_hl state (read_hl state + 65536 - 1)) 1)) -- DCX H
  else if op = 0x2c then (some (pc_add (inr_reg state .l) 1)) -- INR L
  else if op = 0x2d then (some (pc_add (dcr_reg state .l) 1)) -- DCR L
  else if op = 0x2e then ((opcode_at state pc0 1).bind fun v => some (pc_add (state.setReg .l v) 2)) -- MVI L
  else if op = 0x2f then (some (pc_add { state with a := not8 state.a } 1)) -- CMA
  else if op = 0x30 then (some (pc_add state 1)) -- NOP
  else if op = 0x31 then ((opcode_word_add state pc0).bind fun value => some (pc_add (write_sp state value) 3)) -- LXI SP
  else if op = 0x32 then ((opcode_word_add state pc0).bind fun address => (store state.memory address state.a).bind fun m => some (pc_add { state with memory := m } 3)) -- STA
  else if op = 0x33 then (some (pc_add { state with sp := (state.sp + 1) % 65536 } 1)) -- INX SP
  else if op = 0x34 then ((inr_m state).bind fun state => some (pc_add state 1)) -- INR M
  else if op = 0x35 then ((dcr_m state).bind fun state => some (pc_add state 1)) -- DCR M
  else if op = 0x36 then ((opcode_at state pc0 1).bind fun v => (store state.memory (read_hl state) v).bind fun m => some (pc_add { state with memory := m } 2)) -- MVI M
  else if op = 0x37 then (some (pc_add { state with cc := { state.cc with cy := 1 } } 1)) -- STC
  else if op = 0x38 then (some (pc_add state 1)) -- NOP
  else if op = 0x39 then (some (pc_add (dad_sp state) 1)) -- DAD SP
  else if op = 0x3a then ((opcode_word_add state pc0).bind fun address => (load state.memory address).bind fun v => some (pc_add { state with a := v % 256 } 3)) -- LDA
  else if op = 0x3b then (some (pc_add { state with sp := (state.sp + 65536 - 1) % 65536 } 1)) -- DCX SP
  else if op = 0x3c then (some (pc_add (inr_reg state .a) 1)) -- INR A
  else if op = 0x3d then (some (pc_add (dcr_reg state .a) 1)) -- DCR A
  else if op = 0x3e then ((opcode_at state pc0 1).bind fun v => some (pc_add (state.setReg .a v) 2)) -- MVI A
  else if op = 0x3f then (some (pc_add { state with cc := { state.cc with cy := (decide (state.cc.cy = 0)).toNat } } 1)) -- CMC
  else if op = 0x40 then (some (pc_add (state.setReg .b state.b) 1)) -- MOV B, B
  else if op = 0x41 then (some (pc_add (state.setReg .b state.c) 1)) -- MOV B, C
  else if op = 0x42 then (some (pc_add (state.setReg .b state.d) 1)) -- MOV B, D
  else if op = 0x43 then (some (pc_add (state.setReg .b state.e) 1)) -- MOV B, E
  else if op = 0x44 then (some (pc_add (state.setReg .b state.h) 1)) -- MOV B, H
  else if op = 0x45 then (some (pc_add (state.setReg .b state.l) 1)) -- MOV B, L
  else if op = 0x46 then ((load state.memory (read_hl state)).bind fun v => some (pc_add (state.setReg .b v) 1)) -- MOV B, M
  else if op = 0x47 then (some (pc_add (state.setReg .b state.a) 1)) -- MOV B, A
  else if op = 0x48 then (some (pc_add (state.setReg .c state.b) 1)) -- MOV C, B
  else if op = 0x49 then (some (pc_add (state.setReg .c state.c) 1)) -- MOV C, C
  else if op = 0x4a then (some (pc_add (state.setReg .c state.d) 1)) -- MOV C, D
  else if op = 0x4b then (some (pc_add (state.setReg .c state.e) 1)) -- MOV C, E
  else if op = 0x4c then (some (pc_add (state.setReg .c state.h) 1)) -- MOV C, H
  else if op = 0x4d then (some (pc_add (state.setReg .c state.l) 1)) -- MOV C, L
  else if op = 0x4e then ((load state.memory (read_hl state)).bind fun v => some (pc_add (state.setReg .c v) 1)) -- MOV C, M
  else if op = 0x4f then (some (pc_add (state.setReg .c state.a) 1)) -- MOV C, A
  else if op = 0x50 then (some (pc_add (state.setReg .d state.b) 1)) -- MOV D, B
  else if op = 0x51 then (some (pc_add (state.setReg .d state.c) 1)) -- MOV D, C
  else if op = 0x52 then (some (pc_add (state.setReg .d state.d) 1)) -- MOV D, D
  else if op = 0x53 then (some (pc_add (state.setReg .d state.e) 1)) -- MOV D, E
  else if op = 0x54 then (some (pc_add (state.setReg .d state.h) 1)) -- MOV D, H
  else if op = 0x55 then (some (pc_add (state.setReg .d state.l) 1)) -- MOV D, L
  else if op = 0x56 then ((load state.memory (read_hl state)).bind fun v => some (pc_add (state.setReg .d v) 1)) -- MOV D, M
  else if op = 0x57 then (some (pc_add (state.setReg .d state.a) 1)) -- MOV D, A
  else if op = 0x58 then (some (pc_add (state.setReg .e state.b) 1)) -- MOV E, B
  else if op = 0x59 then (some (pc_add (state.setReg .e state.c) 1)) -- MOV E, C
  else if op = 0x5a then (some (pc_add (state.setReg .e state.d) 1)) -- MOV E, D
  else if op = 0x5b then (some (pc_add (state.setReg .e state.e) 1)) -- MOV E, E
  else if op = 0x5c then (some (pc_add (state.setReg .e state.h) 1)) -- MOV E, H
  else if op = 0x5d then (some (pc_add (state.setReg .e state.l) 1)) -- MOV E, L
  else if op = 0x5e then ((load state.memory (read_hl state)).bind fun v => some (pc_add (state.setReg .e v) 1)) -- MOV E, M
  else if op = 0x5f then (some (pc_add (state.setReg .e state.a) 1)) -- MOV E, A
  else if op = 0x60 then (some (pc_add (state.setReg .h state.b) 1)) -- MOV H, B
  else if op = 0x61 then (some (pc_add (state.setReg .h state.c) 1)) -- MOV H, C
  else if op = 0x62 then (some (pc_add (state.setReg .h state.d) 1)) -- MOV H, D
  else if op = 0x63 then (some (pc_add (state.setReg .h state.e) 1)) -- MOV H, E
  else if op = 0x64 then (some (pc_add (state.setReg .h state.h) 1)) -- MOV H, H
  else if op = 0x65 then (some (pc_add (state.setReg .h state.l) 1)) -- MOV H, L
  else if op = 0x66 then ((load state.memory (read_hl state)).bind fun v => some (pc_add (state.setReg .h v) 1)) -- MOV H, M
  else if op = 0x67 then (some (pc_add (state.setReg .h state.a) 1)) -- MOV H, A
  else if op = 0x68 then (some (pc_add (state.setReg .l state.b) 1)) -- MOV L, B
  else if op = 0x69 then (some (pc_add (state.setReg .l state.c) 1)) -- MOV L, C
  else if op = 0x6a then (some (pc_add (state.setReg .l state.d) 1)) -- MOV L, D
  else if op = 0x6b then (some (pc_add (state.setReg .l state.e) 1)) -- MOV L, E
  else if op = 0x6c then (some (pc_add (state.setReg .l state.h) 1)) -- MOV L, H
  else if op = 0x6d then (some (pc_add (state.setReg .l state.l) 1)) -- MOV L, L
  else if op = 0x6e then ((load state.memory (read_hl state)).bind fun v => some (pc_add (state.setReg .l v) 1)) -- MOV L, M
  else if op = 0x6f then (some (pc_add (state.setReg .l state.a) 1)) -- MOV L, A
  else if op = 0x70 then ((store state.memory (read_hl state) state.b).bind fun m => some (pc_add { state with memory := m } 1)) -- MOV M, B
  else if op = 0x71 then ((store state.memory (read_hl state) state.c).bind fun m => some (pc_add { state with memory := m } 1)) -- MOV M, C
  else if op = 0x72 then ((store state.memory (read_hl state) state.d).bind fun m => some (pc_add { state with memory := m } 1)) -- MOV M, D
  else if op = 0x73 then ((store state.memory (read_hl state) state.e).bind fun m => some (pc_add { state with memory := m } 1)) -- MOV M, E
  else if op = 0x74 then ((store state.memory (read_hl state) state.h).bind fun m => some (pc_add { state with memory := m } 1)) -- MOV M, H
  else if op = 0x75 then ((store state.memory (read_hl state) state.l).bind fun m => some (pc_add { state with memory := m } 1)) -- MOV M, L
  else if op = 0x76 then (some (pc_add { state with halted := 1 } 1)) -- HLT
  else if op = 0x77 then ((store state.memory (read_hl state) state.a).bind fun m => some (pc_add { state with memory := m } 1)) -- MOV M, A
  else if op = 0x78 then (some (pc_add (state.setReg .a state.b) 1)) -- MOV A, B
  else if op = 0x79 then (some (pc_add (state.setReg .a state.c) 1)) -- MOV A, C
  else if op = 0x7a then (some (pc_add (state.setReg .a state.d) 1)) -- MOV A, D
  else if op = 0x7b then (some (pc_add (state.setReg .a state.e) 1)) -- MOV A, E
  else if op = 0x7c then (some (pc_add (state.setReg .a state.h) 1)) -- MOV A, H
  else if op = 0x7d then (some (pc_add (state.setReg .a state.l) 1)) -- MOV A, L
  else if op = 0x7e then ((load state.memory (read_hl state)).bind fun v => some (pc_add (state.setReg .a v) 1)) -- MOV A, M
  else if op = 0x7f then (some (pc_add (state.setReg .a state.a) 1)) -- MOV A, A
  else if op = 0x80 then (some (pc_add (add state .a state.b false) 1)) -- ADD B
  else if op = 0x81 then (some (pc_add (add state .a state.c false) 1)) -- ADD C
  else if op = 0x82 then (some (pc_add (add state .a state.d false) 1)) -- ADD D
  else if op = 0x83 then (some (pc_add (add state .a state.e false) 1)) -- ADD E
  else if op = 0x84 then (some (pc_add (add state .a state.h false) 1)) -- ADD H
  else if op = 0x85 then (some (pc_add (add state .a state.l false) 1)) -- ADD L
  else if op = 0x86 then ((load state.memory (read_hl state)).bind fun v => some (pc_add (add state .a v false) 1)) -- ADD M
  else if op = 0x87 then (some (pc_add (add state .a state.a false) 1)) -- ADD A
  else if op = 0x88 then (some (pc_add (add state .a state.b (decide (state.cc.cy ≠ 0))) 1)) -- ADC B
  else if op = 0x89 then (some (pc_add (add state .a state.c (decide (state.cc.cy ≠ 0))) 1)) -- ADC C
  else if op = 0x8a then (some (pc_add (add state .a state.d (decide (state.cc.cy ≠ 0))) 1)) -- ADC D
  else if op = 0x8b then (some (pc_add (add state .a state.e (decide (state.cc.cy ≠ 0))) 1)) -- ADC E
  else if op = 0x8c then (some (pc_add (add state .a state.h (decide (state.cc.cy ≠ 0))) 1)) -- ADC H
  else if op = 0x8d then (some (pc_add (add state .a state.l (decide (state.cc.cy ≠ 0))) 1)) -- ADC L
  else if op = 0x8e then ((load state.memory (read_hl state)).bind fun v => some (pc_add (add state .a v (decide (state.cc.cy ≠ 0))) 1)) -- ADC M
  else if op = 0x8f then (some (pc_add (add state .a state.a (decide (state.cc.cy ≠ 0))) 1)) -- ADC A
  else if op = 0x90 then (some (pc_add (subtract state .a state.b false) 1)) -- SUB B
  else if op = 0x91 then (some (pc_add (subtract state .a state.c false) 1)) -- SUB C
  else if op = 0x92 then (some (pc_add (subtract state .a state.d false) 1)) -- SUB D
  else if op = 0x93 then (some (pc_add (subtract state .a state.e false) 1)) -- SUB E
  else if op = 0x94 then (some (pc_add (subtract state .a state.h false) 1)) -- SUB H
  else if op = 0x95 then (some (pc_add (subtract state .a state.l false) 1)) -- SUB L
  else if op = 0x96 then ((load state.memory (read_hl state)).bind fun v => some (pc_add (subtract state .a v false) 1)) -- SUB M
  else if op = 0x97 then (some (pc_add (subtract state .a state.a false) 1)) -- SUB A
  else if op = 0x98 then (some (pc_add (subtract state .a state.b (decide (state.cc.cy ≠ 0))) 1)) -- SBB B
  else if op = 0x99 then (some (pc_add (subtract state .a state.c (decide (state.cc.cy ≠ 0))) 1)) -- SBB C
  else if op = 0x9a then (some (pc_add (subtract state .a state.d (decide (state.cc.cy ≠ 0))) 1)) -- SBB D
  else if op = 0x9b then (some (pc_add (subtract state .a state.e (decide (state.cc.cy ≠ 0))) 1)) -- SBB E
  else if op = 0x9c then (some (pc_add (subtract state .a state.h (decide (state.cc.cy ≠ 0))) 1)) -- SBB H
  else if op = 0x9d then (some (pc_add (subtract state .a state.l (decide (state.cc.cy ≠ 0))) 1)) -- SBB L
  else if op = 0x9e then ((load state.memory (read_hl state)).bind fun v => some (pc_add (subtract state .a v (decide (state.cc.cy ≠ 0))) 1)) -- SBB M
  else if op = 0x9f then (some (pc_add (subtract state .a state.a (decide (state.cc.cy ≠ 0))) 1)) -- SBB A
  else if op = 0xa0 then (some (pc_add (ana state state.b) 1)) -- ANA B
  else if op = 0xa1 then (some (pc_add (ana state state.c) 1)) -- ANA C
  else if op = 0xa2 then (some (pc_add (ana state state.d) 1)) -- ANA D
  else if op = 0xa3 then (some (pc_add (ana state state.e) 1)) -- ANA E
  else if op = 0xa4 then (some (pc_add (ana state state.h) 1)) -- ANA H
  else if op = 0xa5 then (some (pc_add (ana state state.l) 1)) -- ANA L
  else if op = 0xa6 then ((load state.memory (read_hl state)).bind fun v => some (pc_add (ana state v) 1)) -- ANA M
  else if op = 0xa7 then (some (pc_add (ana state state.a) 1)) -- ANA A
  else if op = 0xa8 then (some (pc_add (xra state state.b) 1)) -- XRA B
  else if op = 0xa9 then (some (pc_add (xra state state.c) 1)) -- XRA C
  else if op = 0xaa then (some (pc_add (xra state state.d) 1)) -- XRA D
  else if op = 0xab then (some (pc_add (xra state state.e) 1)) -- XRA E
  else if op = 0xac then (some (pc_add (xra state state.h) 1)) -- XRA H
  else if op = 0xad then (some (pc_add (xra state state.l) 1)) -- XRA L
  else if op = 0xae then ((load state.memory (read_hl state)).bind fun v => some (pc_add (xra state v) 1)) -- XRA M
  else if op = 0xaf then (some (pc_add (xra state state.a) 1)) -- XRA A
  else if op = 0xb0 then (some (pc_add (ora state state.b) 1)) -- ORA B
  else if op = 0xb1 then (some (pc_add (ora state state.c) 1)) -- ORA C
  else if op = 0xb2 then (some (pc_add (ora state state.d) 1)) -- ORA D
  else if op = 0xb3 then (some (pc_add (ora state state.e) 1)) -- ORA E
  else if op = 0xb4 then (some (pc_add (ora state state.h) 1)) -- ORA H
  else if op = 0xb5 then (some (pc_add (ora state state.l) 1)) -- ORA L
  else if op = 0xb6 then ((load state.memory (read_hl state)).bind fun v => some (pc_add (ora state v) 1)) -- ORA M
  else if op = 0xb7 then (some (pc_add (ora state state.a) 1)) -- ORA A
  else if op = 0xb8 then (some (pc_add (cmp state state.b) 1)) -- CMP B
  else if op = 0xb9 then (some (pc_add (cmp state state.c) 1)) -- CMP C
  else if op = 0xba then (some (pc_add (cmp state state.d) 1)) -- CMP D
  else if op = 0xbb then (some (pc_add (cmp state state.e) 1)) -- CMP E
  else if op = 0xbc then (some (pc_add (cmp state state.h) 1)) -- CMP H
  else if op = 0xbd then (some (pc_add (cmp state state.l) 1)) -- CMP L
  else if op = 0xbe then ((load state.memory (read_hl state)).bind fun v => some (pc_add (cmp state v) 1)) -- CMP M
  else if op = 0xbf then (some (pc_add (cmp state state.a) 1)) -- CMP A
  else if op = 0xc0 then (if state.cc.z = 0 then ret state else some (pc_add state 1)) -- RNZ
  else if op = 0xc1 then ((pop state).bind fun r => some (pc_add (write_bc r.2 r.1) 1)) -- POP B
  else if op = 0xc2 then (if state.cc.z = 0 then (opcode_word state pc0).bind fun w => some (jmp state w) else some (pc_add state 3)) -- JNZ
  else if op = 0xc3 then ((opcode_word state pc0).bind fun w => some (jmp state w)) -- JMP
  else if op = 0xc4 then (let state := pc_add state 3; if state.cc.z = 0 then (opcode_word state pc0).bind fun w => call state w else some state) -- CNZ
  else if op = 0xc5 then ((push state (read_bc state)).bind fun state => some (pc_add state 1)) -- PUSH B
  else if op = 0xc6 then ((opcode_at state pc0 1).bind fun v => some (pc_add (add state .a v false) 2)) -- ADI
  else if op = 0xc7 then (call state 0x00) -- RST 0
  else if op = 0xc8 then (if state.cc.z ≠ 0 then ret state else some (pc_add state 1)) -- RZ
  else if op = 0xc9 then (ret state) -- RET
  else if op = 0xca then (if state.cc.z ≠ 0 then (opcode_word state pc0).bind fun w => some (jmp state w) else some (pc_add state 3)) -- JZ
  else if op = 0xcb then ((opcode_word state pc0).bind fun w => some (jmp state w)) -- *JMP
  else if op = 0xcc then (let state := pc_add state 3; if state.cc.z ≠ 0 then (opcode_word state pc0).bind fun w => call state w else some state) -- CZ
  else if op = 0xcd then ((opcode_word state pc0).bind fun w => call (pc_add state 3) w) -- CALL
  else if op = 0xce then ((opcode_at state pc0 1).bind fun v => some (pc_add (add state .a v (decide (state.cc.cy ≠ 0))) 2)) -- ACI
  else if op = 0xcf then (call (pc_add state 1) 0x08) -- RST 1
  else if op = 0xd0 then (if state.cc.cy = 0 then ret state else some (pc_add state 1)) -- RNC
  else if op = 0xd1 then ((pop state).bind fun r => some (pc_add (write_de r.2 r.1) 1)) -- POP D
  else if op = 0xd2 then (if state.cc.cy = 0 then (opcode_word state pc0).bind fun w => some (jmp state w) else some (pc_add state 3)) -- JNC
  else if op = 0xd3 then (some (pc_add state 2)) -- OUT
  else if op = 0xd4 then (let state := pc_add state 3; if state.cc.cy = 0 then (opcode_word state pc0).bind fun w => call state w else some state) -- CNC
  else if op = 0xd5 then ((push state (read_de state)).bind fun state => some (pc_add state 1)) -- PUSH D
  else if op = 0xd6 then ((opcode_at state pc0 1).bind fun v => some (pc_add (subtract state .a v false) 2)) -- SUI
  else if op = 0xd7 then (call (pc_add state 1) 0x10) -- RST 2
  else if op = 0xd8 then (if state.cc.cy ≠ 0 then ret state else some (pc_add state 1)) -- RC
  else if op = 0xd9 then ((ret state).bind fun state => some (pc_add state 1)) -- *RET
  else if op = 0xda then (if state.cc.cy ≠ 0 then (opcode_word state pc0).bind fun w => some (jmp state w) else some (pc_add state 3)) -- JC
  else if op = 0xdb then (some (pc_add state 2)) -- IN
  else if op = 0xdc then (let state := pc_add state 3; if state.cc.cy ≠ 0 then (opcode_word state pc0).bind fun w => call state w else some state) -- CC
  else if op = 0xdd then ((opcode_word state pc0).bind fun w => call (pc_add state 3) w) -- *CALL
  else if op = 0xde then ((opcode_at state pc0 1).bind fun v => some (pc_add (subtract state .a v (decide (state.cc.cy ≠ 0))) 2)) -- SBI
  else if op = 0xdf then (call (pc_add state 1) 0x18) -- RST 3
  else if op = 0xe0 then (if state.cc.p = 0 then ret state else some (pc_add state 1)) -- RPO
  else if op = 0xe1 then ((pop state).bind fun r => some (pc_add (write_hl r.2 r.1) 1)) -- POP H
  else if op = 0xe2 then (let state := pc_add state 3; if state.cc.p = 0 then (opcode_word state pc0).bind fun w => some (jmp state w) else some state) -- JPO
  else if op = 0xe3 then ((xthl state).bind fun state => some (pc_add state 1)) -- XTHL
  else if op = 0xe4 then (let state := pc_add state 3; if state.cc.p = 0 then (opcode_word state pc0).bind fun w => call state w else some state) -- CPO
  else if op = 0xe5 then ((push state (read_hl state)).bind fun state => some (pc_add state 1)) -- PUSH H
  else if op = 0xe6 then ((opcode_at state pc0 1).bind fun v => some (pc_add (ani state v) 2)) -- ANI
  else if op = 0xe7 then (call (pc_add state 1) 0x20) -- RST 4
  else if op = 0xe8 then (if state.cc.p ≠ 0 then ret state else some (pc_add state 1)) -- RPE
  else if op = 0xe9 then (some { state with pc := read_hl state }) -- PCHL
  else if op = 0xea then (if state.cc.p ≠ 0 then (opcode_word state pc0).bind fun w => some (jmp state w) else some (pc_add state 3)) -- JPE
  else if op = 0xeb then (some (pc_add (xchg state) 1)) -- XCHG
  else if op = 0xec then (let state := pc_add state 3; if state.cc.p ≠ 0 then (opcode_word state pc0).bind fun w => call state w else some state) -- CPE
  else if op = 0xed then ((opcode_word state pc0).bind fun w => call (pc_add state 3) w) -- *CALL
  else if op = 0xee then ((opcode_at state pc0 1).bind fun v => some (pc_add (xri state v) 2)) -- XRI
  else if op = 0xef then (call (pc_add state 1) 0x28) -- RST 5
  else if op = 0xf0 then (if state.cc.s = 0 then ret state else some (pc_add state 1)) -- RP
  else if op = 0xf1 then ((pop_psw state).bind fun state => some (pc_add state 1)) -- POP PSW
  else if op = 0xf2 then (if state.cc.s = 0 then (opcode_word state pc0).bind fun w => some (jmp state w) else some (pc_add state 3)) -- JP
  else if op = 0xf3 then (some (pc_add { state with int_enable := 0 } 1)) -- DI
  else if op = 0xf4 then (let state := pc_add state 3; if state.cc.s = 0 then (opcode_word state pc0).bind fun w => call state w else some state) -- CP
  else if op = 0xf5 then ((push_psw state).bind fun state => some (pc_add state 1)) -- PUSH PSW
  else if op = 0xf6 then ((opcode_at state pc0 1).bind fun v => some (pc_add (ori state v) 2)) -- ORI
  else if op = 0xf7 then (call (pc_add state 1) 0x30) -- RST 6
  else if op = 0xf8 then (if state.cc.s ≠ 0 then ret state else some (pc_add state 1)) -- RM
  else if op = 0xf9 then (some (pc_add { state with sp := read_hl state } 1)) -- SPHL
  else if op = 0xfa then (if state.cc.s ≠ 0 then (opcode_word state pc0).bind fun w => some (jmp state w) else some (pc_add state 3)) -- JM
  else if op = 0xfb then (some (pc_add { state with int_enable := 1 } 1)) -- EI
  else if op = 0xfc then (let state := pc_add state 3; if state.cc.s ≠ 0 then (opcode_word state pc0).bind fun w => call state w else some state) -- CM
  else if op = 0xfd then ((opcode_word state pc0).bind fun w => call (pc_add state 3) w) -- *CALL
  else if op = 0xfe then ((opcode_at state pc0 1).bind fun v => some (pc_add (cmp state v) 2)) -- CPI
  else if op = 0xff then (call (pc_add state 1) 0x38) -- RST 7
  else dflt -- default

/-- The `switch (*opcode)` of `emulate8080Op`: the cases above, with
`state->pc += 1; unimplemented_instruction(state);` under `default:`. -/
def emulate8080Op_switch (state : State8080) (pc0 : Nat) (op : Nat) : Option State8080 :=
  emulate8080Op_cases (some (pc_add state 1)) state pc0 op

/-- The function `emulate8080Op`: fetch the opcode at `pc`, add its cost to the
cycle counter, run its case.  The disassembly and state print-outs under
`DEBUG` only write to the console and are left out. -/
def emulate8080Op (state : State8080) : Option State8080 :=
  let pc0 := state.pc
  (load state.memory pc0).bind fun op =>
    let state := { state with cycles := (state.cycles + OPCODES_CYCLES.getD op 0) % 65536 }
    emulate8080Op_switch state pc0 op

/-- What `emulate8080Op` does once it has read the opcode byte `op` at `pc`: add the
cost of `op` to the cycle counter and run its case. -/
def execute_opcode (op : Nat) (state : State8080) : Option State8080 :=
  emulate8080Op_switch
    { state with cycles := (state.cycles + OPCODES_CYCLES.getD op 0) % 65536 } state.pc op

/-- The function `Init8080`.  `raw` is the content of the block that
`malloc(sizeof(State8080))` returns, which C leaves indeterminate, with
`raw.memory` standing for the buffer that `malloc(0x10000)` returns; the function
assigns the fields below and no others. -/
def Init8080 (raw : State8080) : State8080 :=
  let state := raw
  let state := { state with a := 0 }
  let state := { state with b := 0 }
  let state := { state with c := 0 }
  let state := { state with d := 0 }
  let state := { state with e := 0 }
  let state := { state with h := 0 }
  let state := { state with l := 0 }
  let state := { state with cc := { state.cc with z := 0 } }
  let state := { state with cc := { state.cc with s := 0 } }
  let state := { state with cc := { state.cc with p := 0 } }
  let state := { state with cc := { state.cc with ac := 0 } }
  let state := { state with cc := { state.cc with cy := 0 } }
  let state := { state with cc := { state.cc with pad := 0 } }
  let state := { state with int_enable := 0 }
  { state with cycles := 0 }

/-! ## The ports (`spaceinvaders.c`) -/

/-- The globals of `spaceinvaders.c` that `machine_in` and `machine_out` work on,
all `uint8_t`, with the audio device: `deviceId` (0 when no device was opened) and
`queued`, the indices handed to `SDL_QueueAudio`, oldest first. -/
structure Ports where
  shift0 : Nat
  shift1 : Nat
  shift_offset : Nat
  in_port_1 : Nat
  in_port_2 : Nat
  sound1_ : Nat
  sound2_ : Nat
  last_sound1_ : Nat
  last_sound2_ : Nat
  deviceId : Nat
  queued : List Nat

/-- The function `play_wav_file`: `exit(0)` without an audio device (no state
afterwards), else the sample `index` is queued. -/
def play_wav_file (p : Ports) (index : Nat) : Option Ports :=
  if p.deviceId = 0 then none else some { p with queued := p.queued ++ [index] }

/-- One line of `play_sound`:
`if ((cur & bit) && !(last & bit)) play_wav_file(index);`. -/
def play_on_rise (p : Ports) (cur last bit index : Nat) : Option Ports :=
  if cur &&& bit ≠ 0 ∧ ¬ (last &&& bit ≠ 0) then play_wav_file p index else some p

/-- The function `play_sound`. -/
def play_sound (p : Ports) : Option Ports :=
  (if p.sound1_ ≠ p.last_sound1_ then
    (play_on_rise p p.sound1_ p.last_sound1_ 0x2 1).bind fun p =>
    (play_on_rise p p.sound1_ p.last_sound1_ 0x4 2).bind fun p =>
    (play_on_rise p p.sound1_ p.last_sound1_ 0x8 3).bind fun p =>
    some { p with last_sound1_ := p.sound1_ }
  else some p).bind fun p =>
  if p.sound2_ ≠ p.last_sound2_ then
    (play_on_rise p p.sound2_ p.last_sound2_ 0x1 4).bind fun p =>
    (play_on_rise p p.sound2_ p.last_sound2_ 0x2 5).bind fun p =>
    (play_on_rise p p.sound2_ p.last_sound2_ 0x4 6).bind fun p =>
    (play_on_rise p p.sound2_ p.last_sound2_ 0x8 7).bind fun p =>
    (play_on_rise p p.sound2_ p.last_sound2_ 0x10 8).bind fun p =>
    some { p with last_sound2_ := p.sound2_ }
  else some p

/-- The function `machine_in`.  For a port other than 1, 2 and 3 the local `a` is
returned without having been assigned: no defined value, `none`. -/
def machine_in (p : Ports) (port : Nat) : Option Nat :=
  if port = 1 then some p.in_port_1
  else if port = 2 then some p.in_port_2
  else if port = 3 then
    let v := ((p.shift1 <<< 8) ||| p.shift0) % 65536
    some (((v >>> (8 - p.shift_offset)) &&& 0xff) % 256)
  else none

/-- The function `machine_out`: the `switch (port)`, then `play_sound()`. -/
def machine_out (p : Ports) (port value : Nat) : Option Ports :=
  let p :=
    if port = 2 then { p with shift_offset := (value &&& 0x7) % 256 }
    else if port = 3 then { p with sound1_ := value % 256 }
    else if port = 4 then
      let p := { p with shift0 := p.shift1 }
      { p with shift1 := value % 256 }
    else if port = 5 then { p with sound2_ := value % 256 }
    else p
  play_sound p

/-! ## Notions used to state the properties -/

/-- The state with the program counter replaced. -/
def State8080.withPc (state : State8080) (pc : Nat) : State8080 :=
  { state with pc := pc }

/-- The operand of an ALU opcode by its low three bits `k`: the registers B, C, D,
E, H, L, the byte `memory[read_hl(state)]`, and A. -/
def operand8 (state : State8080) (k : Nat) : Option Nat :=
  if k = 0 then some state.b
  else if k = 1 then some state.c
  else if k = 2 then some state.d
  else if k = 3 then some state.e
  else if k = 4 then some state.h
  else if k = 5 then some state.l
  else if k = 6 then load state.memory (read_hl state)
  else some state.a

/-- The opcodes that change the flow of control, as the specification lists them:
conditional and unconditional jumps, calls and returns (with their duplicate
encodings), RST 0..7 and PCHL. -/
def spec_changes_flow (op : Nat) : Bool :=
  [0xc2, 0xca, 0xd2, 0xda, 0xe2, 0xea, 0xf2, 0xfa, 0xc3, 0xcb,
   0xc4, 0xcc, 0xd4, 0xdc, 0xe4, 0xec, 0xf4, 0xfc, 0xcd, 0xdd, 0xed, 0xfd,
   0xc0, 0xc8, 0xd0, 0xd8, 0xe0, 0xe8, 0xf0, 0xf8, 0xc9, 0xd9,
   0xc7, 0xcf, 0xd7, 0xdf, 0xe7, 0xef, 0xf7, 0xff, 0xe9].contains op

/-- The length in bytes of an instruction as the specification gives it: 3 for
LXI, SHLD, LHLD, STA and LDA, 2 for MVI, the immediate ALU opcodes, OUT and IN, and
1 for every other opcode. -/
def spec_instruction_length (op : Nat) : Nat :=
  if [0x01, 0x11, 0x21, 0x31, 0x22, 0x2a, 0x32, 0x3a].contains op then 3
  else if [0x06, 0x0e, 0x16, 0x1e, 0x26, 0x2e, 0x36, 0x3e,
      0xc6, 0xce, 0xd6, 0xde, 0xe6, 0xee, 0xf6, 0xfe, 0xd3, 0xdb].contains op then 2
  else 1

/-- The shift register, its bit-offset and the audio device are the same in `q` as
in `p`. -/
def Ports.sameShift (p q : Ports) : Prop :=
  q.shift0 = p.shift0 ∧ q.shift1 = p.shift1 ∧ q.shift_offset = p.shift_offset ∧
    q.deviceId = p.deviceId

/-- The ports with every global zero (their initialisers in `spaceinvaders.c`) and
the audio device `dev`. -/
def Ports.zero (dev : Nat) : Ports :=
  { shift0 := 0, shift1 := 0, shift_offset := 0, in_port_1 := 0, in_port_2 := 0,
    sound1_ := 0, sound2_ := 0, last_sound1_ := 0, last_sound2_ := 0,
    deviceId := dev, queued := [] }


/-- The state with the cycle counter and the two control flags replaced: the three
fields of `State8080` that no case of the switch reads. -/
def State8080.withCtl (state : State8080) (cycles int_enable halted : Nat) : State8080 :=
  { state with cycles := cycles, int_enable := int_enable, halted := halted }

/-- Two states that are equal in every field except the cycle counter. -/
def State8080.agreeUpToCycles (s t : State8080) : Prop :=
  s.a = t.a ∧ s.b = t.b ∧ s.c = t.c ∧ s.d = t.d ∧ s.e = t.e ∧ s.h = t.h ∧ s.l = t.l ∧
    s.sp = t.sp ∧ s.pc = t.pc ∧ s.memory = t.memory ∧ s.cc = t.cc ∧
    s.int_enable = t.int_enable ∧ s.halted = t.halted

/-- Number of one bits among the eight bits of a byte. -/
def popcount8 (v : Nat) : Nat := ((List.range 8).filter (fun i => v.testBit i)).length

/-- The state with every field zero and zeroed memory. -/
def State8080.zero : State8080 :=
  { a := 0, b := 0, c := 0, d := 0, e := 0, h := 0, l := 0, sp := 0, pc := 0,
    memory := fun _ => 0, cc := { z := 0, s := 0, p := 0, cy := 0, ac := 0, pad := 0 },
    int_enable := 0, halted := 0, cycles := 0 }

/-- A zero state with `pc = 0x100`, `sp = 0x2400` and the three bytes `b0 b1 b2`
at addresses `0x100 .. 0x102`. -/
def State8080.sample (b0 b1 b2 : Nat) : State8080 :=
  { State8080.zero with
    pc := 0x100
    sp := 0x2400
    memory := fun i =>
      if i = 0x100 then b0 else if i = 0x101 then b1 else if i = 0x102 then b2 else 0 }

/-- The sample state with one more byte, `b3`, at address `0x2000`. -/
def State8080.sampleAt (b0 b1 b2 b3 : Nat) : State8080 :=
  { State8080.sample b0 b1 b2 with
    memory := fun i => if i = 0x2000 then b3 else (State8080.sample b0 b1 b2).memory i }

/-- The condition codes with the five flags given and the pad bits zero. -/
def ConditionCodes.ofFlags (s z ac p cy : Nat) : ConditionCodes :=
  { z := z, s := s, p := p, cy := cy, ac := ac, pad := 0 }

/-- The flag condition of the conditional jump, call and return opcodes, by the
condition index `(op >> 3) & 7`: NZ, Z, NC, C, PO, PE, P, M, that is
`Z = 0`, `Z = 1`, `CY = 0`, `CY = 1`, `P = 0`, `P = 1`, `S = 0`, `S = 1`. -/
def conditionHolds (k : Nat) (cc : ConditionCodes) : Bool :=
  if k = 0 then cc.z == 0
  else if k = 1 then cc.z == 1
  else if k = 2 then cc.cy == 0
  else if k = 3 then cc.cy == 1
  else if k = 4 then cc.p == 0
  else if k = 5 then cc.p == 1
  else if k = 6 then cc.s == 0
  else cc.s == 1

/-- The register of an opcode field `k`, in the order B, C, D, E, H, L, (M), A; the
index 6 stands for the memory operand and is given A here. -/
def reg8_of (k : Nat) : Reg8 :=
  if k = 0 then .b
  else if k = 1 then .c
  else if k = 2 then .d
  else if k = 3 then .e
  else if k = 4 then .h
  else if k = 5 then .l
  else .a

/-- Assignment to the operand of an opcode field `k`, in the order B, C, D, E, H, L,
M, A: a register, or for index 6 the byte `memory[read_hl(state)]`. -/
def setOperand8 (state : State8080) (k v : Nat) : Option State8080 :=
  if k = 6 then
    (store state.memory (read_hl state) v).bind fun m => some { state with memory := m }
  else some (state.setReg (reg8_of k) v)

/-- The function that the register ALU case with operation index `j` applies to the
operand `v`, in the order of the cases 0x80 .. 0xbf: `add` without and with the
Carry flag, `subtract` without and with it, the ANA, XRA and ORA bodies, `cmp`. -/
def alu_case (j : Nat) (state : State8080) (v : Nat) : State8080 :=
  if j = 0 then add state .a v false
  else if j = 1 then add state .a v (decide (state.cc.cy ≠ 0))
  else if j = 2 then subtract state .a v false
  else if j = 3 then subtract state .a v (decide (state.cc.cy ≠ 0))
  else if j = 4 then ana state v
  else if j = 5 then xra state v
  else if j = 6 then ora state v
  else cmp state v

/-- The accumulator after the ALU operation `j` as the specification gives it, in
the order ADD, ADC, SUB, SBB, ANA, XRA, ORA, CMP, for accumulator `a`, source `s`
and Carry `cy`. -/
def spec_alu_result (j a s cy : Nat) : Nat :=
  if j = 0 then (a + s) % 256
  else if j = 1 then (a + s + cy) % 256
  else if j = 2 then (((a : Int) - s) % 256).toNat
  else if j = 3 then (((a : Int) - s - cy) % 256).toNat
  else if j = 4 then a &&& s
  else if j = 5 then a ^^^ s
  else if j = 6 then a ||| s
  else a

/-- The byte from which the specification takes Zero, Sign and Parity after the ALU
operation `j`: the result, and `(a - s) mod 256` for CMP. -/
def spec_alu_flag_byte (j a s cy : Nat) : Nat :=
  if j = 7 then (((a : Int) - s) % 256).toNat else spec_alu_result j a s cy

/-- Zero, Sign and Parity are those of the byte `r`: Zero is 1 exactly when `r` is
0, Sign is bit 7 of `r`, Parity is 1 exactly when `r` has an even number of one
bits. -/
def ConditionCodes.zspOf (cc : ConditionCodes) (r : Nat) : Prop :=
  cc.z = (if r = 0 then 1 else 0) ∧ cc.s = (r.testBit 7).toNat ∧
    cc.p = (if Even (popcount8 r) then 1 else 0)

/-- A packed-BCD byte: each nibble is at most 9. -/
def isPackedBCD (x : Nat) : Prop := x / 16 ≤ 9 ∧ x % 16 ≤ 9

/-- The decimal value, 0 .. 99, that a packed-BCD byte denotes. -/
def bcdValue (x : Nat) : Nat := 10 * (x / 16) + x % 16

/-- The packed-BCD encoding of a decimal value below 100. -/
def bcdEncode (n : Nat) : Nat := 16 * (n / 10) + n % 10

/-- Two states that are equal in every field except `halted`. -/
def State8080.agreeUpToHalted (s t : State8080) : Prop :=
  s.a = t.a ∧ s.b = t.b ∧ s.c = t.c ∧ s.d = t.d ∧ s.e = t.e ∧ s.h = t.h ∧ s.l = t.l ∧
    s.sp = t.sp ∧ s.pc = t.pc ∧ s.memory = t.memory ∧ s.cc = t.cc ∧
    s.int_enable = t.int_enable ∧ s.cycles = t.cycles

/-! ## The function `render` (`spaceinvaders.c`): its array accesses -/

/-- The macro `DISPLAY_SCALE`. -/
def DISPLAY_SCALE : Nat := 2

/-- The macro `WIDTH`. -/
def WIDTH : Nat := 224

/-- The macro `HEIGHT`. -/
def HEIGHT : Nat := 256

/-- An indexed access made by `render`: a read of `state->memory[address]`, an access
`rotated_screen[i][j]`, an access `fixed_screen[i][j]`, or a call `set_pixel(x, y)`. -/
inductive RenderAccess where
  | memory (address : Nat)
  | rotated (i j : Nat)
  | fixed (i j : Nat)
  | pixel (x y : Nat)
  deriving DecidableEq, Repr

/-- The accesses of the first loop nest of `render` at `y`, `x`:
`rotated_screen[y][x] = state->memory[0x2400 + (x / 8 + y * HEIGHT / 8)] & ...`. -/
def render_fill (y x : Nat) : List RenderAccess :=
  [.memory (0x2400 + (x / 8 + y * HEIGHT / 8)), .rotated y x]

/-- The accesses of the second loop nest of `render` at `y`, `x`:
`fixed_screen[y][x] = rotated_screen[x][HEIGHT - y];`, then for `i` from
`y * DISPLAY_SCALE` and `j` from `x * DISPLAY_SCALE`, `DISPLAY_SCALE` values each,
`set_pixel(j, i, fixed_screen[y][x] ? ... : 0)`.  Here `y < HEIGHT`, so `HEIGHT - y`
is the C value. -/
def render_draw (y x : Nat) : List RenderAccess :=
  [.rotated x (HEIGHT - y), .fixed y x] ++
    (List.range' (y * DISPLAY_SCALE) DISPLAY_SCALE).flatMap fun i =>
      (List.range' (x * DISPLAY_SCALE) DISPLAY_SCALE).flatMap fun j =>
        [.fixed y x, .pixel j i]

/-- All indexed accesses of one call of `render`, in program order. -/
def render_accesses : List RenderAccess :=
  ((List.range WIDTH).flatMap fun y => (List.range HEIGHT).flatMap fun x => render_fill y x) ++
    ((List.range HEIGHT).flatMap fun y => (List.range WIDTH).flatMap fun x => render_draw y x)

/-- An access is within bounds: a memory read in the video RAM `0x2400 .. 0x3FFF`,
`rotated_screen` within its declaration `[224][256]`, `fixed_screen` within
`[256][224]`, a pixel within the window of `WIDTH * DISPLAY_SCALE` by
`HEIGHT * DISPLAY_SCALE`. -/
def RenderAccess.inBounds : RenderAccess → Prop
  | .memory address => 0x2400 ≤ address ∧ address ≤ 0x3FFF
  | .rotated i j => i < 224 ∧ j < 256
  | .fixed i j => i < 256 ∧ j < 224
  | .pixel x y => x < 448 ∧ y < 512

/-! ## The driver loop of `main` (`spaceinvaders.c`): interrupt timing -/

/-- The variables of the loop in `main` that decide when interrupts are delivered:
`state->cycles` (`uint16_t`), the local `interrupt_timing` (`int`) and the global
`next_interrupt` (`uint8_t`). -/
structure Driver where
  cycles : Nat
  interrupt_timing : Nat
  next_interrupt : Nat
  deriving DecidableEq, Repr

/-- The variables when the loop is entered: `cycles` is 0 after `Init8080`,
`interrupt_timing = 33333 / 2`, `next_interrupt = 1`. -/
def Driver.start : Driver :=
  { cycles := 0, interrupt_timing := 33333 / 2, next_interrupt := 1 }

/-- One iteration of the loop in `main` on these variables, for an instruction that
adds `k` to the cycle counter.  The result holds the variables afterwards, the
number passed to `generate_interrupt` if it was called, and whether
`state->cycles = 0` was executed:
`if (state->cycles > interrupt_timing) { generate_interrupt(state, next_interrupt);
... next_interrupt = (next_interrupt == 1) ? 2 : 1; interrupt_timing =
(interrupt_timing == 33333 / 2) ? 33333 : 33333 / 2; }
if (state->cycles >= 33333) state->cycles = 0;`. -/
def driver_iteration (d : Driver) (k : Nat) : Driver × Option Nat × Bool :=
  let d : Driver := { d with cycles := (d.cycles + k) % 65536 }
  let delivered := if d.cycles > d.interrupt_timing then some d.next_interrupt else none
  let d : Driver :=
    if d.cycles > d.interrupt_timing then
      let d : Driver := { d with next_interrupt := if d.next_interrupt = 1 then 2 else 1 }
      { d with interrupt_timing := if d.interrupt_timing = 33333 / 2 then 33333 else 33333 / 2 }
    else d
  let reset := decide (d.cycles ≥ 33333)
  let d : Driver := if d.cycles ≥ 33333 then { d with cycles := 0 } else d
  (d, delivered, reset)

/-- The variables after the iterations for instructions of costs `ks`. -/
def driver_run (d : Driver) : List Nat → Driver
  | [] => d
  | k :: ks => driver_run (driver_iteration d k).1 ks

/-- What the iterations for instructions of costs `ks` did, in order: the interrupt
delivered, if any, and whether the cycle counter was reset. -/
def driver_trace (d : Driver) : List Nat → List (Option Nat × Bool)
  | [] => []
  | k :: ks => (driver_iteration d k).2 :: driver_trace (driver_iteration d k).1 ks

/-- The list `first, other, first, ...` of length `n` over the interrupt numbers 1
and 2. -/
def alternating (first : Nat) : Nat → List Nat
  | 0 => []
  | n + 1 => first :: alternating (if first = 1 then 2 else 1) n

/-! ## Bit-level facts -/

theorem and_ff_eq_mod (x : Nat) : x &&& 0xff = x % 256 :=
  Nat.and_pow_two_sub_one_eq_mod x 8

theorem shr8_eq_div (x : Nat) : x >>> 8 = x / 256 :=
  Nat.shiftRight_eq_div_pow x 8

theorem shl8_or_eq (hi lo : Nat) (h : lo < 256) : (hi <<< 8) ||| lo = 256 * hi + lo := by
  rw [Nat.shiftLeft_eq, Nat.mul_comm]
  exact (Nat.mul_add_lt_is_or (show lo < 2 ^ 8 from h) hi).symm

theorem and_bit_ne_zero (x i : Nat) : (x &&& (1 <<< i) != 0) = x.testBit i := by
  rw [Nat.shiftLeft_eq, Nat.one_mul, Nat.and_two_pow]
  cases x.testBit i <;> simp

theorem testBit_eq_div (x i : Nat) : x.testBit i = decide (x / 2 ^ i % 2 = 1) :=
  Nat.testBit_to_div_mod

theorem carry_eq_testBit (bit_no a b : Nat) (cy : Bool) :
    carry bit_no a b cy =
      (((a + b + cy.toNat).testBit bit_no ^^ a.testBit bit_no) ^^ b.testBit bit_no) := by
  unfold carry
  simp only [and_bit_ne_zero, Nat.testBit_xor]

theorem carry8_eq (a b : Nat) (cy : Bool) (ha : a < 256) (hb : b < 256) :
    carry 8 a b cy = decide (a + b + cy.toNat ≥ 256) := by
  rw [carry_eq_testBit]
  simp only [testBit_eq_div, Nat.reducePow]
  have hc : cy.toNat ≤ 1 := by cases cy <;> simp
  generalize cy.toNat = c at hc ⊢
  have h1 : a / 256 % 2 = 0 := by omega
  have h2 : b / 256 % 2 = 0 := by omega
  by_cases h : a + b + c ≥ 256
  · have h3 : (a + b + c) / 256 % 2 = 1 := by omega
    simp [h1, h2, h3, h]
  · have h3 : (a + b + c) / 256 % 2 = 0 := by omega
    simp [h1, h2, h3, h]

theorem carry4_eq (a b : Nat) (cy : Bool) :
    carry 4 a b cy = decide (a % 16 + b % 16 + cy.toNat ≥ 16) := by
  rw [carry_eq_testBit]
  simp only [testBit_eq_div, Nat.reducePow]
  have hc : cy.toNat ≤ 1 := by cases cy <;> simp
  generalize cy.toNat = c at hc ⊢
  by_cases h : a % 16 + b % 16 + c ≥ 16
  · rcases Nat.mod_two_eq_zero_or_one (a / 16) with h1 | h1 <;>
    rcases Nat.mod_two_eq_zero_or_one (b / 16) with h2 | h2
    · have h3 : (a + b + c) / 16 % 2 = 1 := by omega
      simp [h1, h2, h3, h]
    · have h3 : (a + b + c) / 16 % 2 = 0 := by omega
      simp [h1, h2, h3, h]
    · have h3 : (a + b + c) / 16 % 2 = 0 := by omega
      simp [h1, h2, h3, h]
    · have h3 : (a + b + c) / 16 % 2 = 1 := by omega
      simp [h1, h2, h3, h]
  · rcases Nat.mod_two_eq_zero_or_one (a / 16) with h1 | h1 <;>
    rcases Nat.mod_two_eq_zero_or_one (b / 16) with h2 | h2
    · have h3 : (a + b + c) / 16 % 2 = 0 := by omega
      simp [h1, h2, h3, h]
    · have h3 : (a + b + c) / 16 % 2 = 1 := by omega
      simp [h1, h2, h3, h]
    · have h3 : (a + b + c) / 16 % 2 = 1 := by omega
      simp [h1, h2, h3, h]
    · have h3 : (a + b + c) / 16 % 2 = 0 := by omega
      simp [h1, h2, h3, h]

set_option maxRecDepth 100000 in
theorem parity_eq_even_popcount_bounded :
    ∀ v < 256, parity v = decide (popcount8 v % 2 = 0) := by
  decide!

theorem parity_eq_even_popcount (v : Nat) (hv : v < 256) :
    parity v = decide (Even (popcount8 v)) := by
  rw [parity_eq_even_popcount_bounded v hv]
  simp [Nat.even_iff]

set_option maxRecDepth 100000 in
theorem not8_eq_sub_bounded : ∀ v < 256, not8 v = 255 - v := by
  decide!

theorem not8_eq_sub (v : Nat) (hv : v < 256) : not8 v = 255 - v :=
  not8_eq_sub_bounded v hv

/-! ## The ALU: `add`, `subtract`, `cmp` -/

theorem update_zsp_cc (state : State8080) (value : Nat) :
    (update_zsp state value).cc =
      { state.cc with
        z := (decide (value % 256 = 0)).toNat
        s := ((value % 256) >>> 7) % 2
        p := (parity (value % 256)).toNat } := by
  simp [update_zsp]

theorem add_cc (state : State8080) (reg : Reg8) (val : Nat) (cy : Bool) :
    (add state reg val cy).cc =
      { state.cc with
        z := (decide ((state.getReg reg + val + cy.toNat) % 256 % 256 = 0)).toNat
        s := (((state.getReg reg + val + cy.toNat) % 256 % 256) >>> 7) % 2
        p := (parity ((state.getReg reg + val + cy.toNat) % 256 % 256)).toNat
        cy := (carry 8 (state.getReg reg) val cy).toNat
        ac := (carry 4 (state.getReg reg) val cy).toNat } := by
  cases reg <;> simp [add, State8080.setReg, State8080.getReg, update_zsp]

theorem add_getReg (state : State8080) (reg : Reg8) (val : Nat) (cy : Bool) :
    (add state reg val cy).getReg reg = (state.getReg reg + val + cy.toNat) % 256 := by
  cases reg <;> simp [add, State8080.setReg, State8080.getReg, update_zsp]

theorem add_pc (state : State8080) (reg : Reg8) (val : Nat) (cy : Bool) :
    (add state reg val cy).pc = state.pc := by
  cases reg <;> rfl

theorem bit7_of_byte (r : Nat) : (r >>> 7) % 2 = (r.testBit 7).toNat := by
  rw [testBit_eq_div, Nat.shiftRight_eq_div_pow]
  rcases Nat.mod_two_eq_zero_or_one (r / 2 ^ 7) with h | h <;> rw [h] <;> rfl

/-- What `add` leaves in the register and in Carry, Zero, Sign and Parity. -/
theorem add_spec (state : State8080) (reg : Reg8) (b : Nat) (cy : Bool)
    (ha : state.getReg reg < 256) (hb : b < 256) :
    (add state reg b cy).getReg reg = (state.getReg reg + b + cy.toNat) % 256 ∧
    (add state reg b cy).cc.cy = (if state.getReg reg + b + cy.toNat ≥ 256 then 1 else 0) ∧
    (add state reg b cy).cc.cy = ((state.getReg reg + b + cy.toNat).testBit 8).toNat ∧
    (add state reg b cy).cc.z =
      (if (state.getReg reg + b + cy.toNat) % 256 = 0 then 1 else 0) ∧
    (add state reg b cy).cc.s = (((state.getReg reg + b + cy.toNat) % 256).testBit 7).toNat ∧
    (add state reg b cy).cc.p =
      (if Even (popcount8 ((state.getReg reg + b + cy.toNat) % 256)) then 1 else 0) := by
  have hc : cy.toNat ≤ 1 := by cases cy <;> simp
  have hr : (state.getReg reg + b + cy.toNat) % 256 < 256 := Nat.mod_lt _ (by decide)
  refine ⟨add_getReg state reg b cy, ?_, ?_, ?_, ?_, ?_⟩
  · rw [add_cc]
    show (carry 8 (state.getReg reg) b cy).toNat = _
    rw [carry8_eq _ _ _ ha hb]
    by_cases h : state.getReg reg + b + cy.toNat ≥ 256 <;> simp [h]
  · rw [add_cc]
    show (carry 8 (state.getReg reg) b cy).toNat = _
    rw [carry8_eq _ _ _ ha hb, testBit_eq_div]
    congr 1
    apply decide_eq_decide.mpr
    simp only [Nat.reducePow]
    omega
  · rw [add_cc]
    show (decide ((state.getReg reg + b + cy.toNat) % 256 % 256 = 0)).toNat = _
    rw [Nat.mod_mod]
    by_cases h : (state.getReg reg + b + cy.toNat) % 256 = 0 <;> simp [h]
  · rw [add_cc]
    show (((state.getReg reg + b + cy.toNat) % 256 % 256) >>> 7) % 2 = _
    rw [Nat.mod_mod, bit7_of_byte]
  · rw [add_cc]
    show (parity ((state.getReg reg + b + cy.toNat) % 256 % 256)).toNat = _
    rw [Nat.mod_mod, parity_eq_even_popcount _ hr]
    by_cases h : Even (popcount8 ((state.getReg reg + b + cy.toNat) % 256)) <;> simp [h]

/-- C1: for 8-bit `a`, `b` and a carry-in `cy`, `add` on a register holding `a`
leaves `(a + b + cy) mod 256` in the register, sets Carry to bit 8 of the
unreduced sum (1 exactly when `a + b + cy >= 256`), Zero exactly when the result
byte is 0, Sign to bit 7 of the result byte, and Parity to 1 exactly when the
result byte has an even number of one bits. -/
theorem add_result_and_flags (state : State8080) (reg : Reg8) (b : Nat) (cy : Bool)
    (ha : state.getReg reg < 256) (hb : b < 256) :
    (add state reg b cy).getReg reg = (state.getReg reg + b + cy.toNat) % 256 ∧
    (add state reg b cy).cc.cy = (if state.getReg reg + b + cy.toNat ≥ 256 then 1 else 0) ∧
    (add state reg b cy).cc.cy = ((state.getReg reg + b + cy.toNat).testBit 8).toNat ∧
    (add state reg b cy).cc.z =
      (if (state.getReg reg + b + cy.toNat) % 256 = 0 then 1 else 0) ∧
    (add state reg b cy).cc.s = (((state.getReg reg + b + cy.toNat) % 256).testBit 7).toNat ∧
    (add state reg b cy).cc.p =
      (if Even (popcount8 ((state.getReg reg + b + cy.toNat) % 256)) then 1 else 0) :=
  add_spec state reg b cy ha hb

/-- Witness for C1: `0x3C + 0xC4 = 0x100`, so the register ends at 0 with Carry,
Zero and Parity set and Sign clear. -/
theorem add_result_and_flags_witness :
    ({ State8080.zero with a := 0x3C } : State8080).getReg .a < 256 ∧ 0xC4 < 256 ∧
    (add { State8080.zero with a := 0x3C } .a 0xC4 false).getReg .a = 0 ∧
    (add { State8080.zero with a := 0x3C } .a 0xC4 false).cc.cy = 1 ∧
    (add { State8080.zero with a := 0x3C } .a 0xC4 false).cc.z = 1 ∧
    (add { State8080.zero with a := 0x3C } .a 0xC4 false).cc.s = 0 ∧
    (add { State8080.zero with a := 0x3C } .a 0xC4 false).cc.p = 1 := by
  have h := add_result_and_flags { State8080.zero with a := 0x3C } .a 0xC4 false
    (by decide) (by decide)
  exact ⟨by decide, by decide, h.1, h.2.1, h.2.2.2.1, h.2.2.2.2.1, h.2.2.2.2.2⟩

/-- C2: after `add`, Auxiliary-Carry is 1 exactly when the low nibbles and the
carry-in carry out of bit 3, that is when `a mod 16 + b mod 16 + cy >= 16`. -/
theorem add_aux_carry (state : State8080) (reg : Reg8) (b : Nat) (cy : Bool) :
    (add state reg b cy).cc.ac =
      (if state.getReg reg % 16 + b % 16 + cy.toNat ≥ 16 then 1 else 0) := by
  rw [add_cc]
  show (carry 4 (state.getReg reg) b cy).toNat = _
  rw [carry4_eq]
  by_cases h : state.getReg reg % 16 + b % 16 + cy.toNat ≥ 16 <;> simp [h]

theorem subtract_cc (state : State8080) (reg : Reg8) (val : Nat) (cy : Bool) :
    (subtract state reg val cy).cc =
      { (add state reg (not8 val) (!cy)).cc with
        cy := (decide ((add state reg (not8 val) (!cy)).cc.cy = 0)).toNat } := rfl

theorem subtract_getReg (state : State8080) (reg : Reg8) (val : Nat) (cy : Bool) :
    (subtract state reg val cy).getReg reg = (add state reg (not8 val) (!cy)).getReg reg := by
  cases reg <;> rfl

/-- What `subtract` leaves in the register and in the flags. -/
theorem subtract_spec (state : State8080) (reg : Reg8) (b : Nat) (cy : Bool)
    (ha : state.getReg reg < 256) (hb : b < 256) :
    (((subtract state reg b cy).getReg reg : Nat) : Int) =
      ((state.getReg reg : Int) - (b : Int) - (cy.toNat : Int)) % 256 ∧
    (subtract state reg b cy).cc.z = (add state reg (255 - b) (!cy)).cc.z ∧
    (subtract state reg b cy).cc.s = (add state reg (255 - b) (!cy)).cc.s ∧
    (subtract state reg b cy).cc.p = (add state reg (255 - b) (!cy)).cc.p ∧
    (subtract state reg b cy).cc.ac = (add state reg (255 - b) (!cy)).cc.ac ∧
    (subtract state reg b cy).cc.cy = 1 - (add state reg (255 - b) (!cy)).cc.cy ∧
    (subtract state reg b cy).cc.cy = (if state.getReg reg < b + cy.toNat then 1 else 0) := by
  have hn : not8 b = 255 - b := not8_eq_sub b hb
  have hcy : (add state reg (255 - b) (!cy)).cc.cy =
      (if state.getReg reg + (255 - b) + (!cy).toNat ≥ 256 then 1 else 0) :=
    (add_spec state reg (255 - b) (!cy) ha (by omega)).2.1
  have hc : (!cy).toNat + cy.toNat = 1 := by cases cy <;> rfl
  refine ⟨?_, ?_, ?_, ?_, ?_, ?_, ?_⟩
  · rw [subtract_getReg, add_getReg, hn]
    omega
  · rw [subtract_cc, hn]
  · rw [subtract_cc, hn]
  · rw [subtract_cc, hn]
  · rw [subtract_cc, hn]
  · rw [subtract_cc, hn]
    show (decide ((add state reg (255 - b) (!cy)).cc.cy = 0)).toNat = _
    rw [hcy]
    split <;> simp
  · rw [subtract_cc, hn]
    show (decide ((add state reg (255 - b) (!cy)).cc.cy = 0)).toNat = _
    rw [hcy]
    by_cases h : state.getReg reg < b + cy.toNat
    · have h2 : ¬ (state.getReg reg + (255 - b) + (!cy).toNat ≥ 256) := by omega
      simp [h, h2]
    · have h2 : state.getReg reg + (255 - b) + (!cy).toNat ≥ 256 := by omega
      simp [h, h2]

/-- C3: for 8-bit `a`, `b` and a borrow-in `cy`, `subtract` leaves
`(a - b - cy) mod 256` in the register, leaves Zero, Sign, Parity and
Auxiliary-Carry as `add(a, 255 - b, 1 - cy)` produces them, and leaves Carry the
inverse of that add's Carry, which is 1 exactly when `a < b + cy`. -/
theorem subtract_result_and_flags (state : State8080) (reg : Reg8) (b : Nat) (cy : Bool)
    (ha : state.getReg reg < 256) (hb : b < 256) :
    (((subtract state reg b cy).getReg reg : Nat) : Int) =
      ((state.getReg reg : Int) - (b : Int) - (cy.toNat : Int)) % 256 ∧
    (subtract state reg b cy).cc.z = (add state reg (255 - b) (!cy)).cc.z ∧
    (subtract state reg b cy).cc.s = (add state reg (255 - b) (!cy)).cc.s ∧
    (subtract state reg b cy).cc.p = (add state reg (255 - b) (!cy)).cc.p ∧
    (subtract state reg b cy).cc.ac = (add state reg (255 - b) (!cy)).cc.ac ∧
    (subtract state reg b cy).cc.cy = 1 - (add state reg (255 - b) (!cy)).cc.cy ∧
    (subtract state reg b cy).cc.cy = (if state.getReg reg < b + cy.toNat then 1 else 0) :=
  subtract_spec state reg b cy ha hb

/-- Witness for C3: `5 - 7` leaves `0xFE` with Carry (borrow) set. -/
theorem subtract_result_and_flags_witness :
    ({ State8080.zero with a := 5 } : State8080).getReg .a < 256 ∧ 7 < 256 ∧
    (((subtract { State8080.zero with a := 5 } .a 7 false).getReg .a : Nat) : Int) = 0xFE ∧
    (subtract { State8080.zero with a := 5 } .a 7 false).cc.cy = 1 := by
  have h := subtract_result_and_flags { State8080.zero with a := 5 } .a 7 false
    (by decide) (by decide)
  exact ⟨by decide, by decide, h.1, h.2.2.2.2.2.2⟩

theorem cmp_a (state : State8080) (value : Nat) : (cmp state value).a = state.a := rfl

theorem cmp_ac (state : State8080) (value : Nat) : (cmp state value).cc.ac = 0 := by
  show ((0xFFFF ^^^ (state.a ^^^ (state.a + 65536 - value % 256) % 65536 ^^^ (value % 256)))
    &&& 0x10) % 2 = 0
  rw [show (0x10 : Nat) = 2 ^ 4 from rfl, Nat.and_two_pow]
  omega

/-- C4, evaluated where it fails: with accumulator 0 and operand 0, `cmp` leaves
Auxiliary-Carry 0 while `subtract(a, b, 0)` sets it to 1; the other four flags
agree and the accumulator is unchanged. -/
theorem cmp_aux_carry_differs_from_subtract :
    (cmp State8080.zero 0).cc.ac = 0 ∧
    (subtract State8080.zero .a 0 false).cc.ac = 1 ∧
    (cmp State8080.zero 0).a = State8080.zero.a ∧
    (cmp State8080.zero 0).cc.z = (subtract State8080.zero .a 0 false).cc.z ∧
    (cmp State8080.zero 0).cc.s = (subtract State8080.zero .a 0 false).cc.s ∧
    (cmp State8080.zero 0).cc.p = (subtract State8080.zero .a 0 false).cc.p ∧
    (cmp State8080.zero 0).cc.cy = (subtract State8080.zero .a 0 false).cc.cy := by
  decide

theorem cmp_cc (state : State8080) (value : Nat) :
    (cmp state value).cc =
      { state.cc with
        cy := (((state.a + 65536 - value % 256) % 65536) >>> 8) % 2
        ac := ((0xFFFF ^^^ (state.a ^^^ (state.a + 65536 - value % 256) % 65536
          ^^^ (value % 256))) &&& 0x10) % 2
        z := (decide ((((state.a + 65536 - value % 256) % 65536) &&& 0xFF) % 256 = 0)).toNat
        s := (((((state.a + 65536 - value % 256) % 65536) &&& 0xFF) % 256) >>> 7) % 2
        p := (parity ((((state.a + 65536 - value % 256) % 65536) &&& 0xFF) % 256)).toNat } := by
  simp [cmp, update_zsp]

/-- Apart from Auxiliary-Carry, `cmp` computes the flags of `subtract(a, b, 0)`. -/
theorem cmp_flags_eq_subtract (state : State8080) (b : Nat)
    (ha : state.a < 256) (hb : b < 256) :
    (cmp state b).cc.z = (subtract state .a b false).cc.z ∧
    (cmp state b).cc.s = (subtract state .a b false).cc.s ∧
    (cmp state b).cc.p = (subtract state .a b false).cc.p ∧
    (cmp state b).cc.cy = (subtract state .a b false).cc.cy := by
  have hres : (((state.a + 65536 - b % 256) % 65536) &&& 0xFF) % 256 =
      (state.getReg .a + (255 - b) + (!false).toNat) % 256 % 256 := by
    rw [and_ff_eq_mod]
    show _ = (state.a + (255 - b) + 1) % 256 % 256
    omega
  have hcy := (subtract_spec state .a b false ha hb).2.2.2.2.2.2
  rw [cmp_cc, subtract_cc, not8_eq_sub b hb, add_cc]
  refine ⟨?_, ?_, ?_, ?_⟩
  · show (decide ((((state.a + 65536 - b % 256) % 65536) &&& 0xFF) % 256 = 0)).toNat = _
    rw [hres]
  · show (((((state.a + 65536 - b % 256) % 65536) &&& 0xFF) % 256) >>> 7) % 2 = _
    rw [hres]
  · show (parity ((((state.a + 65536 - b % 256) % 65536) &&& 0xFF) % 256)).toNat = _
    rw [hres]
  · rw [subtract_cc, not8_eq_sub b hb, add_cc] at hcy
    rw [hcy]
    show (((state.a + 65536 - b % 256) % 65536) >>> 8) % 2 = _
    rw [shr8_eq_div]
    show _ = if state.a < b + 0 then 1 else 0
    split <;> omega

/-! ## The stack: `push` and `pop` -/

theorem push_eq (state : State8080) (v : Nat) (hsp : state.sp < 65536) (h1 : state.sp ≠ 1) :
    push state v = some { state with
      sp := (state.sp + 65536 - 2) % 65536
      memory := fun j =>
        if j = (state.sp + 65536 - 2) % 65536 then ((v % 65536) &&& 0xff) % 256
        else if j = (state.sp + 65536 - 2) % 65536 + 1 then ((v % 65536) >>> 8) % 256
        else state.memory j } := by
  have hA : (state.sp + 65534) % 65536 + 1 < 65536 := by omega
  have hB : (state.sp + 65534) % 65536 < 65536 := by omega
  simp [push, store, MEMORY_SIZE, hA, hB]

theorem pop_eq (state : State8080) (hsp : state.sp + 1 < 65536) :
    pop state = some (((state.memory (state.sp + 1) <<< 8) ||| state.memory state.sp) % 65536,
      { state with sp := (state.sp + 2) % 65536 }) := by
  have hB : state.sp < 65536 := by omega
  simp [pop, load, MEMORY_SIZE, hsp, hB]

theorem word_of_bytes (v : Nat) :
    ((((v % 65536) >>> 8) % 256) <<< 8 ||| ((v % 65536) &&& 0xff) % 256) % 65536 = v % 65536 := by
  rw [and_ff_eq_mod, shr8_eq_div, shl8_or_eq _ _ (Nat.mod_lt _ (by decide))]
  omega

/-- Away from `sp = 1`, `pop` after `push` returns the value pushed and the
stack pointer is back where it started. -/
theorem push_pop_roundtrip (state : State8080) (v : Nat)
    (hsp : state.sp < 65536) (h1 : state.sp ≠ 1) :
    ∃ st1 st2, push state v = some st1 ∧ pop st1 = some (v % 65536, st2) ∧
      st2.sp = state.sp := by
  have hA : (state.sp + 65536 - 2) % 65536 + 1 < 65536 := by omega
  have hpop := pop_eq _ (show ({ state with
      sp := (state.sp + 65536 - 2) % 65536
      memory := fun j =>
        if j = (state.sp + 65536 - 2) % 65536 then ((v % 65536) &&& 0xff) % 256
        else if j = (state.sp + 65536 - 2) % 65536 + 1 then ((v % 65536) >>> 8) % 256
        else state.memory j } : State8080).sp + 1 < 65536 from hA)
  dsimp only at hpop
  rw [if_pos rfl, if_neg (Nat.succ_ne_self _), if_pos rfl, word_of_bytes] at hpop
  refine ⟨_, _, push_eq state v hsp h1, hpop, ?_⟩
  show ((state.sp + 65536 - 2) % 65536 + 2) % 65536 = state.sp
  omega

/-- At `sp = 1` the high byte of every push goes to index `0x10000`. -/
theorem push_none_of_sp_one (state : State8080) (v : Nat) (h : state.sp = 1) :
    push state v = none := by
  simp [push, store, MEMORY_SIZE, h]

/-- At `sp = 0xFFFF` every pop reads index `0x10000`. -/
theorem pop_none_of_sp_top (state : State8080) (h : state.sp = 0xFFFF) :
    pop state = none := by
  simp [pop, load, MEMORY_SIZE, h]

/-- C6, evaluated where it fails: with `sp = 1`, `push` decrements `sp` to
`0xFFFF` and stores the high byte at index `sp + 1 = 0x10000`, one past the end
of the buffer, so the push-then-pop round trip has no defined outcome. -/
theorem push_at_sp_one_out_of_bounds :
    push { State8080.zero with sp := 1 } 0x1234 = none ∧
    store State8080.zero.memory ((1 + 65536 - 2) % 65536 + 1) 0x12 = none := by
  constructor <;> rfl

/-- C7, where it fails as stated: popping at `sp = 0xFFFE` leaves `sp = 0`
(the 16-bit pointer wraps) rather than `0xFFFE + 2`, and popping at
`sp = 0xFFFF` reads index `sp + 1 = 0x10000`, outside the buffer. -/
theorem pop_near_top_counterexample :
    (pop { State8080.zero with sp := 0xFFFE }).map (fun r => r.2.sp) = some 0 ∧
    (pop { State8080.zero with sp := 0xFFFE }).map (fun r => r.2.sp) ≠ some (0xFFFE + 2) ∧
    pop { State8080.zero with sp := 0xFFFF } = none := by
  refine ⟨rfl, ?_, rfl⟩
  show some ((0xFFFE + 2) % 65536) ≠ some (0xFFFE + 2)
  decide

/-- C7 as amended: for `2 <= sp`, `push(v)` sets `sp` to `sp - 2`, stores the low
byte of `v` at the new `sp` and the high byte at the new `sp + 1`, and changes no
other memory byte, register or flag; for `2 <= sp <= 0xFFFE`, `pop()` returns
`memory[sp] + 256 * memory[sp + 1]`, sets `sp` to `(sp + 2) mod 65536` and
changes nothing else. -/
theorem push_pop_effect (state : State8080) (v : Nat)
    (hmem : ∀ i, state.memory i < 256) (hv : v < 65536)
    (h2 : 2 ≤ state.sp) (hsp : state.sp < 65536) :
    (∃ st1, push state v = some st1 ∧
      st1.sp = state.sp - 2 ∧
      st1.memory st1.sp = v % 256 ∧
      st1.memory (st1.sp + 1) = v / 256 ∧
      (∀ j, j ≠ st1.sp → j ≠ st1.sp + 1 → st1.memory j = state.memory j) ∧
      { st1 with sp := state.sp, memory := state.memory } = state) ∧
    (state.sp ≤ 0xFFFE →
      pop state = some (state.memory state.sp + 256 * state.memory (state.sp + 1),
        { state with sp := (state.sp + 2) % 65536 })) := by
  have hsp' : (state.sp + 65536 - 2) % 65536 = state.sp - 2 := by omega
  constructor
  · refine ⟨_, push_eq state v hsp (by omega), ?_, ?_, ?_, ?_, ?_⟩
    · exact hsp'
    · dsimp only
      rw [if_pos rfl, and_ff_eq_mod]
      omega
    · dsimp only
      rw [if_neg (Nat.succ_ne_self _), if_pos rfl, shr8_eq_div]
      omega
    · intro j hj1 hj2
      dsimp only at hj1 hj2 ⊢
      rw [if_neg hj1, if_neg hj2]
    · rfl
  · intro htop
    rw [pop_eq state (by omega), shl8_or_eq _ _ (hmem _)]
    have h1 := hmem state.sp
    have h2 := hmem (state.sp + 1)
    have h3 : (256 * state.memory (state.sp + 1) + state.memory state.sp) % 65536 =
        state.memory state.sp + 256 * state.memory (state.sp + 1) := by omega
    rw [h3]

/-- Witness for the amended C7: pushing `0x1234` at `sp = 0x2400`. -/
theorem push_pop_effect_witness :
    (∀ i, State8080.zero.memory i < 256) ∧ 0x1234 < 65536 ∧
    2 ≤ ({ State8080.zero with sp := 0x2400 } : State8080).sp ∧
    (∃ st1, push { State8080.zero with sp := 0x2400 } 0x1234 = some st1 ∧
      st1.sp = 0x2400 - 2 ∧ st1.memory st1.sp = 0x1234 % 256 ∧
      st1.memory (st1.sp + 1) = 0x1234 / 256) ∧
    pop { State8080.zero with sp := 0x2400 } =
      some (0, { State8080.zero with sp := (0x2400 + 2) % 65536 }) := by
  have h := push_pop_effect { State8080.zero with sp := 0x2400 } 0x1234
    (fun _ => Nat.zero_lt_succ 255) (by decide) (by decide) (by decide)
  obtain ⟨⟨st1, h1, h2, h3, h4, _⟩, hpop⟩ := h
  exact ⟨fun _ => Nat.zero_lt_succ 255, by decide, by decide, ⟨st1, h1, h2, h3, h4⟩,
    hpop (by decide)⟩

/-! ## One step of `emulate8080Op` -/

/-- The state after the cycle counter is charged for the opcode at `pc`. -/
theorem emulate8080Op_eq (state : State8080) (hpc : state.pc < 65536) :
    emulate8080Op state =
      emulate8080Op_switch
        { state with
          cycles := (state.cycles + OPCODES_CYCLES.getD (state.memory state.pc) 0) % 65536 }
        state.pc (state.memory state.pc) := by
  simp [emulate8080Op, load, MEMORY_SIZE, hpc]

set_option maxRecDepth 8000 in
theorem switch_daa (state : State8080) (pc0 : Nat) :
    emulate8080Op_switch state pc0 0x27 = some (pc_add (daa state) 1) := rfl

set_option maxRecDepth 8000 in
theorem switch_push_psw (state : State8080) (pc0 : Nat) :
    emulate8080Op_switch state pc0 0xf5 =
      (push_psw state).bind fun state => some (pc_add state 1) := rfl

set_option maxRecDepth 8000 in
theorem switch_pop_psw (state : State8080) (pc0 : Nat) :
    emulate8080Op_switch state pc0 0xf1 =
      (pop_psw state).bind fun state => some (pc_add state 1) := rfl

/-! ## Decimal adjust (opcode 0x27) -/

theorem and_0f_eq_mod (x : Nat) : x &&& 0x0F = x % 16 :=
  Nat.and_pow_two_sub_one_eq_mod x 4

theorem shr4_eq_div (x : Nat) : x >>> 4 = x / 16 :=
  Nat.shiftRight_eq_div_pow x 4

theorem daa_correction_eq (c1 c2 : Prop) [Decidable c1] [Decidable c2] :
    (if decide c2 = true then ((if c1 then (0 + 0x06) % 256 else 0) + 0x60) % 256
      else if c1 then (0 + 0x06) % 256 else 0) =
    (if c1 then 0x06 else 0) + (if c2 then 0x60 else 0) := by
  by_cases h1 : c1 <;> by_cases h2 : c2 <;> simp [h1, h2]

theorem daa_carry_eq (p q : Prop) [Decidable p] [Decidable q] :
    (if decide (p ∨ q) = true then true else decide p).toNat = if p ∨ q then 1 else 0 := by
  by_cases h1 : p <;> by_cases h2 : q <;> simp [h1, h2]

/-- The body of the DAA case as one `add` followed by the carry overwrite. -/
theorem daa_eq (state : State8080) :
    daa state =
      { add state .a
          ((if state.cc.ac ≠ 0 ∨ state.a % 16 > 9 then 0x06 else 0) +
            (if state.cc.cy ≠ 0 ∨ state.a / 16 > 9 ∨ (state.a / 16 ≥ 9 ∧ state.a % 16 > 9)
              then 0x60 else 0)) false with
        cc := { (add state .a
          ((if state.cc.ac ≠ 0 ∨ state.a % 16 > 9 then 0x06 else 0) +
            (if state.cc.cy ≠ 0 ∨ state.a / 16 > 9 ∨ (state.a / 16 ≥ 9 ∧ state.a % 16 > 9)
              then 0x60 else 0)) false).cc with
          cy := (if state.cc.cy ≠ 0 ∨ state.a / 16 > 9 ∨
            (state.a / 16 ≥ 9 ∧ state.a % 16 > 9) then 1 else 0) } } := by
  unfold daa
  simp only [and_0f_eq_mod, shr4_eq_div, daa_correction_eq, daa_carry_eq]

/-- C5: executing DAA (opcode 0x27) adds to A the correction
`(0x06 if Auxiliary-Carry or lo > 9) + (0x60 if Carry or hi > 9 or (hi >= 9 and
lo > 9))` modulo 256, sets Zero, Sign and Parity from the new A, and leaves Carry
equal to `old Carry or hi > 9 or (hi >= 9 and lo > 9)` whatever carry the
internal add produced; a Carry that was set before is still set after. -/
theorem daa_step (state : State8080)
    (hpc : state.pc < 65536) (hop : state.memory state.pc = 0x27) (ha : state.a < 256) :
    ∃ st, emulate8080Op state = some st ∧
      st.a = (state.a +
        ((if state.cc.ac ≠ 0 ∨ state.a % 16 > 9 then 0x06 else 0) +
          (if state.cc.cy ≠ 0 ∨ state.a / 16 > 9 ∨ (state.a / 16 ≥ 9 ∧ state.a % 16 > 9)
            then 0x60 else 0))) % 256 ∧
      st.cc.z = (if st.a = 0 then 1 else 0) ∧
      st.cc.s = (st.a.testBit 7).toNat ∧
      st.cc.p = (if Even (popcount8 st.a) then 1 else 0) ∧
      st.cc.cy = (if state.cc.cy ≠ 0 ∨ state.a / 16 > 9 ∨
        (state.a / 16 ≥ 9 ∧ state.a % 16 > 9) then 1 else 0) ∧
      (state.cc.cy ≠ 0 → st.cc.cy = 1) ∧
      st.pc = (state.pc + 1) % 65536 := by
  have hcorr : (if state.cc.ac ≠ 0 ∨ state.a % 16 > 9 then 0x06 else 0) +
      (if state.cc.cy ≠ 0 ∨ state.a / 16 > 9 ∨ (state.a / 16 ≥ 9 ∧ state.a % 16 > 9)
        then 0x60 else 0) < 256 := by
    split <;> split <;> decide
  rw [emulate8080Op_eq state hpc, hop, switch_daa, daa_eq]
  dsimp only [pc_add]
  generalize ((if state.cc.ac ≠ 0 ∨ state.a % 16 > 9 then 0x06 else 0) +
      (if state.cc.cy ≠ 0 ∨ state.a / 16 > 9 ∨ (state.a / 16 ≥ 9 ∧ state.a % 16 > 9)
        then 0x60 else 0)) = corr at hcorr ⊢
  refine ⟨_, rfl, ?_⟩
  dsimp only
  have hadd := add_spec
    { state with cycles := (state.cycles + OPCODES_CYCLES.getD 0x27 0) % 65536 }
    .a corr false ha hcorr
  simp only [State8080.getReg, Bool.toNat_false, Nat.add_zero] at hadd
  obtain ⟨hA, _, _, hZ, hS, hP⟩ := hadd
  refine ⟨hA, ?_, ?_, ?_, rfl, fun hcy => if_pos (Or.inl hcy), ?_⟩
  · simp only [hA]
    exact hZ
  · simp only [hA]
    exact hS
  · simp only [hA]
    exact hP
  · rw [add_pc]

/-- Witness for C5: `A = 0x9B` with both carries clear is corrected by `0x66`
to `0x01`, and Carry is set. -/
theorem daa_step_witness :
    ({ State8080.sample 0x27 0 0 with a := 0x9B } : State8080).pc < 65536 ∧
    ({ State8080.sample 0x27 0 0 with a := 0x9B } : State8080).memory 0x100 = 0x27 ∧
    ∃ st, emulate8080Op { State8080.sample 0x27 0 0 with a := 0x9B } = some st ∧
      st.a = 0x01 ∧ st.cc.cy = 1 ∧ st.pc = 0x101 := by
  obtain ⟨st, h, hA, _, _, _, hC, _, hPC⟩ :=
    daa_step { State8080.sample 0x27 0 0 with a := 0x9B } (by decide) (by decide) (by decide)
  exact ⟨by decide, by decide, st, h, hA.trans (by decide), hC.trans (by decide),
    hPC.trans (by decide)⟩

/-! ## PUSH PSW (0xf5) and POP PSW (0xf1) -/

theorem psw_flags_cc (state : State8080) :
    psw_flags state =
      psw_flags { State8080.zero with
        cc := ConditionCodes.ofFlags state.cc.s state.cc.z state.cc.ac state.cc.p state.cc.cy } :=
  rfl

/-- Layout of the flag byte for each of the 32 flag combinations. -/
theorem psw_flags_layout_bounded :
    ∀ s < 2, ∀ z < 2, ∀ ac < 2, ∀ p < 2, ∀ cy < 2,
      psw_flags { State8080.zero with cc := ConditionCodes.ofFlags s z ac p cy } =
        128 * s + 64 * z + 16 * ac + 4 * p + 2 + cy := by
  decide

theorem psw_flags_layout (state : State8080) (hcc : state.cc.WF) :
    psw_flags state =
      128 * state.cc.s + 64 * state.cc.z + 16 * state.cc.ac + 4 * state.cc.p + 2
        + state.cc.cy := by
  rw [psw_flags_cc]
  exact psw_flags_layout_bounded _ hcc.s_lt _ hcc.z_lt _ hcc.ac_lt _ hcc.p_lt _ hcc.cy_lt

/-- Bits of a byte laid out as the flag byte is. -/
theorem flag_byte_bits_bounded :
    ∀ s < 2, ∀ z < 2, ∀ ac < 2, ∀ p < 2, ∀ cy < 2,
      (128 * s + 64 * z + 16 * ac + 4 * p + 2 + cy).testBit 1 = true ∧
      (128 * s + 64 * z + 16 * ac + 4 * p + 2 + cy).testBit 3 = false ∧
      (128 * s + 64 * z + 16 * ac + 4 * p + 2 + cy).testBit 5 = false ∧
      ((128 * s + 64 * z + 16 * ac + 4 * p + 2 + cy).testBit 7).toNat = s ∧
      ((128 * s + 64 * z + 16 * ac + 4 * p + 2 + cy).testBit 6).toNat = z ∧
      ((128 * s + 64 * z + 16 * ac + 4 * p + 2 + cy).testBit 4).toNat = ac ∧
      ((128 * s + 64 * z + 16 * ac + 4 * p + 2 + cy).testBit 2).toNat = p ∧
      ((128 * s + 64 * z + 16 * ac + 4 * p + 2 + cy).testBit 0).toNat = cy := by
  intro s hs z hz ac hac p hp cy hcy
  interval_cases s <;> interval_cases z <;> interval_cases ac <;> interval_cases p <;>
    interval_cases cy <;> decide

theorem shr_and_one_mod (x i : Nat) : ((x >>> i) &&& 1) % 2 = x / 2 ^ i % 2 := by
  rw [Nat.and_one_is_mod, Nat.mod_mod, Nat.shiftRight_eq_div_pow]

theorem push_psw_eq (state : State8080) (ha : state.a < 256) (hcc : state.cc.WF)
    (hsp : state.sp < 65536) (h1 : state.sp ≠ 1) :
    push_psw state = some { state with
      sp := (state.sp + 65536 - 2) % 65536
      memory := fun j =>
        if j = (state.sp + 65536 - 2) % 65536 then
          128 * state.cc.s + 64 * state.cc.z + 16 * state.cc.ac + 4 * state.cc.p + 2
            + state.cc.cy
        else if j = (state.sp + 65536 - 2) % 65536 + 1 then state.a
        else state.memory j } := by
  have hF := psw_flags_layout state hcc
  have hs := hcc.s_lt
  have hz := hcc.z_lt
  have hac := hcc.ac_lt
  have hp := hcc.p_lt
  have hcy := hcc.cy_lt
  have hv : (state.a <<< 8) ||| psw_flags state =
      256 * state.a + (128 * state.cc.s + 64 * state.cc.z + 16 * state.cc.ac
        + 4 * state.cc.p + 2 + state.cc.cy) := by
    rw [hF, shl8_or_eq _ _ (by omega)]
  have hlo : ((((state.a <<< 8) ||| psw_flags state) % 65536) &&& 0xff) % 256 =
      128 * state.cc.s + 64 * state.cc.z + 16 * state.cc.ac + 4 * state.cc.p + 2
        + state.cc.cy := by
    rw [hv, and_ff_eq_mod]
    omega
  have hhi : ((((state.a <<< 8) ||| psw_flags state) % 65536) >>> 8) % 256 = state.a := by
    rw [hv, shr8_eq_div]
    omega
  unfold push_psw
  rw [push_eq _ _ hsp h1, hlo, hhi]

theorem pop_psw_eq (state : State8080) (s z ac p cy A : Nat)
    (hs : s < 2) (hz : z < 2) (hac : ac < 2) (hp : p < 2) (hcy : cy < 2) (hA : A < 256)
    (hsp : state.sp + 1 < 65536)
    (hlo : state.memory state.sp = 128 * s + 64 * z + 16 * ac + 4 * p + 2 + cy)
    (hhi : state.memory (state.sp + 1) = A) :
    pop_psw state = some { state with
      sp := (state.sp + 2) % 65536
      a := A
      cc := { z := z, s := s, p := p, cy := cy, ac := ac, pad := state.cc.pad } } := by
  unfold pop_psw
  rw [pop_eq state hsp, hlo, hhi, shl8_or_eq _ _ (by omega)]
  simp only [Option.some_bind, shr_and_one_mod, and_ff_eq_mod, shr8_eq_div, Nat.reducePow]
  have e0 : (256 * A + (128 * s + 64 * z + 16 * ac + 4 * p + 2 + cy)) % 65536 / 256 % 256
      = A := by omega
  have e1 : (256 * A + (128 * s + 64 * z + 16 * ac + 4 * p + 2 + cy)) % 65536 % 256 % 256
      = 128 * s + 64 * z + 16 * ac + 4 * p + 2 + cy := by omega
  rw [e0, e1]
  have b7 : (128 * s + 64 * z + 16 * ac + 4 * p + 2 + cy) / 128 % 2 = s := by omega
  have b6 : (128 * s + 64 * z + 16 * ac + 4 * p + 2 + cy) / 64 % 2 = z := by omega
  have b4 : (128 * s + 64 * z + 16 * ac + 4 * p + 2 + cy) / 16 % 2 = ac := by omega
  have b2 : (128 * s + 64 * z + 16 * ac + 4 * p + 2 + cy) / 4 % 2 = p := by omega
  have b0 : (128 * s + 64 * z + 16 * ac + 4 * p + 2 + cy) / 1 % 2 = cy := by omega
  rw [b7, b6, b4, b2, b0]

/-- One step at PUSH PSW, with `sp` other than 1. -/
theorem push_psw_step (state : State8080) (hwf : state.WF)
    (hop : state.memory state.pc = 0xf5) (h1 : state.sp ≠ 1) :
    emulate8080Op state = some { state with
      pc := (state.pc + 1) % 65536
      sp := (state.sp + 65536 - 2) % 65536
      memory := fun j =>
        if j = (state.sp + 65536 - 2) % 65536 then
          128 * state.cc.s + 64 * state.cc.z + 16 * state.cc.ac + 4 * state.cc.p + 2
            + state.cc.cy
        else if j = (state.sp + 65536 - 2) % 65536 + 1 then state.a
        else state.memory j
      cycles := (state.cycles + OPCODES_CYCLES.getD 0xf5 0) % 65536 } := by
  rw [emulate8080Op_eq state hwf.pc_lt, hop, switch_push_psw,
    push_psw_eq { state with cycles := (state.cycles + OPCODES_CYCLES.getD 0xf5 0) % 65536 }
      hwf.a_lt hwf.cc_wf hwf.sp_lt h1]
  rfl

/-- One step at POP PSW when the two bytes at `sp` are a flag byte and `A`. -/
theorem pop_psw_step (state : State8080) (s z ac p cy A : Nat)
    (hs : s < 2) (hz : z < 2) (hac : ac < 2) (hp : p < 2) (hcy : cy < 2) (hA : A < 256)
    (hpc : state.pc < 65536) (hop : state.memory state.pc = 0xf1)
    (hsp : state.sp + 1 < 65536)
    (hlo : state.memory state.sp = 128 * s + 64 * z + 16 * ac + 4 * p + 2 + cy)
    (hhi : state.memory (state.sp + 1) = A) :
    emulate8080Op state = some { state with
      pc := (state.pc + 1) % 65536
      sp := (state.sp + 2) % 65536
      a := A
      cc := { z := z, s := s, p := p, cy := cy, ac := ac, pad := state.cc.pad }
      cycles := (state.cycles + OPCODES_CYCLES.getD 0xf1 0) % 65536 } := by
  rw [emulate8080Op_eq state hpc, hop, switch_pop_psw,
    pop_psw_eq { state with cycles := (state.cycles + OPCODES_CYCLES.getD 0xf1 0) % 65536 }
      s z ac p cy A hs hz hac hp hcy hA hsp hlo hhi]
  rfl

/-- C8: for every combination of the five flags and every accumulator value,
with `sp` other than 1, PUSH PSW (0xf5) writes at the new `sp` a flag byte with
bit 1 set, bits 3 and 5 clear, Sign in bit 7, Zero in bit 6, Auxiliary-Carry in
bit 4, Parity in bit 2 and Carry in bit 0; and when the instruction executed
next is POP PSW (0xf1), the five flags, the accumulator and `sp` are back at
their values before the PUSH PSW. -/
theorem push_psw_pop_psw_roundtrip (state : State8080) (hwf : state.WF)
    (hop : state.memory state.pc = 0xf5) (h1 : state.sp ≠ 1) :
    ∃ st1, emulate8080Op state = some st1 ∧
      st1.sp = (state.sp + 65536 - 2) % 65536 ∧
      st1.memory st1.sp =
        128 * state.cc.s + 64 * state.cc.z + 16 * state.cc.ac + 4 * state.cc.p + 2
          + state.cc.cy ∧
      (st1.memory st1.sp).testBit 1 = true ∧
      (st1.memory st1.sp).testBit 3 = false ∧
      (st1.memory st1.sp).testBit 5 = false ∧
      ((st1.memory st1.sp).testBit 7).toNat = state.cc.s ∧
      ((st1.memory st1.sp).testBit 6).toNat = state.cc.z ∧
      ((st1.memory st1.sp).testBit 4).toNat = state.cc.ac ∧
      ((st1.memory st1.sp).testBit 2).toNat = state.cc.p ∧
      ((st1.memory st1.sp).testBit 0).toNat = state.cc.cy ∧
      (st1.memory st1.pc = 0xf1 →
        ∃ st2, emulate8080Op st1 = some st2 ∧
          st2.cc = state.cc ∧ st2.a = state.a ∧ st2.sp = state.sp) := by
  have hcc := hwf.cc_wf
  have hsp := hwf.sp_lt
  have hbits := flag_byte_bits_bounded _ hcc.s_lt _ hcc.z_lt _ hcc.ac_lt _ hcc.p_lt _ hcc.cy_lt
  obtain ⟨st1, hst1, hstep⟩ : ∃ st1, st1 = ({ state with
      pc := (state.pc + 1) % 65536
      sp := (state.sp + 65536 - 2) % 65536
      memory := fun j =>
        if j = (state.sp + 65536 - 2) % 65536 then
          128 * state.cc.s + 64 * state.cc.z + 16 * state.cc.ac + 4 * state.cc.p + 2
            + state.cc.cy
        else if j = (state.sp + 65536 - 2) % 65536 + 1 then state.a
        else state.memory j
      cycles := (state.cycles + OPCODES_CYCLES.getD 0xf5 0) % 65536 } : State8080) ∧
      emulate8080Op state = some st1 := ⟨_, rfl, push_psw_step state hwf hop h1⟩
  have hsp1 : st1.sp = (state.sp + 65536 - 2) % 65536 := by rw [hst1]
  have hpc1 : st1.pc < 65536 := by rw [hst1]; exact Nat.mod_lt _ (by decide)
  have hcc1 : st1.cc = state.cc := by rw [hst1]
  have hlo : st1.memory st1.sp =
      128 * state.cc.s + 64 * state.cc.z + 16 * state.cc.ac + 4 * state.cc.p + 2
        + state.cc.cy := by
    rw [hst1]
    dsimp only
    rw [if_pos rfl]
  have hhi : st1.memory (st1.sp + 1) = state.a := by
    rw [hst1]
    dsimp only
    rw [if_neg (Nat.succ_ne_self _), if_pos rfl]
  refine ⟨st1, hstep, hsp1, hlo, ?_⟩
  rw [hlo]
  refine ⟨hbits.1, hbits.2.1, hbits.2.2.1, hbits.2.2.2.1, hbits.2.2.2.2.1,
    hbits.2.2.2.2.2.1, hbits.2.2.2.2.2.2.1, hbits.2.2.2.2.2.2.2, ?_⟩
  intro hnext
  have hA : st1.sp + 1 < 65536 := by rw [hsp1]; omega
  refine ⟨_, pop_psw_step st1 state.cc.s state.cc.z state.cc.ac state.cc.p state.cc.cy state.a
    hcc.s_lt hcc.z_lt hcc.ac_lt hcc.p_lt hcc.cy_lt hwf.a_lt hpc1 hnext hA hlo hhi, ?_, rfl, ?_⟩
  · show ConditionCodes.mk state.cc.z state.cc.s state.cc.p state.cc.cy state.cc.ac
      st1.cc.pad = state.cc
    rw [hcc1]
  · show (st1.sp + 2) % 65536 = state.sp
    rw [hsp1]
    omega

/-- Witness for C8: flags S, AC, CY set, `A = 0xAB`, PUSH PSW at `0x100` followed
by POP PSW at `0x101`, stack at `0x2400`. -/
theorem push_psw_pop_psw_roundtrip_witness :
    ({ State8080.sample 0xf5 0xf1 0 with
        a := 0xAB, cc := ConditionCodes.ofFlags 1 0 1 0 1 } : State8080).WF ∧
    ∃ st1 st2,
      emulate8080Op { State8080.sample 0xf5 0xf1 0 with
        a := 0xAB, cc := ConditionCodes.ofFlags 1 0 1 0 1 } = some st1 ∧
      st1.memory st1.sp = 0x93 ∧
      emulate8080Op st1 = some st2 ∧
      st2.cc = ConditionCodes.ofFlags 1 0 1 0 1 ∧ st2.a = 0xAB ∧ st2.sp = 0x2400 := by
  have hwf : ({ State8080.sample 0xf5 0xf1 0 with
      a := 0xAB, cc := ConditionCodes.ofFlags 1 0 1 0 1 } : State8080).WF :=
    { a_lt := by decide, b_lt := by decide, c_lt := by decide, d_lt := by decide,
      e_lt := by decide, h_lt := by decide, l_lt := by decide, sp_lt := by decide,
      pc_lt := by decide,
      mem_lt := fun i => by
        show (if i = 0x100 then 0xf5 else if i = 0x101 then 0xf1
          else if i = 0x102 then 0 else 0) < 256
        split_ifs <;> decide
      cc_wf := ⟨by decide, by decide, by decide, by decide, by decide, by decide⟩
      int_enable_lt := by decide, halted_lt := by decide, cycles_lt := by decide }
  obtain ⟨st1, h1, _, hF, _, _, _, _, _, _, _, _, hnext⟩ :=
    push_psw_pop_psw_roundtrip _ hwf (by decide) (by decide)
  have hst1 := (push_psw_step _ hwf (by decide) (by decide)).symm.trans h1
  have hop1 : st1.memory st1.pc = 0xf1 := by
    rw [← Option.some.inj hst1]
    decide
  obtain ⟨st2, h2, hcc, ha, hsp⟩ := hnext hop1
  exact ⟨hwf, st1, st2, h1, hF.trans (by decide), h2, hcc, ha, hsp⟩

/-! ## Conditional jumps (0xc2, 0xca, 0xd2, 0xda, 0xe2, 0xea, 0xf2, 0xfa) -/

set_option maxRecDepth 8000 in
theorem switch_jnz (state : State8080) (pc0 : Nat) :
    emulate8080Op_switch state pc0 0xc2 =
      if state.cc.z = 0 then (opcode_word state pc0).bind fun w => some (jmp state w)
      else some (pc_add state 3) := rfl

set_option maxRecDepth 8000 in
theorem switch_jz (state : State8080) (pc0 : Nat) :
    emulate8080Op_switch state pc0 0xca =
      if state.cc.z ≠ 0 then (opcode_word state pc0).bind fun w => some (jmp state w)
      else some (pc_add state 3) := rfl

set_option maxRecDepth 8000 in
theorem switch_jnc (state : State8080) (pc0 : Nat) :
    emulate8080Op_switch state pc0 0xd2 =
      if state.cc.cy = 0 then (opcode_word state pc0).bind fun w => some (jmp state w)
      else some (pc_add state 3) := rfl

set_option maxRecDepth 8000 in
theorem switch_jc (state : State8080) (pc0 : Nat) :
    emulate8080Op_switch state pc0 0xda =
      if state.cc.cy ≠ 0 then (opcode_word state pc0).bind fun w => some (jmp state w)
      else some (pc_add state 3) := rfl

set_option maxRecDepth 8000 in
theorem switch_jpo (state : State8080) (pc0 : Nat) :
    emulate8080Op_switch state pc0 0xe2 =
      if state.cc.p = 0 then (opcode_word state pc0).bind fun w => some (jmp state w)
      else some (pc_add state 3) := rfl

set_option maxRecDepth 8000 in
theorem switch_jpe (state : State8080) (pc0 : Nat) :
    emulate8080Op_switch state pc0 0xea =
      if state.cc.p ≠ 0 then (opcode_word state pc0).bind fun w => some (jmp state w)
      else some (pc_add state 3) := rfl

set_option maxRecDepth 8000 in
theorem switch_jp (state : State8080) (pc0 : Nat) :
    emulate8080Op_switch state pc0 0xf2 =
      if state.cc.s = 0 then (opcode_word state pc0).bind fun w => some (jmp state w)
      else some (pc_add state 3) := rfl

set_option maxRecDepth 8000 in
theorem switch_jm (state : State8080) (pc0 : Nat) :
    emulate8080Op_switch state pc0 0xfa =
      if state.cc.s ≠ 0 then (opcode_word state pc0).bind fun w => some (jmp state w)
      else some (pc_add state 3) := rfl

/-- The switch at a conditional jump opcode, by condition index. -/
theorem switch_cond_jump (state : State8080) (pc0 k : Nat) (hk : k < 8) (hcc : state.cc.WF) :
    emulate8080Op_switch state pc0 (0xc2 + 8 * k) =
      if conditionHolds k state.cc = true then
        (opcode_word state pc0).bind fun w => some (jmp state w)
      else some (pc_add state 3) := by
  have hz := hcc.z_lt
  have hcy := hcc.cy_lt
  have hp := hcc.p_lt
  have hs := hcc.s_lt
  interval_cases k
  · rw [show 0xc2 + 8 * 0 = 0xc2 from rfl, switch_jnz]
    by_cases h : state.cc.z = 0 <;> simp [conditionHolds, h]
  · rw [show 0xc2 + 8 * 1 = 0xca from rfl, switch_jz]
    by_cases h : state.cc.z = 0
    · simp [conditionHolds, h]
    · have h1 : state.cc.z = 1 := by omega
      simp [conditionHolds, h1]
  · rw [show 0xc2 + 8 * 2 = 0xd2 from rfl, switch_jnc]
    by_cases h : state.cc.cy = 0 <;> simp [conditionHolds, h]
  · rw [show 0xc2 + 8 * 3 = 0xda from rfl, switch_jc]
    by_cases h : state.cc.cy = 0
    · simp [conditionHolds, h]
    · have h1 : state.cc.cy = 1 := by omega
      simp [conditionHolds, h1]
  · rw [show 0xc2 + 8 * 4 = 0xe2 from rfl, switch_jpo]
    by_cases h : state.cc.p = 0 <;> simp [conditionHolds, h]
  · rw [show 0xc2 + 8 * 5 = 0xea from rfl, switch_jpe]
    by_cases h : state.cc.p = 0
    · simp [conditionHolds, h]
    · have h1 : state.cc.p = 1 := by omega
      simp [conditionHolds, h1]
  · rw [show 0xc2 + 8 * 6 = 0xf2 from rfl, switch_jp]
    by_cases h : state.cc.s = 0 <;> simp [conditionHolds, h]
  · rw [show 0xc2 + 8 * 7 = 0xfa from rfl, switch_jm]
    by_cases h : state.cc.s = 0
    · simp [conditionHolds, h]
    · have h1 : state.cc.s = 1 := by omega
      simp [conditionHolds, h1]

theorem opcode_word_eq (state : State8080) (pc0 : Nat) (h : pc0 + 2 < 65536) :
    opcode_word state pc0 =
      some ((state.memory (pc0 + 2) <<< 8) ||| state.memory (pc0 + 1)) := by
  have h1 : pc0 + 1 < 65536 := by omega
  simp [opcode_word, opcode_at, load, MEMORY_SIZE, h, h1]

/-- The word `(opcode[2] << 8) | opcode[1]` when the operand bytes encode `t`. -/
theorem opcode_word_of_operand (state : State8080) (pc0 t : Nat) (h : pc0 + 2 < 65536)
    (hlo : state.memory (pc0 + 1) = t % 256)
    (hhi : state.memory (pc0 + 2) = t / 256) :
    opcode_word state pc0 = some t := by
  rw [opcode_word_eq state pc0 h, hlo, hhi, shl8_or_eq _ _ (Nat.mod_lt _ (by decide))]
  congr 1
  omega

theorem cycles_cond_jump (k : Nat) (hk : k < 8) : OPCODES_CYCLES.getD (0xc2 + 8 * k) 0 = 10 := by
  interval_cases k <;> rfl

/-- C9: for each conditional jump opcode `0xc2 + 8 * k` (JNZ, JZ, JNC, JC, JPO,
JPE, JP, JM), every flag state and every 16-bit operand `t` held in the two bytes
after the opcode: one step sets `pc` to `t` when the condition of the opcode holds
and to `(pc + 3) mod 65536` when it does not; apart from the cycle counter nothing
else changes (`sp`, memory, registers and flags are as before). -/
theorem conditional_jump_step (state : State8080) (k t : Nat) (hk : k < 8) (hwf : state.WF)
    (hop : state.memory state.pc = 0xc2 + 8 * k) (ht : t < 65536) :
    (conditionHolds k state.cc = true → state.pc + 2 < 65536 →
      state.memory (state.pc + 1) = t % 256 → state.memory (state.pc + 2) = t / 256 →
      emulate8080Op state =
        some { state with pc := t, cycles := (state.cycles + 10) % 65536 }) ∧
    (conditionHolds k state.cc = false →
      emulate8080Op state =
        some { state with pc := (state.pc + 3) % 65536,
                          cycles := (state.cycles + 10) % 65536 }) := by
  have hsw := switch_cond_jump
    { state with cycles := (state.cycles + OPCODES_CYCLES.getD (0xc2 + 8 * k) 0) % 65536 }
    state.pc k hk hwf.cc_wf
  constructor
  · intro hc hfit hlo hhi
    rw [emulate8080Op_eq state hwf.pc_lt, hop, hsw, if_pos hc,
      opcode_word_of_operand
        { state with cycles := (state.cycles + OPCODES_CYCLES.getD (0xc2 + 8 * k) 0) % 65536 }
        state.pc t hfit hlo hhi, cycles_cond_jump k hk]
    simp [jmp, Nat.mod_eq_of_lt ht]
  · intro hc
    rw [emulate8080Op_eq state hwf.pc_lt, hop, hsw, if_neg (by simp [hc]),
      cycles_cond_jump k hk]
    rfl

theorem sample_wf (b0 b1 b2 : Nat) (h0 : b0 < 256) (h1 : b1 < 256) (h2 : b2 < 256) :
    (State8080.sample b0 b1 b2).WF := by
  constructor
  case mem_lt =>
    intro i
    show (if i = 0x100 then b0 else if i = 0x101 then b1
      else if i = 0x102 then b2 else 0) < 256
    split_ifs <;> first | assumption | decide
  case cc_wf =>
    constructor <;> simp [State8080.sample, State8080.zero]
  all_goals simp [State8080.sample, State8080.zero]

theorem sampleAt_wf (b0 b1 b2 b3 : Nat) (h0 : b0 < 256) (h1 : b1 < 256) (h2 : b2 < 256)
    (h3 : b3 < 256) : (State8080.sampleAt b0 b1 b2 b3).WF := by
  have hs := sample_wf b0 b1 b2 h0 h1 h2
  constructor
  case mem_lt =>
    intro i
    show (if i = 0x2000 then b3 else (State8080.sample b0 b1 b2).memory i) < 256
    split_ifs
    · exact h3
    · exact hs.mem_lt i
  case cc_wf => exact hs.cc_wf
  case a_lt => exact hs.a_lt
  case b_lt => exact hs.b_lt
  case c_lt => exact hs.c_lt
  case d_lt => exact hs.d_lt
  case e_lt => exact hs.e_lt
  case h_lt => exact hs.h_lt
  case l_lt => exact hs.l_lt
  case sp_lt => exact hs.sp_lt
  case pc_lt => exact hs.pc_lt
  case int_enable_lt => exact hs.int_enable_lt
  case halted_lt => exact hs.halted_lt
  case cycles_lt => exact hs.cycles_lt

/-- Witness for C9: JNZ 0x1234 at `0x100` with Zero clear jumps to `0x1234`. -/
theorem conditional_jump_step_witness :
    (0 : Nat) < 8 ∧ (State8080.sample 0xc2 0x34 0x12).WF ∧
    (State8080.sample 0xc2 0x34 0x12).memory (State8080.sample 0xc2 0x34 0x12).pc
      = 0xc2 + 8 * 0 ∧
    0x1234 < 65536 ∧
    emulate8080Op (State8080.sample 0xc2 0x34 0x12) =
      some { State8080.sample 0xc2 0x34 0x12 with pc := 0x1234, cycles := (0 + 10) % 65536 } :=
  ⟨by decide, sample_wf _ _ _ (by decide) (by decide) (by decide), by decide, by decide,
    (conditional_jump_step (State8080.sample 0xc2 0x34 0x12) 0 0x1234 (by decide)
      (sample_wf _ _ _ (by decide) (by decide) (by decide)) (by decide) (by decide)).1
      (by decide) (by decide) (by decide) (by decide)⟩

/-! ## Conditional calls (0xc4, 0xcc, 0xd4, 0xdc, 0xe4, 0xec, 0xf4, 0xfc) -/

set_option maxRecDepth 8000 in
theorem switch_cnz (state : State8080) (pc0 : Nat) :
    emulate8080Op_switch state pc0 0xc4 =
      if state.cc.z = 0 then (opcode_word state pc0).bind fun w => call (pc_add state 3) w
      else some (pc_add state 3) := rfl

set_option maxRecDepth 8000 in
theorem switch_cz (state : State8080) (pc0 : Nat) :
    emulate8080Op_switch state pc0 0xcc =
      if state.cc.z ≠ 0 then (opcode_word state pc0).bind fun w => call (pc_add state 3) w
      else some (pc_add state 3) := rfl

set_option maxRecDepth 8000 in
theorem switch_cnc (state : State8080) (pc0 : Nat) :
    emulate8080Op_switch state pc0 0xd4 =
      if state.cc.cy = 0 then (opcode_word state pc0).bind fun w => call (pc_add state 3) w
      else some (pc_add state 3) := rfl

set_option maxRecDepth 8000 in
theorem switch_cc (state : State8080) (pc0 : Nat) :
    emulate8080Op_switch state pc0 0xdc =
      if state.cc.cy ≠ 0 then (opcode_word state pc0).bind fun w => call (pc_add state 3) w
      else some (pc_add state 3) := rfl

set_option maxRecDepth 8000 in
theorem switch_cpo (state : State8080) (pc0 : Nat) :
    emulate8080Op_switch state pc0 0xe4 =
      if state.cc.p = 0 then (opcode_word state pc0).bind fun w => call (pc_add state 3) w
      else some (pc_add state 3) := rfl

set_option maxRecDepth 8000 in
theorem switch_cpe (state : State8080) (pc0 : Nat) :
    emulate8080Op_switch state pc0 0xec =
      if state.cc.p ≠ 0 then (opcode_word state pc0).bind fun w => call (pc_add state 3) w
      else some (pc_add state 3) := rfl

set_option maxRecDepth 8000 in
theorem switch_cp (state : State8080) (pc0 : Nat) :
    emulate8080Op_switch state pc0 0xf4 =
      if state.cc.s = 0 then (opcode_word state pc0).bind fun w => call (pc_add state 3) w
      else some (pc_add state 3) := rfl

set_option maxRecDepth 8000 in
theorem switch_cm (state : State8080) (pc0 : Nat) :
    emulate8080Op_switch state pc0 0xfc =
      if state.cc.s ≠ 0 then (opcode_word state pc0).bind fun w => call (pc_add state 3) w
      else some (pc_add state 3) := rfl

/-- The switch at a conditional call opcode, by condition index. -/
theorem switch_cond_call (state : State8080) (pc0 k : Nat) (hk : k < 8) (hcc : state.cc.WF) :
    emulate8080Op_switch state pc0 (0xc4 + 8 * k) =
      if conditionHolds k state.cc = true then
        (opcode_word state pc0).bind fun w => call (pc_add state 3) w
      else some (pc_add state 3) := by
  have hz := hcc.z_lt
  have hcy := hcc.cy_lt
  have hp := hcc.p_lt
  have hs := hcc.s_lt
  interval_cases k
  · rw [show 0xc4 + 8 * 0 = 0xc4 from rfl, switch_cnz]
    by_cases h : state.cc.z = 0 <;> simp [conditionHolds, h]
  · rw [show 0xc4 + 8 * 1 = 0xcc from rfl, switch_cz]
    by_cases h : state.cc.z = 0
    · simp [conditionHolds, h]
    · have h1 : state.cc.z = 1 := by omega
      simp [conditionHolds, h1]
  · rw [show 0xc4 + 8 * 2 = 0xd4 from rfl, switch_cnc]
    by_cases h : state.cc.cy = 0 <;> simp [conditionHolds, h]
  · rw [show 0xc4 + 8 * 3 = 0xdc from rfl, switch_cc]
    by_cases h : state.cc.cy = 0
    · simp [conditionHolds, h]
    · have h1 : state.cc.cy = 1 := by omega
      simp [conditionHolds, h1]
  · rw [show 0xc4 + 8 * 4 = 0xe4 from rfl, switch_cpo]
    by_cases h : state.cc.p = 0 <;> simp [conditionHolds, h]
  · rw [show 0xc4 + 8 * 5 = 0xec from rfl, switch_cpe]
    by_cases h : state.cc.p = 0
    · simp [conditionHolds, h]
    · have h1 : state.cc.p = 1 := by omega
      simp [conditionHolds, h1]
  · rw [show 0xc4 + 8 * 6 = 0xf4 from rfl, switch_cp]
    by_cases h : state.cc.s = 0 <;> simp [conditionHolds, h]
  · rw [show 0xc4 + 8 * 7 = 0xfc from rfl, switch_cm]
    by_cases h : state.cc.s = 0
    · simp [conditionHolds, h]
    · have h1 : state.cc.s = 1 := by omega
      simp [conditionHolds, h1]

theorem cycles_cond_call (k : Nat) (hk : k < 8) : OPCODES_CYCLES.getD (0xc4 + 8 * k) 0 = 11 := by
  interval_cases k <;> rfl

/-- The function `call` away from `sp = 1`: the current `pc` is pushed, low byte
at the new `sp`, and `pc` becomes the address. -/
theorem call_eq (state : State8080) (address : Nat)
    (hsp : state.sp < 65536) (h1 : state.sp ≠ 1) (hpc : state.pc < 65536)
    (haddr : address < 65536) :
    call state address = some { state with
      pc := address
      sp := (state.sp + 65536 - 2) % 65536
      memory := fun j =>
        if j = (state.sp + 65536 - 2) % 65536 then state.pc % 256
        else if j = (state.sp + 65536 - 1) % 65536 then state.pc / 256
        else state.memory j } := by
  have hlo : ((state.pc % 65536) &&& 0xff) % 256 = state.pc % 256 := by
    rw [and_ff_eq_mod]
    omega
  have hhi : ((state.pc % 65536) >>> 8) % 256 = state.pc / 256 := by
    rw [shr8_eq_div]
    omega
  have hidx : (state.sp + 65536 - 2) % 65536 + 1 = (state.sp + 65536 - 1) % 65536 := by omega
  unfold call
  rw [push_eq state state.pc hsp h1, hlo, hhi, hidx]
  simp [jmp, Nat.mod_eq_of_lt haddr]

/-- C10: for each conditional call opcode `0xc4 + 8 * k` (CNZ, CZ, CNC, CC, CPO,
CPE, CP, CM) with 16-bit operand `t` in the two bytes after the opcode and `sp`
other than 1: when the condition holds, one step pushes the return address
`(pc + 3) mod 65536` (low byte at `sp - 2`, high byte at `sp - 1`, both modulo
65536), sets `sp` to `sp - 2` and `pc` to `t`; when it does not hold, `pc` becomes
`(pc + 3) mod 65536` and `sp` and memory are unchanged.  The two outcomes differ
in `sp`, so exactly one of them occurs. -/
theorem conditional_call_step (state : State8080) (k t : Nat) (hk : k < 8) (hwf : state.WF)
    (hop : state.memory state.pc = 0xc4 + 8 * k) (ht : t < 65536) (hsp : state.sp ≠ 1) :
    (conditionHolds k state.cc = true → state.pc + 2 < 65536 →
      state.memory (state.pc + 1) = t % 256 → state.memory (state.pc + 2) = t / 256 →
      emulate8080Op state =
        some { state with
          pc := t
          sp := (state.sp + 65536 - 2) % 65536
          memory := fun j =>
            if j = (state.sp + 65536 - 2) % 65536 then (state.pc + 3) % 65536 % 256
            else if j = (state.sp + 65536 - 1) % 65536 then (state.pc + 3) % 65536 / 256
            else state.memory j
          cycles := (state.cycles + 11) % 65536 }) ∧
    (conditionHolds k state.cc = false →
      emulate8080Op state =
        some { state with pc := (state.pc + 3) % 65536,
                          cycles := (state.cycles + 11) % 65536 }) ∧
    (state.sp + 65536 - 2) % 65536 ≠ state.sp := by
  have hsw := switch_cond_call
    { state with cycles := (state.cycles + OPCODES_CYCLES.getD (0xc4 + 8 * k) 0) % 65536 }
    state.pc k hk hwf.cc_wf
  have hsplt := hwf.sp_lt
  refine ⟨?_, ?_, by omega⟩
  · intro hc hfit hlo hhi
    rw [emulate8080Op_eq state hwf.pc_lt, hop, hsw, if_pos hc,
      opcode_word_of_operand
        { state with cycles := (state.cycles + OPCODES_CYCLES.getD (0xc4 + 8 * k) 0) % 65536 }
        state.pc t hfit hlo hhi, cycles_cond_call k hk]
    rw [Option.some_bind, call_eq
      (pc_add { state with cycles := (state.cycles + 11) % 65536 } 3) t
      hsplt hsp (Nat.mod_lt _ (by decide)) ht]
    rfl
  · intro hc
    rw [emulate8080Op_eq state hwf.pc_lt, hop, hsw, if_neg (by simp [hc]),
      cycles_cond_call k hk]
    rfl

/-- Witness for C10: CNZ 0x1234 at `0x100` with Zero clear and `sp = 0x2400`
pushes `0x0103` and continues at `0x1234`. -/
theorem conditional_call_step_witness :
    (0 : Nat) < 8 ∧ (State8080.sample 0xc4 0x34 0x12).WF ∧
    (State8080.sample 0xc4 0x34 0x12).memory (State8080.sample 0xc4 0x34 0x12).pc
      = 0xc4 + 8 * 0 ∧
    0x1234 < 65536 ∧ (State8080.sample 0xc4 0x34 0x12).sp ≠ 1 ∧
    ∃ st, emulate8080Op (State8080.sample 0xc4 0x34 0x12) = some st ∧
      st.pc = 0x1234 ∧ st.sp = 0x23FE ∧ st.memory 0x23FE = 0x03 ∧ st.memory 0x23FF = 0x01 :=
  ⟨by decide, sample_wf _ _ _ (by decide) (by decide) (by decide), by decide, by decide,
    by decide, _,
    (conditional_call_step (State8080.sample 0xc4 0x34 0x12) 0 0x1234 (by decide)
      (sample_wf _ _ _ (by decide) (by decide) (by decide)) (by decide) (by decide)
      (by decide)).1 (by decide) (by decide) (by decide) (by decide),
    rfl, rfl, rfl, rfl⟩

/-! ## Conditional returns (0xc0, 0xc8, 0xd0, 0xd8, 0xe0, 0xe8, 0xf0, 0xf8) -/

set_option maxRecDepth 8000 in
theorem switch_rnz (state : State8080) (pc0 : Nat) :
    emulate8080Op_switch state pc0 0xc0 =
      if state.cc.z = 0 then ret state else some (pc_add state 1) := rfl

set_option maxRecDepth 8000 in
theorem switch_rz (state : State8080) (pc0 : Nat) :
    emulate8080Op_switch state pc0 0xc8 =
      if state.cc.z ≠ 0 then ret state else some (pc_add state 1) := rfl

set_option maxRecDepth 8000 in
theorem switch_rnc (state : State8080) (pc0 : Nat) :
    emulate8080Op_switch state pc0 0xd0 =
      if state.cc.cy = 0 then ret state else some (pc_add state 1) := rfl

set_option maxRecDepth 8000 in
theorem switch_rc (state : State8080) (pc0 : Nat) :
    emulate8080Op_switch state pc0 0xd8 =
      if state.cc.cy ≠ 0 then ret state else some (pc_add state 1) := rfl

set_option maxRecDepth 8000 in
theorem switch_rpo (state : State8080) (pc0 : Nat) :
    emulate8080Op_switch state pc0 0xe0 =
      if state.cc.p = 0 then ret state else some (pc_add state 1) := rfl

set_option maxRecDepth 8000 in
theorem switch_rpe (state : State8080) (pc0 : Nat) :
    emulate8080Op_switch state pc0 0xe8 =
      if state.cc.p ≠ 0 then ret state else some (pc_add state 1) := rfl

set_option maxRecDepth 8000 in
theorem switch_rp (state : State8080) (pc0 : Nat) :
    emulate8080Op_switch state pc0 0xf0 =
      if state.cc.s = 0 then ret state else some (pc_add state 1) := rfl

set_option maxRecDepth 8000 in
theorem switch_rm (state : State8080) (pc0 : Nat) :
    emulate8080Op_switch state pc0 0xf8 =
      if state.cc.s ≠ 0 then ret state else some (pc_add state 1) := rfl

/-- The switch at a conditional return opcode, by condition index. -/
theorem switch_cond_ret (state : State8080) (pc0 k : Nat) (hk : k < 8) (hcc : state.cc.WF) :
    emulate8080Op_switch state pc0 (0xc0 + 8 * k) =
      if conditionHolds k state.cc = true then ret state else some (pc_add state 1) := by
  have hz := hcc.z_lt
  have hcy := hcc.cy_lt
  have hp := hcc.p_lt
  have hs := hcc.s_lt
  interval_cases k
  · rw [show 0xc0 + 8 * 0 = 0xc0 from rfl, switch_rnz]
    by_cases h : state.cc.z = 0 <;> simp [conditionHolds, h]
  · rw [show 0xc0 + 8 * 1 = 0xc8 from rfl, switch_rz]
    by_cases h : state.cc.z = 0
    · simp [conditionHolds, h]
    · have h1 : state.cc.z = 1 := by omega
      simp [conditionHolds, h1]
  · rw [show 0xc0 + 8 * 2 = 0xd0 from rfl, switch_rnc]
    by_cases h : state.cc.cy = 0 <;> simp [conditionHolds, h]
  · rw [show 0xc0 + 8 * 3 = 0xd8 from rfl, switch_rc]
    by_cases h : state.cc.cy = 0
    · simp [conditionHolds, h]
    · have h1 : state.cc.cy = 1 := by omega
      simp [conditionHolds, h1]
  · rw [show 0xc0 + 8 * 4 = 0xe0 from rfl, switch_rpo]
    by_cases h : state.cc.p = 0 <;> simp [conditionHolds, h]
  · rw [show 0xc0 + 8 * 5 = 0xe8 from rfl, switch_rpe]
    by_cases h : state.cc.p = 0
    · simp [conditionHolds, h]
    · have h1 : state.cc.p = 1 := by omega
      simp [conditionHolds, h1]
  · rw [show 0xc0 + 8 * 6 = 0xf0 from rfl, switch_rp]
    by_cases h : state.cc.s = 0 <;> simp [conditionHolds, h]
  · rw [show 0xc0 + 8 * 7 = 0xf8 from rfl, switch_rm]
    by_cases h : state.cc.s = 0
    · simp [conditionHolds, h]
    · have h1 : state.cc.s = 1 := by omega
      simp [conditionHolds, h1]

theorem cycles_cond_ret (k : Nat) (hk : k < 8) : OPCODES_CYCLES.getD (0xc0 + 8 * k) 0 = 5 := by
  interval_cases k <;> rfl

/-- With both stack bytes inside the buffer, `ret` loads `pc` from the two bytes
at `sp` (low byte first) and adds 2 to the 16-bit `sp`. -/
theorem ret_eq (state : State8080) (hmem : ∀ i, state.memory i < 256)
    (hsp : state.sp + 1 < 65536) :
    ret state = some { state with
      pc := state.memory state.sp + 256 * state.memory (state.sp + 1)
      sp := (state.sp + 2) % 65536 } := by
  have h1 := hmem state.sp
  have h2 := hmem (state.sp + 1)
  have h3 : (256 * state.memory (state.sp + 1) + state.memory state.sp) % 65536 =
      state.memory state.sp + 256 * state.memory (state.sp + 1) := by omega
  unfold ret
  rw [pop_eq state hsp, shl8_or_eq _ _ h1, h3]
  rfl

/-- At `sp = 0xFFFF`, `ret` reads index `0x10000`. -/
theorem ret_none_of_sp_top (state : State8080) (h : state.sp = 0xFFFF) : ret state = none := by
  unfold ret
  rw [pop_none_of_sp_top state h]
  rfl

set_option maxRecDepth 8000 in
/-- C11, where it fails as stated: a taken RNZ at `sp = 0xFFFE` leaves `sp = 0`
(the 16-bit pointer wraps) rather than `0xFFFE + 2`, and a taken RNZ at
`sp = 0xFFFF` reads index `sp + 1 = 0x10000`, outside the buffer. -/
theorem conditional_return_near_top_counterexample :
    conditionHolds 0 ({ State8080.sample 0xc0 0 0 with sp := 0xFFFE } : State8080).cc = true ∧
    (emulate8080Op { State8080.sample 0xc0 0 0 with sp := 0xFFFE }).map (fun st => st.sp)
      = some 0 ∧
    (emulate8080Op { State8080.sample 0xc0 0 0 with sp := 0xFFFE }).map (fun st => st.sp)
      ≠ some (0xFFFE + 2) ∧
    emulate8080Op { State8080.sample 0xc0 0 0 with sp := 0xFFFF } = none := by
  have h1 : (emulate8080Op { State8080.sample 0xc0 0 0 with sp := 0xFFFE }).map
      (fun st => st.sp) = some 0 := rfl
  refine ⟨rfl, h1, ?_, rfl⟩
  rw [h1]
  decide

/-- C11 as amended: for each conditional return opcode `0xc0 + 8 * k` (RNZ, RZ,
RNC, RC, RPO, RPE, RP, RM) and `sp <= 0xFFFE`: when the condition of the opcode
holds, one step sets `pc` to `memory[sp] + 256 * memory[sp + 1]` and `sp` to
`(sp + 2) mod 65536`; when it does not hold (any `sp`), `pc` becomes
`(pc + 1) mod 65536` and `sp` is unchanged.  Memory, registers and flags are
unchanged in both cases; the cycle counter grows by 5. -/
theorem conditional_return_step (state : State8080) (k : Nat) (hk : k < 8) (hwf : state.WF)
    (hop : state.memory state.pc = 0xc0 + 8 * k) :
    (conditionHolds k state.cc = true → state.sp ≤ 0xFFFE →
      emulate8080Op state =
        some { state with
          pc := state.memory state.sp + 256 * state.memory (state.sp + 1)
          sp := (state.sp + 2) % 65536
          cycles := (state.cycles + 5) % 65536 }) ∧
    (conditionHolds k state.cc = false →
      emulate8080Op state =
        some { state with pc := (state.pc + 1) % 65536,
                          cycles := (state.cycles + 5) % 65536 }) := by
  have hsw := switch_cond_ret
    { state with cycles := (state.cycles + OPCODES_CYCLES.getD (0xc0 + 8 * k) 0) % 65536 }
    state.pc k hk hwf.cc_wf
  constructor
  · intro hc hsp
    rw [emulate8080Op_eq state hwf.pc_lt, hop, hsw, if_pos hc, cycles_cond_ret k hk,
      ret_eq { state with cycles := (state.cycles + 5) % 65536 } hwf.mem_lt
        (show state.sp + 1 < 65536 by omega)]
  · intro hc
    rw [emulate8080Op_eq state hwf.pc_lt, hop, hsw, if_neg (by simp [hc]),
      cycles_cond_ret k hk]
    rfl

/-- Witness for the amended C11: RNZ at `0x100` with Zero clear and `sp = 0x2400`
returns to the address held at `0x2400`, which is 0. -/
theorem conditional_return_step_witness :
    (0 : Nat) < 8 ∧ (State8080.sample 0xc0 0 0).WF ∧
    (State8080.sample 0xc0 0 0).memory (State8080.sample 0xc0 0 0).pc = 0xc0 + 8 * 0 ∧
    ∃ st, emulate8080Op (State8080.sample 0xc0 0 0) = some st ∧
      st.pc = 0 ∧ st.sp = 0x2402 ∧ st.cycles = 5 :=
  ⟨by decide, sample_wf _ _ _ (by decide) (by decide) (by decide), by decide, _,
    (conditional_return_step (State8080.sample 0xc0 0 0) 0 (by decide)
      (sample_wf _ _ _ (by decide) (by decide) (by decide)) (by decide)).1
      (by decide) (by decide),
    rfl, rfl, rfl⟩

/-! ## CALL and RET (0xcd, 0xc9) -/

set_option maxRecDepth 8000 in
theorem switch_call (state : State8080) (pc0 : Nat) :
    emulate8080Op_switch state pc0 0xcd =
      (opcode_word state pc0).bind fun w => call (pc_add state 3) w := rfl

set_option maxRecDepth 8000 in
theorem switch_ret (state : State8080) (pc0 : Nat) :
    emulate8080Op_switch state pc0 0xc9 = ret state := rfl

/-- One step at a CALL whose operand bytes encode `t`, away from `sp = 1`. -/
theorem call_step_eq (state : State8080) (t : Nat) (hwf : state.WF)
    (hop : state.memory state.pc = 0xcd) (ht : t < 65536) (hsp : state.sp ≠ 1)
    (hfit : state.pc + 2 < 65536)
    (hlo : state.memory (state.pc + 1) = t % 256)
    (hhi : state.memory (state.pc + 2) = t / 256) :
    emulate8080Op state =
      some { state with
        pc := t
        sp := (state.sp + 65536 - 2) % 65536
        memory := fun j =>
          if j = (state.sp + 65536 - 2) % 65536 then (state.pc + 3) % 65536 % 256
          else if j = (state.sp + 65536 - 1) % 65536 then (state.pc + 3) % 65536 / 256
          else state.memory j
        cycles := (state.cycles + 17) % 65536 } := by
  rw [emulate8080Op_eq state hwf.pc_lt, hop, switch_call,
    opcode_word_of_operand
      { state with cycles := (state.cycles + OPCODES_CYCLES.getD 0xcd 0) % 65536 }
      state.pc t hfit hlo hhi]
  rw [Option.some_bind, call_eq
    (pc_add { state with cycles := (state.cycles + OPCODES_CYCLES.getD 0xcd 0) % 65536 } 3) t
    hwf.sp_lt hsp (Nat.mod_lt _ (by decide)) ht]
  rfl

/-- One step at a RET with both stack bytes inside the buffer. -/
theorem ret_step_eq (state : State8080) (hpc : state.pc < 65536)
    (hmem : ∀ i, state.memory i < 256) (hsp : state.sp + 1 < 65536)
    (hop : state.memory state.pc = 0xc9) :
    emulate8080Op state =
      some { state with
        pc := state.memory state.sp + 256 * state.memory (state.sp + 1)
        sp := (state.sp + 2) % 65536
        cycles := (state.cycles + 10) % 65536 } := by
  rw [emulate8080Op_eq state hpc, hop, switch_ret,
    ret_eq { state with cycles := (state.cycles + OPCODES_CYCLES.getD 0xc9 0) % 65536 } hmem hsp]
  rfl

/-- C12: for a state with `pc = p` and `sp` other than 1, CALL `t` (opcode 0xcd
with the operand in the two bytes after it) pushes `(p + 3) mod 65536` and sets `pc`
to `t`; if the instruction found at `t` is RET (0xc9), the step after that sets
`pc` to `(p + 3) mod 65536` and `sp` to its value before the CALL. -/
theorem call_then_ret (state : State8080) (t : Nat) (hwf : state.WF)
    (hop : state.memory state.pc = 0xcd) (ht : t < 65536) (hsp : state.sp ≠ 1)
    (hfit : state.pc + 2 < 65536)
    (hlo : state.memory (state.pc + 1) = t % 256)
    (hhi : state.memory (state.pc + 2) = t / 256) :
    ∃ st1, emulate8080Op state = some st1 ∧
      st1 = { state with
        pc := t
        sp := (state.sp + 65536 - 2) % 65536
        memory := fun j =>
          if j = (state.sp + 65536 - 2) % 65536 then (state.pc + 3) % 65536 % 256
          else if j = (state.sp + 65536 - 1) % 65536 then (state.pc + 3) % 65536 / 256
          else state.memory j
        cycles := (state.cycles + 17) % 65536 } ∧
      (st1.memory st1.pc = 0xc9 →
        ∃ st2, emulate8080Op st1 = some st2 ∧
          st2 = { st1 with
            pc := (state.pc + 3) % 65536
            sp := state.sp
            cycles := (state.cycles + 27) % 65536 }) := by
  have hsplt := hwf.sp_lt
  have hmem := hwf.mem_lt
  refine ⟨_, call_step_eq state t hwf hop ht hsp hfit hlo hhi, rfl, ?_⟩
  intro h9
  have hA : (state.sp + 65536 - 2) % 65536 + 1 = (state.sp + 65536 - 1) % 65536 := by omega
  have hB : (state.sp + 65536 - 1) % 65536 ≠ (state.sp + 65536 - 2) % 65536 := by omega
  refine ⟨_, ret_step_eq _ ht ?_ ?_ h9, ?_⟩
  · intro i
    dsimp only
    split_ifs
    · omega
    · omega
    · exact hmem i
  · dsimp only
    omega
  · dsimp only
    rw [hA, if_pos rfl, if_neg hB, if_pos rfl]
    have h1 : (state.pc + 3) % 65536 % 256 + 256 * ((state.pc + 3) % 65536 / 256) =
        (state.pc + 3) % 65536 := by omega
    have h2 : ((state.sp + 65536 - 2) % 65536 + 2) % 65536 = state.sp := by omega
    have h3 : ((state.cycles + 17) % 65536 + 10) % 65536 = (state.cycles + 27) % 65536 := by
      omega
    rw [h1, h2, h3]

/-- Witness for C12: CALL 0x2000 at `0x100` with `sp = 0x2400`, where a RET sits at
`0x2000`: the two steps end at `pc = 0x103` with `sp = 0x2400`. -/
theorem call_then_ret_witness :
    (State8080.sampleAt 0xcd 0x00 0x20 0xc9).WF ∧
    (State8080.sampleAt 0xcd 0x00 0x20 0xc9).memory (State8080.sampleAt 0xcd 0x00 0x20 0xc9).pc
      = 0xcd ∧
    0x2000 < 65536 ∧ (State8080.sampleAt 0xcd 0x00 0x20 0xc9).sp ≠ 1 ∧
    ∃ st1 st2, emulate8080Op (State8080.sampleAt 0xcd 0x00 0x20 0xc9) = some st1 ∧
      emulate8080Op st1 = some st2 ∧
      st1.pc = 0x2000 ∧ st1.sp = 0x23FE ∧ st1.memory 0x23FE = 0x03 ∧ st1.memory 0x23FF = 0x01 ∧
      st2.pc = 0x103 ∧ st2.sp = 0x2400 ∧ st2.cycles = 27 := by
  have hwf := sampleAt_wf 0xcd 0x00 0x20 0xc9 (by decide) (by decide) (by decide) (by decide)
  obtain ⟨st1, h1, heq, hnext⟩ := call_then_ret (State8080.sampleAt 0xcd 0x00 0x20 0xc9) 0x2000
    hwf (by decide) (by decide) (by decide) (by decide) (by decide) (by decide)
  subst heq
  obtain ⟨st2, h2, heq2⟩ := hnext (by decide)
  subst heq2
  exact ⟨hwf, by decide, by decide, by decide, _, _, h1, h2, rfl, rfl, rfl, rfl, rfl, rfl, rfl⟩

/-! ## The cycle counter and the control flags in the switch

No case of the switch reads `cycles`, `int_enable` or `halted`, and only HLT, DI
and EI write one of them: replacing the three fields before a case runs is the
same as replacing them afterwards. -/

theorem ite_map_congr {α β : Type} (g : α → β) (c : Prop) [Decidable c] (a' b' : β) (a b : α)
    (ha : c → a' = g a) (hb : b' = g b) :
    (if c then a' else b') = g (if c then a else b) := by
  split_ifs with hc
  · exact ha hc
  · exact hb

theorem some_map_congr {α β : Type} (g : α → β) (a' : β) (a : α) (h : a' = g a) :
    some a' = Option.map g (some a) := by
  subst h; rfl

theorem map_bind_push {α β γ : Type} (g : β → γ) (x : Option α) (F : α → Option β) :
    Option.map g (x.bind F) = x.bind fun a => Option.map g (F a) := by
  cases x <;> rfl

theorem bind_map_push {α β γ : Type} (k : α → β) (x : Option α) (F : β → Option γ) :
    (Option.map k x).bind F = x.bind fun a => F (k a) := by
  cases x <;> rfl

theorem map_some_push {α β : Type} (g : α → β) (a : α) : Option.map g (some a) = some (g a) := rfl

theorem map_ite_push {α β : Type} (g : α → β) (c : Prop) [Decidable c] (a b : Option α) :
    Option.map g (if c then a else b) = if c then Option.map g a else Option.map g b := by
  split_ifs <;> rfl

theorem read_hl_withCtl (state : State8080) (c ie h : Nat) :
    read_hl (state.withCtl c ie h) = read_hl state := rfl

theorem read_bc_withCtl (state : State8080) (c ie h : Nat) :
    read_bc (state.withCtl c ie h) = read_bc state := rfl

theorem read_de_withCtl (state : State8080) (c ie h : Nat) :
    read_de (state.withCtl c ie h) = read_de state := rfl

theorem pc_add_withCtl (state : State8080) (n c ie h : Nat) :
    pc_add (state.withCtl c ie h) n = (pc_add state n).withCtl c ie h := rfl

theorem opcode_at_withCtl (state : State8080) (pc0 k c ie h : Nat) :
    opcode_at (state.withCtl c ie h) pc0 k = opcode_at state pc0 k := rfl

theorem opcode_word_withCtl (state : State8080) (pc0 c ie h : Nat) :
    opcode_word (state.withCtl c ie h) pc0 = opcode_word state pc0 := rfl

theorem opcode_word_add_withCtl (state : State8080) (pc0 c ie h : Nat) :
    opcode_word_add (state.withCtl c ie h) pc0 = opcode_word_add state pc0 := rfl

theorem push_withCtl (state : State8080) (v c ie h : Nat) :
    push (state.withCtl c ie h) v = Option.map (fun st => st.withCtl c ie h) (push state v) := by
  simp only [push, store, State8080.withCtl]
  split_ifs <;> rfl

theorem pop_withCtl (state : State8080) (c ie h : Nat) :
    pop (state.withCtl c ie h) =
      Option.map (fun r => (r.1, r.2.withCtl c ie h)) (pop state) := by
  simp only [pop, load, State8080.withCtl]
  split_ifs <;> rfl

theorem call_withCtl (state : State8080) (w c ie h : Nat) :
    call (state.withCtl c ie h) w = Option.map (fun st => st.withCtl c ie h) (call state w) := by
  simp only [call, push, store, jmp, State8080.withCtl]
  split_ifs <;> rfl

theorem ret_withCtl (state : State8080) (c ie h : Nat) :
    ret (state.withCtl c ie h) = Option.map (fun st => st.withCtl c ie h) (ret state) := by
  simp only [ret, pop, load, State8080.withCtl]
  split_ifs <;> rfl

theorem xthl_withCtl (state : State8080) (c ie h : Nat) :
    xthl (state.withCtl c ie h) = Option.map (fun st => st.withCtl c ie h) (xthl state) := by
  simp only [xthl, load, store, State8080.withCtl]
  split_ifs <;> rfl

theorem stax_b_withCtl (state : State8080) (c ie h : Nat) :
    stax_b (state.withCtl c ie h) = Option.map (fun st => st.withCtl c ie h) (stax_b state) := by
  simp only [stax_b, read_bc, load, store, State8080.withCtl]
  split_ifs <;> rfl

theorem stax_d_withCtl (state : State8080) (c ie h : Nat) :
    stax_d (state.withCtl c ie h) = Option.map (fun st => st.withCtl c ie h) (stax_d state) := by
  simp only [stax_d, read_de, load, store, State8080.withCtl]
  split_ifs <;> rfl

theorem inr_m_withCtl (state : State8080) (c ie h : Nat) :
    inr_m (state.withCtl c ie h) = Option.map (fun st => st.withCtl c ie h) (inr_m state) := by
  simp only [inr_m, read_hl, load, store, State8080.withCtl]
  split_ifs <;> rfl

theorem dcr_m_withCtl (state : State8080) (c ie h : Nat) :
    dcr_m (state.withCtl c ie h) = Option.map (fun st => st.withCtl c ie h) (dcr_m state) := by
  simp only [dcr_m, read_hl, load, store, State8080.withCtl]
  split_ifs <;> rfl

theorem shld_withCtl (state : State8080) (address c ie h : Nat) :
    shld (state.withCtl c ie h) address =
      Option.map (fun st => st.withCtl c ie h) (shld state address) := by
  simp only [shld, load, store, State8080.withCtl]
  split_ifs <;> rfl

theorem lhld_withCtl (state : State8080) (address c ie h : Nat) :
    lhld (state.withCtl c ie h) address =
      Option.map (fun st => st.withCtl c ie h) (lhld state address) := by
  simp only [lhld, load, store, State8080.withCtl]
  split_ifs <;> rfl

theorem push_psw_withCtl (state : State8080) (c ie h : Nat) :
    push_psw (state.withCtl c ie h) =
      Option.map (fun st => st.withCtl c ie h) (push_psw state) := by
  simp only [push_psw, psw_flags, push, store, State8080.withCtl]
  split_ifs <;> rfl

theorem pop_psw_withCtl (state : State8080) (c ie h : Nat) :
    pop_psw (state.withCtl c ie h) =
      Option.map (fun st => st.withCtl c ie h) (pop_psw state) := by
  simp only [pop_psw, pop, load, State8080.withCtl]
  split_ifs <;> rfl


theorem inx_b_withCtl (state : State8080) (c ie h : Nat) :
    inx_b (state.withCtl c ie h) = (inx_b state).withCtl c ie h := by
  simp only [inx_b, State8080.withCtl]
  split_ifs <;> rfl

set_option maxRecDepth 100000 in
set_option maxHeartbeats 4000000 in
/-- Every case other than HLT, DI and EI commutes with replacing the cycle counter
and the control flags. -/
theorem switch_withCtl (state : State8080) (pc0 op c ie h : Nat)
    (h76 : op ≠ 0x76) (hf3 : op ≠ 0xf3) (hfb : op ≠ 0xfb) :
    emulate8080Op_switch (state.withCtl c ie h) pc0 op =
      Option.map (fun st => st.withCtl c ie h) (emulate8080Op_switch state pc0 op) := by
  unfold emulate8080Op_switch emulate8080Op_cases
  iterate 256 (refine ite_map_congr _ _ _ _ _ _ ?_ ?_; rotate_left)
  · rfl
  all_goals (
    intro hk
    first
      | exact absurd hk h76
      | exact absurd hk hf3
      | exact absurd hk hfb
      | (simp only [read_hl_withCtl, read_bc_withCtl, read_de_withCtl, pc_add_withCtl,
          opcode_at_withCtl, opcode_word_withCtl, opcode_word_add_withCtl, push_withCtl,
          pop_withCtl, call_withCtl, ret_withCtl, xthl_withCtl, stax_b_withCtl, stax_d_withCtl,
          inr_m_withCtl, dcr_m_withCtl, shld_withCtl, lhld_withCtl, push_psw_withCtl,
          pop_psw_withCtl, inx_b_withCtl, map_bind_push, bind_map_push, map_some_push,
          map_ite_push]
         first | done | rfl))

set_option maxRecDepth 8000 in
theorem switch_hlt (state : State8080) (pc0 : Nat) :
    emulate8080Op_switch state pc0 0x76 = some (pc_add { state with halted := 1 } 1) := rfl

set_option maxRecDepth 8000 in
theorem switch_di (state : State8080) (pc0 : Nat) :
    emulate8080Op_switch state pc0 0xf3 = some (pc_add { state with int_enable := 0 } 1) := rfl

set_option maxRecDepth 8000 in
theorem switch_ei (state : State8080) (pc0 : Nat) :
    emulate8080Op_switch state pc0 0xfb = some (pc_add { state with int_enable := 1 } 1) := rfl

/-- A case other than HLT, DI and EI leaves the three fields as they were. -/
theorem switch_preserves_ctl (state st : State8080) (pc0 op : Nat)
    (h76 : op ≠ 0x76) (hf3 : op ≠ 0xf3) (hfb : op ≠ 0xfb)
    (h : emulate8080Op_switch state pc0 op = some st) :
    st.cycles = state.cycles ∧ st.int_enable = state.int_enable ∧ st.halted = state.halted := by
  have hm := switch_withCtl state pc0 op state.cycles state.int_enable state.halted h76 hf3 hfb
  have he : state.withCtl state.cycles state.int_enable state.halted = state := rfl
  rw [he, h] at hm
  have hst : st = st.withCtl state.cycles state.int_enable state.halted :=
    Option.some.inj hm
  have hc := congrArg State8080.cycles hst
  have hi := congrArg State8080.int_enable hst
  have hh := congrArg State8080.halted hst
  exact ⟨hc, hi, hh⟩

/-- Every case commutes with replacing the cycle counter. -/
theorem switch_cycles (state : State8080) (pc0 op c : Nat) :
    emulate8080Op_switch { state with cycles := c } pc0 op =
      Option.map (fun st => { st with cycles := c }) (emulate8080Op_switch state pc0 op) := by
  by_cases h76 : op = 0x76
  · subst h76
    rw [switch_hlt, switch_hlt]
    rfl
  by_cases hf3 : op = 0xf3
  · subst hf3
    rw [switch_di, switch_di]
    rfl
  by_cases hfb : op = 0xfb
  · subst hfb
    rw [switch_ei, switch_ei]
    rfl
  have hm := switch_withCtl state pc0 op c state.int_enable state.halted h76 hf3 hfb
  have he : state.withCtl c state.int_enable state.halted = { state with cycles := c } := rfl
  rw [he] at hm
  rw [hm]
  cases hsw : emulate8080Op_switch state pc0 op with
  | none => rfl
  | some st =>
    obtain ⟨_, hie, hh⟩ := switch_preserves_ctl state st pc0 op h76 hf3 hfb hsw
    show some (st.withCtl c state.int_enable state.halted) = some { st with cycles := c }
    rw [← hie, ← hh]
    rfl

/-- The step as a whole: run the case of the opcode at `pc` on the state as it is,
then set the cycle counter to its old value plus the cost of the opcode. -/
theorem emulate8080Op_charge (state : State8080) :
    emulate8080Op state =
      (load state.memory state.pc).bind fun op =>
        Option.map
          (fun st => { st with cycles := (state.cycles + OPCODES_CYCLES.getD op 0) % 65536 })
          (emulate8080Op_switch state state.pc op) := by
  unfold emulate8080Op
  dsimp only
  cases load state.memory state.pc with
  | none => rfl
  | some op =>
    rw [Option.some_bind, Option.some_bind]
    exact switch_cycles state state.pc op _

/-- What a step returns, in terms of the case that ran. -/
theorem emulate8080Op_some (state st : State8080) (h : emulate8080Op state = some st) :
    state.pc < 65536 ∧
    ∃ x, emulate8080Op_switch state state.pc (state.memory state.pc) = some x ∧
      st = { x with
        cycles := (state.cycles + OPCODES_CYCLES.getD (state.memory state.pc) 0) % 65536 } := by
  rw [emulate8080Op_charge] at h
  unfold load at h
  by_cases hpc : state.pc < MEMORY_SIZE
  · rw [if_pos hpc, Option.some_bind] at h
    refine ⟨hpc, ?_⟩
    cases hsw : emulate8080Op_switch state state.pc (state.memory state.pc) with
    | none =>
      rw [hsw] at h
      exact absurd h (by simp)
    | some x =>
      rw [hsw] at h
      exact ⟨x, rfl, (Option.some.inj h).symm⟩
  · rw [if_neg hpc] at h
    exact absurd h (by simp)

/-- The cycle counter after a step is the counter before plus the cost of the
opcode at `pc`, modulo `2^16`. -/
theorem emulate8080Op_cycles (state st : State8080) (h : emulate8080Op state = some st) :
    st.cycles = (state.cycles + OPCODES_CYCLES.getD (state.memory state.pc) 0) % 65536 := by
  obtain ⟨_, x, _, hst⟩ := emulate8080Op_some state st h
  rw [hst]

set_option maxRecDepth 8000 in
theorem switch_nop (state : State8080) (pc0 : Nat) :
    emulate8080Op_switch state pc0 0x00 = some (pc_add state 1) := rfl

set_option maxRecDepth 8000 in
theorem switch_jmp (state : State8080) (pc0 : Nat) :
    emulate8080Op_switch state pc0 0xc3 =
      (opcode_word state pc0).bind fun w => some (jmp state w) := rfl

/-- One step at a NOP. -/
theorem nop_step_eq (state : State8080) (hpc : state.pc < 65536)
    (hop : state.memory state.pc = 0x00) :
    emulate8080Op state =
      some { state with pc := (state.pc + 1) % 65536, cycles := (state.cycles + 4) % 65536 } := by
  rw [emulate8080Op_eq state hpc, hop, switch_nop]
  rfl

/-- One step at a JMP with both operand bytes inside the buffer. -/
theorem jmp_step_eq (state : State8080) (hpc : state.pc + 2 < 65536)
    (hop : state.memory state.pc = 0xc3) :
    emulate8080Op state =
      some { state with
        pc := ((state.memory (state.pc + 2) <<< 8) ||| state.memory (state.pc + 1)) % 65536
        cycles := (state.cycles + 10) % 65536 } := by
  rw [emulate8080Op_eq state (by omega), hop, switch_jmp,
    opcode_word_eq
      { state with cycles := (state.cycles + OPCODES_CYCLES.getD 0xc3 0) % 65536 }
      state.pc hpc]
  rfl

/-- C13: one call of `emulate8080Op` is the case of the opcode `op` at `pc` run on
the state as it is, followed by setting the cycle counter to its old value plus
`OPCODES_CYCLES[op]` modulo `2^16`; so every step that returns has added exactly
that cost, whatever the flags are and whether or not a branch is taken.  A NOP
(0x00) adds 4, a JMP (0xc3) adds 10, and a NOP followed by a JMP from a zero
counter leaves the counter at 14. -/
theorem cycle_counter_step (state : State8080) :
    emulate8080Op state =
      ((load state.memory state.pc).bind fun op =>
        Option.map
          (fun st => { st with cycles := (state.cycles + OPCODES_CYCLES.getD op 0) % 65536 })
          (emulate8080Op_switch state state.pc op)) ∧
    (∀ st, emulate8080Op state = some st →
      st.cycles = (state.cycles + OPCODES_CYCLES.getD (state.memory state.pc) 0) % 65536) ∧
    (state.pc < 65536 → state.memory state.pc = 0x00 →
      ∃ st, emulate8080Op state = some st ∧ st.cycles = (state.cycles + 4) % 65536) ∧
    (state.pc + 2 < 65536 → state.memory state.pc = 0xc3 →
      ∃ st, emulate8080Op state = some st ∧ st.cycles = (state.cycles + 10) % 65536) ∧
    (state.pc + 3 < 65536 → state.cycles = 0 → state.memory state.pc = 0x00 →
      state.memory (state.pc + 1) = 0xc3 →
      ∃ st1 st2, emulate8080Op state = some st1 ∧ emulate8080Op st1 = some st2 ∧
        st2.cycles = 14) := by
  refine ⟨emulate8080Op_charge state, emulate8080Op_cycles state, ?_, ?_, ?_⟩
  · intro hpc hop
    exact ⟨_, nop_step_eq state hpc hop, rfl⟩
  · intro hpc hop
    exact ⟨_, jmp_step_eq state hpc hop, rfl⟩
  · intro hpc hc hop hop1
    have hpc1 : (state.pc + 1) % 65536 = state.pc + 1 := Nat.mod_eq_of_lt (by omega)
    have h2 := jmp_step_eq
      { state with pc := (state.pc + 1) % 65536, cycles := (state.cycles + 4) % 65536 }
      (show (state.pc + 1) % 65536 + 2 < 65536 by omega)
      (show state.memory ((state.pc + 1) % 65536) = 0xc3 by rw [hpc1]; exact hop1)
    refine ⟨_, _, nop_step_eq state (by omega) hop, h2, ?_⟩
    show ((state.cycles + 4) % 65536 + 10) % 65536 = 14
    rw [hc]

/-- Witness for C13: a NOP at `0x100` followed by JMP 0x0000 at `0x101`, from a zero
counter. -/
theorem cycle_counter_step_witness :
    (State8080.sample 0x00 0xc3 0x00).pc + 3 < 65536 ∧
    (State8080.sample 0x00 0xc3 0x00).cycles = 0 ∧
    ∃ st1 st2, emulate8080Op (State8080.sample 0x00 0xc3 0x00) = some st1 ∧
      emulate8080Op st1 = some st2 ∧ st1.cycles = 4 ∧ st2.cycles = 14 := by
  obtain ⟨st1, st2, h1, h2, h3⟩ :=
    (cycle_counter_step (State8080.sample 0x00 0xc3 0x00)).2.2.2.2
      (by decide) rfl (by decide) (by decide)
  refine ⟨by decide, rfl, st1, st2, h1, h2, ?_, h3⟩
  rw [(cycle_counter_step (State8080.sample 0x00 0xc3 0x00)).2.1 st1 h1]
  rfl

/-- A step from a state with another cycle counter is the same step with the
counter of the result replaced. -/
theorem emulate8080Op_cycles_irrelevant (s : State8080) (c : Nat) :
    emulate8080Op { s with cycles := c } =
      (emulate8080Op s).map fun st =>
        { st with cycles := (c + OPCODES_CYCLES.getD (s.memory s.pc) 0) % 65536 } := by
  rw [emulate8080Op_charge, emulate8080Op_charge]
  dsimp only
  unfold load
  by_cases hpc : s.pc < MEMORY_SIZE
  · rw [if_pos hpc, Option.some_bind, Option.some_bind, switch_cycles]
    cases emulate8080Op_switch s s.pc (s.memory s.pc) <;> rfl
  · rw [if_neg hpc]
    rfl

theorem agreeUpToCycles_eq (s t : State8080) (h : s.agreeUpToCycles t) :
    t = { s with cycles := t.cycles } := by
  obtain ⟨h1, h2, h3, h4, h5, h6, h7, h8, h9, h10, h11, h12, h13⟩ := h
  cases s
  cases t
  dsimp only at h1 h2 h3 h4 h5 h6 h7 h8 h9 h10 h11 h12 h13
  subst h1 h2 h3 h4 h5 h6 h7 h8 h9 h10 h11 h12 h13
  rfl

/-- C14: for two states that are equal in every field except the cycle counter,
one call of `emulate8080Op` either fails on both (a memory index outside the
buffer) or returns on both, and the two results are again equal in every field
except the cycle counter. -/
theorem cycles_do_not_influence_step (s t : State8080) (h : s.agreeUpToCycles t) :
    (emulate8080Op s = none ∧ emulate8080Op t = none) ∨
    ∃ s1 t1, emulate8080Op s = some s1 ∧ emulate8080Op t = some t1 ∧ s1.agreeUpToCycles t1 := by
  have ht := emulate8080Op_cycles_irrelevant s t.cycles
  rw [← agreeUpToCycles_eq s t h] at ht
  cases hs : emulate8080Op s with
  | none =>
    rw [hs] at ht
    exact Or.inl ⟨rfl, ht⟩
  | some s1 =>
    rw [hs] at ht
    exact Or.inr ⟨s1, _, rfl, ht, rfl, rfl, rfl, rfl, rfl, rfl, rfl, rfl, rfl, rfl, rfl, rfl,
      rfl⟩

set_option maxRecDepth 8000 in
/-- Witness for C14: ADD B at `0x100`, from cycle counters 0 and 7. -/
theorem cycles_do_not_influence_step_witness :
    (State8080.sample 0x80 0 0).agreeUpToCycles { State8080.sample 0x80 0 0 with cycles := 7 } ∧
    ∃ s1 t1, emulate8080Op (State8080.sample 0x80 0 0) = some s1 ∧
      emulate8080Op { State8080.sample 0x80 0 0 with cycles := 7 } = some t1 ∧
      s1.agreeUpToCycles t1 ∧ s1.cycles = 4 ∧ t1.cycles = 11 := by
  have hag : (State8080.sample 0x80 0 0).agreeUpToCycles
      { State8080.sample 0x80 0 0 with cycles := 7 } :=
    ⟨rfl, rfl, rfl, rfl, rfl, rfl, rfl, rfl, rfl, rfl, rfl, rfl, rfl⟩
  refine ⟨hag, ?_⟩
  rcases cycles_do_not_influence_step _ _ hag with ⟨h1, _⟩ | ⟨s1, t1, h1, h2, h3⟩
  · have hsome : (emulate8080Op (State8080.sample 0x80 0 0)).isSome = true := rfl
    rw [h1] at hsome
    exact absurd hsome (by decide)
  · refine ⟨s1, t1, h1, h2, h3, ?_, ?_⟩
    · rw [emulate8080Op_cycles _ _ h1]
      rfl
    · rw [emulate8080Op_cycles _ _ h2]
      rfl

/-! ## The control flags `int_enable` and `halted` -/

/-- One step at HLT. -/
theorem hlt_step_eq (state : State8080) (hpc : state.pc < 65536)
    (hop : state.memory state.pc = 0x76) :
    emulate8080Op state =
      some { state with
        halted := 1, pc := (state.pc + 1) % 65536, cycles := (state.cycles + 7) % 65536 } := by
  rw [emulate8080Op_eq state hpc, hop, switch_hlt]
  rfl

/-- One step at DI. -/
theorem di_step_eq (state : State8080) (hpc : state.pc < 65536)
    (hop : state.memory state.pc = 0xf3) :
    emulate8080Op state =
      some { state with
        int_enable := 0, pc := (state.pc + 1) % 65536, cycles := (state.cycles + 4) % 65536 } := by
  rw [emulate8080Op_eq state hpc, hop, switch_di]
  rfl

/-- One step at EI. -/
theorem ei_step_eq (state : State8080) (hpc : state.pc < 65536)
    (hop : state.memory state.pc = 0xfb) :
    emulate8080Op state =
      some { state with
        int_enable := 1, pc := (state.pc + 1) % 65536, cycles := (state.cycles + 4) % 65536 } := by
  rw [emulate8080Op_eq state hpc, hop, switch_ei]
  rfl

/-- A step at an opcode other than DI and EI keeps `int_enable`. -/
theorem emulate8080Op_int_enable (state st : State8080) (h : emulate8080Op state = some st)
    (hf3 : state.memory state.pc ≠ 0xf3) (hfb : state.memory state.pc ≠ 0xfb) :
    st.int_enable = state.int_enable := by
  obtain ⟨hpc, x, hx, hst⟩ := emulate8080Op_some state st h
  rw [hst]
  show x.int_enable = state.int_enable
  by_cases h76 : state.memory state.pc = 0x76
  · rw [h76, switch_hlt] at hx
    rw [← Option.some.inj hx]
    rfl
  · exact (switch_preserves_ctl state x state.pc _ h76 hf3 hfb hx).2.1

/-- A step at an opcode other than HLT keeps `halted`. -/
theorem emulate8080Op_halted (state st : State8080) (h : emulate8080Op state = some st)
    (h76 : state.memory state.pc ≠ 0x76) : st.halted = state.halted := by
  obtain ⟨hpc, x, hx, hst⟩ := emulate8080Op_some state st h
  rw [hst]
  show x.halted = state.halted
  by_cases hf3 : state.memory state.pc = 0xf3
  · rw [hf3, switch_di] at hx
    rw [← Option.some.inj hx]
    rfl
  by_cases hfb : state.memory state.pc = 0xfb
  · rw [hfb, switch_ei] at hx
    rw [← Option.some.inj hx]
    rfl
  exact (switch_preserves_ctl state x state.pc _ h76 hf3 hfb hx).2.2

/-- C17: within `emulate8080Op`, a step at any opcode other than DI (0xf3) and EI
(0xfb) leaves `int_enable` unchanged, and a step at any opcode other than HLT
(0x76) leaves `halted` unchanged; DI sets `int_enable` to 0, EI sets it to 1 and
HLT sets `halted` to 1, each changing nothing else but `pc` and the cycle
counter. -/
theorem control_flag_writers (state : State8080) :
    (∀ st, emulate8080Op state = some st →
      (state.memory state.pc ≠ 0xf3 → state.memory state.pc ≠ 0xfb →
        st.int_enable = state.int_enable) ∧
      (state.memory state.pc ≠ 0x76 → st.halted = state.halted)) ∧
    (state.pc < 65536 → state.memory state.pc = 0xf3 →
      emulate8080Op state =
        some { state with
          int_enable := 0
          pc := (state.pc + 1) % 65536
          cycles := (state.cycles + 4) % 65536 }) ∧
    (state.pc < 65536 → state.memory state.pc = 0xfb →
      emulate8080Op state =
        some { state with
          int_enable := 1
          pc := (state.pc + 1) % 65536
          cycles := (state.cycles + 4) % 65536 }) ∧
    (state.pc < 65536 → state.memory state.pc = 0x76 →
      emulate8080Op state =
        some { state with
          halted := 1
          pc := (state.pc + 1) % 65536
          cycles := (state.cycles + 7) % 65536 }) :=
  ⟨fun st h => ⟨emulate8080Op_int_enable state st h, emulate8080Op_halted state st h⟩,
    di_step_eq state, ei_step_eq state, hlt_step_eq state⟩

/-- Witness for C17: EI at `0x100` sets `int_enable` and leaves `halted`; PUSH B at
`0x100` leaves both as they were. -/
theorem control_flag_writers_witness :
    (∃ st, emulate8080Op (State8080.sample 0xfb 0 0) = some st ∧
      st.int_enable = 1 ∧ st.halted = (State8080.sample 0xfb 0 0).halted) ∧
    (∃ st, emulate8080Op (State8080.sample 0xc5 0 0) = some st ∧
      st.int_enable = (State8080.sample 0xc5 0 0).int_enable ∧
      st.halted = (State8080.sample 0xc5 0 0).halted) := by
  have hei := (control_flag_writers (State8080.sample 0xfb 0 0)).2.2.1 (by decide) (by decide)
  have hpush : ∃ st, emulate8080Op (State8080.sample 0xc5 0 0) = some st :=
    Option.isSome_iff_exists.mp rfl
  obtain ⟨st, hst⟩ := hpush
  have hw := (control_flag_writers (State8080.sample 0xc5 0 0)).1 st hst
  exact ⟨⟨_, hei, rfl, rfl⟩, ⟨st, hst, hw.1 (by decide) (by decide), hw.2 (by decide)⟩⟩

/-! ## `generate_interrupt` -/

/-- Away from `sp = 1`, `generate_interrupt` pushes `pc`, jumps to `8 * n` and
clears `int_enable` and `halted`. -/
theorem generate_interrupt_eq (state : State8080) (n : Nat)
    (hsp : state.sp < 65536) (h1 : state.sp ≠ 1) (hpc : state.pc < 65536) (hn : n < 8) :
    generate_interrupt state n = some { state with
      pc := 8 * n
      sp := (state.sp + 65536 - 2) % 65536
      memory := fun j =>
        if j = (state.sp + 65536 - 2) % 65536 then state.pc % 256
        else if j = (state.sp + 65536 - 1) % 65536 then state.pc / 256
        else state.memory j
      int_enable := 0
      halted := 0 } := by
  have hpc0 : (state.pc + 0) % 65536 = state.pc := by omega
  unfold generate_interrupt
  dsimp only
  rw [call_eq { state with pc := (state.pc + 0) % 65536 } (n * 8) hsp h1
    (Nat.mod_lt _ (by decide)) (by omega), Option.some_bind]
  dsimp only
  rw [hpc0, Nat.mul_comm n 8]

/-- The function `generate_interrupt` never reads `int_enable`. -/
theorem generate_interrupt_ignores_int_enable (state : State8080) (n ie : Nat) :
    generate_interrupt { state with int_enable := ie } n = generate_interrupt state n := by
  simp only [generate_interrupt, call, push, store, jmp]
  split_ifs <;> rfl

/-- C15: for every vector index `n` in 0..7 and every state with interrupts
enabled and `sp` other than 1, `generate_interrupt(n)` stores the low byte of `pc`
at `sp - 2` and the high byte at `sp - 1` (both modulo 65536), sets `sp` to
`sp - 2` and `pc` to `8 * n`, and clears `int_enable` and `halted`; the registers,
the flags, the cycle counter and the rest of memory are unchanged. -/
theorem generate_interrupt_enabled (state : State8080) (n : Nat) (hn : n < 8)
    (hwf : state.WF) (_hie : state.int_enable ≠ 0) (hsp : state.sp ≠ 1) :
    generate_interrupt state n = some { state with
      pc := 8 * n
      sp := (state.sp + 65536 - 2) % 65536
      memory := fun j =>
        if j = (state.sp + 65536 - 2) % 65536 then state.pc % 256
        else if j = (state.sp + 65536 - 1) % 65536 then state.pc / 256
        else state.memory j
      int_enable := 0
      halted := 0 } :=
  generate_interrupt_eq state n hwf.sp_lt hsp hwf.pc_lt hn

/-- Witness for C15: interrupt 2 at `pc = 0x100`, `sp = 0x2400`, interrupts enabled
and the machine halted. -/
theorem generate_interrupt_enabled_witness :
    (2 : Nat) < 8 ∧
    ({ State8080.sample 0 0 0 with int_enable := 1, halted := 1 } : State8080).WF ∧
    ({ State8080.sample 0 0 0 with int_enable := 1, halted := 1 } : State8080).int_enable ≠ 0 ∧
    ({ State8080.sample 0 0 0 with int_enable := 1, halted := 1 } : State8080).sp ≠ 1 ∧
    ∃ st, generate_interrupt { State8080.sample 0 0 0 with int_enable := 1, halted := 1 } 2
        = some st ∧
      st.pc = 0x10 ∧ st.sp = 0x23FE ∧ st.memory 0x23FE = 0x00 ∧ st.memory 0x23FF = 0x01 ∧
      st.int_enable = 0 ∧ st.halted = 0 := by
  have hs := sample_wf 0 0 0 (by decide) (by decide) (by decide)
  have hwf : ({ State8080.sample 0 0 0 with int_enable := 1, halted := 1 } : State8080).WF :=
    { hs with int_enable_lt := by decide, halted_lt := by decide }
  exact ⟨by decide, hwf, by decide, by decide, _,
    generate_interrupt_enabled _ 2 (by decide) hwf (by decide) (by decide),
    rfl, rfl, rfl, rfl, rfl, rfl⟩

/-- C16, where it fails: `generate_interrupt` has no test of `int_enable`, so its
result is the same whatever `int_enable` holds.  With `int_enable = 0`, `pc = 0x100`
and `sp = 0x2400`, `generate_interrupt(1)` pushes `0x0100`, jumps to `0x0008` and
clears `halted`, where a disabled interrupt is to change nothing.  The tuple is
(PC, SP, memory[0x23FE], memory[0x23FF], int_enable, halted). -/
theorem generate_interrupt_never_tests_int_enable :
    (∀ (state : State8080) (n ie : Nat),
      generate_interrupt { state with int_enable := ie } n = generate_interrupt state n) ∧
    (State8080.sample 0 0 0).int_enable = 0 ∧
    ((State8080.sample 0 0 0).pc, (State8080.sample 0 0 0).sp,
      (State8080.sample 0 0 0).memory 0x23FE, (State8080.sample 0 0 0).memory 0x23FF,
      (State8080.sample 0 0 0).int_enable, (State8080.sample 0 0 0).halted) =
        (0x0100, 0x2400, 0x00, 0x00, 0, 0) ∧
    (generate_interrupt (State8080.sample 0 0 0) 1).map
      (fun st => (st.pc, st.sp, st.memory 0x23FE, st.memory 0x23FF, st.int_enable,
        st.halted)) = some (0x0008, 0x23FE, 0x00, 0x01, 0, 0) ∧
    (generate_interrupt { State8080.sample 0 0 0 with halted := 1 } 1).map
      (fun st => (st.pc, st.sp, st.memory 0x23FE, st.memory 0x23FF, st.int_enable,
        st.halted)) = some (0x0008, 0x23FE, 0x00, 0x01, 0, 0) :=
  ⟨generate_interrupt_ignores_int_enable, rfl, rfl, rfl, rfl⟩

/-! ## Duplicate encodings -/

/-- The step is `execute_opcode` at the opcode read from `pc`. -/
theorem emulate8080Op_eq_execute_opcode (state : State8080) :
    emulate8080Op state =
      (load state.memory state.pc).bind fun op => execute_opcode op state := rfl

set_option maxRecDepth 8000 in
/-- C18: the duplicate encodings of NOP, JMP and CALL are exact duplicates: run in
place of the opcode read at `pc`, each of 0x08, 0x10, 0x18, 0x20, 0x28, 0x30 and
0x38 gives the state that 0x00 gives, 0xcb gives the state that 0xc3 gives, and
each of 0xdd, 0xed and 0xfd gives the state that 0xcd gives (same operand bytes,
same cycle count, same failure when an index leaves the buffer). -/
theorem duplicate_encodings (state : State8080) :
    emulate8080Op state =
      ((load state.memory state.pc).bind fun op => execute_opcode op state) ∧
    execute_opcode 0x08 state = execute_opcode 0x00 state ∧
    execute_opcode 0x10 state = execute_opcode 0x00 state ∧
    execute_opcode 0x18 state = execute_opcode 0x00 state ∧
    execute_opcode 0x20 state = execute_opcode 0x00 state ∧
    execute_opcode 0x28 state = execute_opcode 0x00 state ∧
    execute_opcode 0x30 state = execute_opcode 0x00 state ∧
    execute_opcode 0x38 state = execute_opcode 0x00 state ∧
    execute_opcode 0xcb state = execute_opcode 0xc3 state ∧
    execute_opcode 0xdd state = execute_opcode 0xcd state ∧
    execute_opcode 0xed state = execute_opcode 0xcd state ∧
    execute_opcode 0xfd state = execute_opcode 0xcd state :=
  ⟨rfl, rfl, rfl, rfl, rfl, rfl, rfl, rfl, rfl, rfl, rfl, rfl⟩

set_option maxRecDepth 8000 in
theorem execute_opcode_ret (state : State8080) :
    execute_opcode 0xc9 state =
      ret { state with cycles := (state.cycles + 10) % 65536 } := rfl

set_option maxRecDepth 8000 in
theorem execute_opcode_ret_duplicate (state : State8080) :
    execute_opcode 0xd9 state =
      (ret { state with cycles := (state.cycles + 10) % 65536 }).bind fun st =>
        some (pc_add st 1) := rfl

set_option maxRecDepth 8000 in
/-- C19, evaluated where it fails: case 0xd9 runs `ret(state)` and then
`state->pc += 1`, so it ends one byte past the address that RET (0xc9) returns
to.  With the return address `0x1234` on the stack, 0xc9 continues at `0x1234`
and 0xd9 at `0x1235`. -/
theorem ret_duplicate_off_by_one :
    (∀ state : State8080,
      execute_opcode 0xd9 state = (execute_opcode 0xc9 state).map fun st => pc_add st 1) ∧
    (emulate8080Op { State8080.sample 0xc9 0x34 0x12 with sp := 0x101 }).map (fun st => st.pc)
      = some 0x1234 ∧
    (emulate8080Op { State8080.sample 0xd9 0x34 0x12 with sp := 0x101 }).map (fun st => st.pc)
      = some 0x1235 := by
  refine ⟨fun state => ?_, rfl, rfl⟩
  rw [execute_opcode_ret, execute_opcode_ret_duplicate]
  cases ret { state with cycles := (state.cycles + 10) % 65536 } <;> rfl

/-! ## Totality of the dispatch -/

theorem ite_default_congr {α : Type} (op n : Nat) (a b b' : α) (hn : n ≤ op)
    (hb : n + 1 ≤ op → b = b') :
    (if op = n then a else b) = (if op = n then a else b') := by
  split_ifs with h
  · rfl
  · exact hb (Nat.lt_of_le_of_ne hn (Ne.symm h))

set_option maxRecDepth 100000 in
/-- For an opcode byte, the outcome of the switch does not depend on what stands
under `default:`. -/
theorem cases_default_irrelevant (d1 d2 : Option State8080) (state : State8080)
    (pc0 op : Nat) (hop : op < 256) :
    emulate8080Op_cases d1 state pc0 op = emulate8080Op_cases d2 state pc0 op := by
  unfold emulate8080Op_cases
  have h0 : 0 ≤ op := Nat.zero_le op
  iterate 256 (
    refine ite_default_congr op _ _ _ _ (by assumption) ?_
    clear h0
    intro h0)
  omega

set_option maxRecDepth 8000 in
/-- A value that is not an opcode byte falls through to `default:`. -/
theorem cases_default_reached (d : Option State8080) (state : State8080) (pc0 : Nat) :
    emulate8080Op_cases d state pc0 256 = d := rfl

/-- C20: the dispatch is total: for each of the 256 values of the opcode byte the
switch selects one of its `case` labels, so its outcome is the same whatever
stands under `default:`, and the `default:` branch of `emulate8080Op` (advance
`pc` by 1 and report an unimplemented instruction) is never taken for a byte. -/
theorem dispatch_total (op : Nat) (hop : op < 256) :
    (∀ (d1 d2 : Option State8080) (state : State8080) (pc0 : Nat),
      emulate8080Op_cases d1 state pc0 op = emulate8080Op_cases d2 state pc0 op) ∧
    (∀ (state : State8080) (pc0 : Nat),
      emulate8080Op_switch state pc0 op = emulate8080Op_cases none state pc0 op) :=
  ⟨fun d1 d2 state pc0 => cases_default_irrelevant d1 d2 state pc0 op hop,
    fun state pc0 => cases_default_irrelevant _ _ state pc0 op hop⟩

set_option maxRecDepth 8000 in
/-- Witness for C20: the last opcode, 0xff (RST 7), against the first value that
is not a byte, 256, which does reach `default:`. -/
theorem dispatch_total_witness :
    (0xff : Nat) < 256 ∧
    (∀ (d1 d2 : Option State8080) (state : State8080) (pc0 : Nat),
      emulate8080Op_cases d1 state pc0 0xff = emulate8080Op_cases d2 state pc0 0xff) ∧
    emulate8080Op_cases none State8080.zero 0 256 = none ∧
    emulate8080Op_cases (some State8080.zero) State8080.zero 0 256 = some State8080.zero :=
  ⟨by decide, (dispatch_total 0xff (by decide)).1, rfl, rfl⟩

/-! ## The port opcodes inside `emulate8080Op` (0xd3, 0xdb) -/

set_option maxRecDepth 8000 in
theorem switch_out (state : State8080) (pc0 : Nat) :
    emulate8080Op_switch state pc0 0xd3 = some (pc_add state 2) := rfl

set_option maxRecDepth 8000 in
theorem switch_in (state : State8080) (pc0 : Nat) :
    emulate8080Op_switch state pc0 0xdb = some (pc_add state 2) := rfl

/-- C21: `emulate8080Op` gives OUT (0xd3) and IN (0xdb) no semantics of their own:
for every state, one step at either opcode sets `pc` to `(pc + 2) mod 65536`, adds
10 to the cycle counter and changes nothing else (the accumulator, the other
registers, the flags, `sp`, memory, `int_enable` and `halted` are as before). -/
theorem port_opcodes_step (state : State8080) (hpc : state.pc < 65536)
    (hop : state.memory state.pc = 0xd3 ∨ state.memory state.pc = 0xdb) :
    emulate8080Op state =
      some { state with pc := (state.pc + 2) % 65536, cycles := (state.cycles + 10) % 65536 } := by
  rcases hop with hop | hop
  · rw [emulate8080Op_eq state hpc, hop, switch_out]
    rfl
  · rw [emulate8080Op_eq state hpc, hop, switch_in]
    rfl

/-- Witness for C21: IN 0x01 at `0x100` with `a = 0x55`. -/
theorem port_opcodes_step_witness :
    ({ State8080.sample 0xdb 0x01 0 with a := 0x55 } : State8080).pc < 65536 ∧
    ∃ st, emulate8080Op { State8080.sample 0xdb 0x01 0 with a := 0x55 } = some st ∧
      st.pc = 0x102 ∧ st.cycles = 10 ∧ st.a = 0x55 :=
  ⟨by decide, _,
    port_opcodes_step { State8080.sample 0xdb 0x01 0 with a := 0x55 } (by decide)
      (Or.inr (by decide)),
    rfl, rfl, rfl⟩

/-! ## Register pairs -/

theorem read_pair_eq (hi lo : Nat) (hhi : hi < 256) (hlo : lo < 256) :
    ((hi <<< 8) + lo) % 65536 = (hi <<< 8) ||| lo := by
  rw [shl8_or_eq hi lo hlo, Nat.shiftLeft_eq]
  omega

theorem pair_hi_lo (v : Nat) (hv : v < 65536) :
    ((v % 65536) >>> 8) % 256 = v / 256 ∧ ((v % 65536) &&& 0xff) % 256 = v % 256 := by
  rw [and_ff_eq_mod, shr8_eq_div]
  omega

theorem pair_read_write (v : Nat) (hv : v < 65536) :
    (((((v % 65536) >>> 8) % 256) <<< 8) + ((v % 65536) &&& 0xff) % 256) % 65536 = v := by
  rw [(pair_hi_lo v hv).1, (pair_hi_lo v hv).2, Nat.shiftLeft_eq]
  omega

theorem pair_write_read (hi lo : Nat) (hhi : hi < 256) (hlo : lo < 256) :
    (((((hi <<< 8) + lo) % 65536) % 65536) >>> 8) % 256 = hi ∧
    (((((hi <<< 8) + lo) % 65536) % 65536) &&& 0xff) % 256 = lo := by
  rw [and_ff_eq_mod, shr8_eq_div, Nat.shiftLeft_eq]
  omega

/-- C22: for each register pair BC, DE and HL, with the registers holding bytes:
the pair read returns `(high << 8) | low` with B, D, H as the high halves and C,
E, L as the low halves; reading the pair after writing a 16-bit `v` returns `v`;
writing back the value just read leaves the state unchanged; and writing `v`
changes only the two registers of the pair, to `v / 256` and `v mod 256`. -/
theorem register_pairs (state : State8080) (v : Nat) (hwf : state.WF) (hv : v < 65536) :
    (read_bc state = (state.b <<< 8) ||| state.c ∧
      read_de state = (state.d <<< 8) ||| state.e ∧
      read_hl state = (state.h <<< 8) ||| state.l) ∧
    (read_bc (write_bc state v) = v ∧ read_de (write_de state v) = v ∧
      read_hl (write_hl state v) = v) ∧
    (write_bc state (read_bc state) = state ∧ write_de state (read_de state) = state ∧
      write_hl state (read_hl state) = state) ∧
    (write_bc state v = { state with b := v / 256, c := v % 256 } ∧
      write_de state v = { state with d := v / 256, e := v % 256 } ∧
      write_hl state v = { state with h := v / 256, l := v % 256 }) := by
  have hb := hwf.b_lt
  have hc := hwf.c_lt
  have hd := hwf.d_lt
  have he := hwf.e_lt
  have hh := hwf.h_lt
  have hl := hwf.l_lt
  refine ⟨⟨read_pair_eq _ _ hb hc, read_pair_eq _ _ hd he, read_pair_eq _ _ hh hl⟩,
    ⟨pair_read_write v hv, pair_read_write v hv, pair_read_write v hv⟩, ⟨?_, ?_, ?_⟩,
    ⟨?_, ?_, ?_⟩⟩
  · simp only [write_bc, read_bc]
    rw [(pair_write_read _ _ hb hc).1, (pair_write_read _ _ hb hc).2]
  · simp only [write_de, read_de]
    rw [(pair_write_read _ _ hd he).1, (pair_write_read _ _ hd he).2]
  · simp only [write_hl, read_hl]
    rw [(pair_write_read _ _ hh hl).1, (pair_write_read _ _ hh hl).2]
  · simp only [write_bc]
    rw [(pair_hi_lo v hv).1, (pair_hi_lo v hv).2]
  · simp only [write_de]
    rw [(pair_hi_lo v hv).1, (pair_hi_lo v hv).2]
  · simp only [write_hl]
    rw [(pair_hi_lo v hv).1, (pair_hi_lo v hv).2]

/-- Witness for C22: the pair value `0x1234` on the sample state. -/
theorem register_pairs_witness :
    (State8080.sample 0 0 0).WF ∧ 0x1234 < 65536 ∧
    read_bc (write_bc (State8080.sample 0 0 0) 0x1234) = 0x1234 ∧
    (write_hl (State8080.sample 0 0 0) 0x1234).h = 0x12 ∧
    (write_hl (State8080.sample 0 0 0) 0x1234).l = 0x34 ∧
    write_de (State8080.sample 0 0 0) (read_de (State8080.sample 0 0 0)) =
      State8080.sample 0 0 0 := by
  have hwf := sample_wf 0 0 0 (by decide) (by decide) (by decide)
  have h := register_pairs (State8080.sample 0 0 0) 0x1234 hwf (by decide)
  refine ⟨hwf, by decide, h.2.1.1, ?_, ?_, h.2.2.1.2.1⟩
  · rw [h.2.2.2.2.2]
  · rw [h.2.2.2.2.2]

/-! ## Logic instructions (0xa0 .. 0xb7, 0xe6, 0xee, 0xf6) -/

set_option maxRecDepth 8000 in
/-- The cases ANA B .. ANA A, by the low three bits of the opcode. -/
theorem switch_ana (state : State8080) (pc0 k : Nat) (hk : k < 8) :
    emulate8080Op_switch state pc0 (0xa0 + k) =
      (operand8 state k).bind fun v => some (pc_add (ana state v) 1) := by
  interval_cases k <;> rfl

set_option maxRecDepth 8000 in
/-- The cases XRA B .. XRA A, by the low three bits of the opcode. -/
theorem switch_xra (state : State8080) (pc0 k : Nat) (hk : k < 8) :
    emulate8080Op_switch state pc0 (0xa8 + k) =
      (operand8 state k).bind fun v => some (pc_add (xra state v) 1) := by
  interval_cases k <;> rfl

set_option maxRecDepth 8000 in
/-- The cases ORA B .. ORA A, by the low three bits of the opcode. -/
theorem switch_ora (state : State8080) (pc0 k : Nat) (hk : k < 8) :
    emulate8080Op_switch state pc0 (0xb0 + k) =
      (operand8 state k).bind fun v => some (pc_add (ora state v) 1) := by
  interval_cases k <;> rfl

set_option maxRecDepth 8000 in
theorem switch_ani (state : State8080) (pc0 : Nat) :
    emulate8080Op_switch state pc0 0xe6 =
      (opcode_at state pc0 1).bind fun v => some (pc_add (ani state v) 2) := rfl

set_option maxRecDepth 8000 in
theorem switch_xri (state : State8080) (pc0 : Nat) :
    emulate8080Op_switch state pc0 0xee =
      (opcode_at state pc0 1).bind fun v => some (pc_add (xri state v) 2) := rfl

set_option maxRecDepth 8000 in
theorem switch_ori (state : State8080) (pc0 : Nat) :
    emulate8080Op_switch state pc0 0xf6 =
      (opcode_at state pc0 1).bind fun v => some (pc_add (ori state v) 2) := rfl

theorem read_hl_lt (state : State8080) : read_hl state < 65536 :=
  Nat.mod_lt _ (by decide)

/-- The operand of an ALU opcode is always there: `read_hl` is a 16-bit value. -/
theorem operand8_some (state : State8080) (k : Nat) : ∃ v, operand8 state k = some v := by
  unfold operand8
  split_ifs
  all_goals first
    | exact ⟨_, rfl⟩
    | exact ⟨_, if_pos (read_hl_lt state)⟩

theorem opcode_at_some (state : State8080) (pc0 k : Nat) (h : pc0 + k < 65536) :
    opcode_at state pc0 k = some (state.memory (pc0 + k)) :=
  if_pos h

/-- The switch at a logic opcode is one of six forms. -/
theorem switch_logic_cases (state : State8080) (pc0 op : Nat)
    (hop : (0xa0 ≤ op ∧ op ≤ 0xb7) ∨ op = 0xe6 ∨ op = 0xee ∨ op = 0xf6) :
    (0xa0 ≤ op ∧ op ≤ 0xa7 ∧ emulate8080Op_switch state pc0 op =
      (operand8 state (op - 0xa0)).bind fun v => some (pc_add (ana state v) 1)) ∨
    (0xa8 ≤ op ∧ op ≤ 0xaf ∧ emulate8080Op_switch state pc0 op =
      (operand8 state (op - 0xa8)).bind fun v => some (pc_add (xra state v) 1)) ∨
    (0xb0 ≤ op ∧ op ≤ 0xb7 ∧ emulate8080Op_switch state pc0 op =
      (operand8 state (op - 0xb0)).bind fun v => some (pc_add (ora state v) 1)) ∨
    (op = 0xe6 ∧ emulate8080Op_switch state pc0 op =
      (opcode_at state pc0 1).bind fun v => some (pc_add (ani state v) 2)) ∨
    (op = 0xee ∧ emulate8080Op_switch state pc0 op =
      (opcode_at state pc0 1).bind fun v => some (pc_add (xri state v) 2)) ∨
    (op = 0xf6 ∧ emulate8080Op_switch state pc0 op =
      (opcode_at state pc0 1).bind fun v => some (pc_add (ori state v) 2)) := by
  rcases hop with ⟨h1, h2⟩ | h | h | h
  · by_cases ha : op ≤ 0xa7
    · have h := switch_ana state pc0 (op - 0xa0) (by omega)
      rw [show 0xa0 + (op - 0xa0) = op by omega] at h
      exact Or.inl ⟨h1, ha, h⟩
    by_cases hx : op ≤ 0xaf
    · have h := switch_xra state pc0 (op - 0xa8) (by omega)
      rw [show 0xa8 + (op - 0xa8) = op by omega] at h
      exact Or.inr (Or.inl ⟨by omega, hx, h⟩)
    · have h := switch_ora state pc0 (op - 0xb0) (by omega)
      rw [show 0xb0 + (op - 0xb0) = op by omega] at h
      exact Or.inr (Or.inr (Or.inl ⟨by omega, h2, h⟩))
  · subst h
    exact Or.inr (Or.inr (Or.inr (Or.inl ⟨rfl, switch_ani state pc0⟩)))
  · subst h
    exact Or.inr (Or.inr (Or.inr (Or.inr (Or.inl ⟨rfl, switch_xri state pc0⟩))))
  · subst h
    exact Or.inr (Or.inr (Or.inr (Or.inr (Or.inr ⟨rfl, switch_ori state pc0⟩))))

/-- A step at a logic opcode returns when the byte after the opcode is inside the
buffer. -/
theorem logic_step_returns (state : State8080) (hpc : state.pc + 1 < 65536)
    (hop : (0xa0 ≤ state.memory state.pc ∧ state.memory state.pc ≤ 0xb7) ∨
      state.memory state.pc = 0xe6 ∨ state.memory state.pc = 0xee ∨
      state.memory state.pc = 0xf6) :
    ∃ st, emulate8080Op state = some st := by
  rw [emulate8080Op_eq state (by omega)]
  generalize hS : ({ state with
    cycles := (state.cycles + OPCODES_CYCLES.getD (state.memory state.pc) 0) % 65536 }
      : State8080) = S
  have hi : opcode_at S state.pc 1 = some (S.memory (state.pc + 1)) :=
    opcode_at_some S state.pc 1 hpc
  rcases switch_logic_cases S state.pc _ hop with
    ⟨_, _, h⟩ | ⟨_, _, h⟩ | ⟨_, _, h⟩ | ⟨_, h⟩ | ⟨_, h⟩ | ⟨_, h⟩
  · obtain ⟨v, hv⟩ := operand8_some S (state.memory state.pc - 0xa0)
    rw [h, hv]
    exact ⟨_, rfl⟩
  · obtain ⟨v, hv⟩ := operand8_some S (state.memory state.pc - 0xa8)
    rw [h, hv]
    exact ⟨_, rfl⟩
  · obtain ⟨v, hv⟩ := operand8_some S (state.memory state.pc - 0xb0)
    rw [h, hv]
    exact ⟨_, rfl⟩
  · rw [h, hi]
    exact ⟨_, rfl⟩
  · rw [h, hi]
    exact ⟨_, rfl⟩
  · rw [h, hi]
    exact ⟨_, rfl⟩

/-- The flags after a case of the form `x.bind fun v => some (pc_add (f v) n)`. -/
theorem bind_pc_add_cc (x : Option Nat) (f : Nat → State8080) (n : Nat) (st : State8080)
    (h : (x.bind fun v => some (pc_add (f v) n)) = some st) :
    ∃ v, x = some v ∧ st.cc = (f v).cc ∧ st.a = (f v).a := by
  cases x with
  | none => exact absurd h (by simp)
  | some v =>
    refine ⟨v, rfl, ?_, ?_⟩
    · rw [← Option.some.inj h]
      rfl
    · rw [← Option.some.inj h]
      rfl

/-- Carry after a case of the switch at a logic opcode. -/
theorem switch_logic_cy (state st : State8080) (pc0 op : Nat)
    (hop : (0xa0 ≤ op ∧ op ≤ 0xb7) ∨ op = 0xe6 ∨ op = 0xee ∨ op = 0xf6)
    (h : emulate8080Op_switch state pc0 op = some st) : st.cc.cy = 0 := by
  rcases switch_logic_cases state pc0 op hop with
    ⟨_, _, hs⟩ | ⟨_, _, hs⟩ | ⟨_, _, hs⟩ | ⟨_, hs⟩ | ⟨_, hs⟩ | ⟨_, hs⟩
  all_goals
    rw [hs] at h
    obtain ⟨v, _, hcc, _⟩ := bind_pc_add_cc _ _ _ st h
    rw [hcc]
    rfl

/-- C23: every logic instruction clears Carry: for every state, a step at ANA r/M
(0xa0 .. 0xa7), XRA r/M (0xa8 .. 0xaf), ORA r/M (0xb0 .. 0xb7), ANI (0xe6), XRI
(0xee) or ORI (0xf6) leaves the Carry flag at 0; the step returns whenever the
byte after the opcode is inside the buffer. -/
theorem logic_clears_carry (state : State8080)
    (hop : (0xa0 ≤ state.memory state.pc ∧ state.memory state.pc ≤ 0xb7) ∨
      state.memory state.pc = 0xe6 ∨ state.memory state.pc = 0xee ∨
      state.memory state.pc = 0xf6) :
    (state.pc + 1 < 65536 → ∃ st, emulate8080Op state = some st) ∧
    ∀ st, emulate8080Op state = some st → st.cc.cy = 0 := by
  refine ⟨fun hpc => logic_step_returns state hpc hop, fun st h => ?_⟩
  obtain ⟨_, x, hx, hst⟩ := emulate8080Op_some state st h
  rw [hst]
  exact switch_logic_cy state x state.pc _ hop hx

/-- Witness for C23: ORI 0x0f at `0x100` with Carry set. -/
theorem logic_clears_carry_witness :
    (({ State8080.sample 0xf6 0x0f 0 with cc := ConditionCodes.ofFlags 0 0 0 0 1 }
      : State8080).memory 0x100 = 0xf6) ∧
    ({ State8080.sample 0xf6 0x0f 0 with cc := ConditionCodes.ofFlags 0 0 0 0 1 }
      : State8080).cc.cy = 1 ∧
    ∃ st, emulate8080Op
        { State8080.sample 0xf6 0x0f 0 with cc := ConditionCodes.ofFlags 0 0 0 0 1 } = some st ∧
      st.cc.cy = 0 ∧ st.a = 0x0f := by
  have h := logic_clears_carry
    { State8080.sample 0xf6 0x0f 0 with cc := ConditionCodes.ofFlags 0 0 0 0 1 }
    (Or.inr (Or.inr (Or.inr rfl)))
  obtain ⟨st, hst⟩ := h.1 (by decide)
  refine ⟨rfl, rfl, st, hst, h.2 st hst, ?_⟩
  have he : emulate8080Op
      { State8080.sample 0xf6 0x0f 0 with cc := ConditionCodes.ofFlags 0 0 0 0 1 } =
      some (pc_add (ori { State8080.sample 0xf6 0x0f 0 with
        cc := ConditionCodes.ofFlags 0 0 0 0 1, cycles := 7 } 0x0f) 2) := by
    rw [emulate8080Op_eq _ (by decide)]
    exact switch_ori _ _
  rw [he] at hst
  rw [← Option.some.inj hst]
  rfl

theorem bit3_toNat (v : Nat) : (decide ((v ||| v) &&& 0x08 ≠ 0)).toNat = v / 8 % 2 := by
  rw [Nat.or_self, show (0x08 : Nat) = 2 ^ 3 from rfl, Nat.and_two_pow, Nat.testBit_to_div_mod]
  simp only [Nat.reducePow]
  rcases Nat.mod_two_eq_zero_or_one (v / 8) with h | h <;> simp [h]

/-- After `ana`, Auxiliary-Carry is bit 3 of the new accumulator. -/
theorem ana_ac (state : State8080) (x : Nat) : (ana state x).cc.ac = (ana state x).a / 8 % 2 :=
  bit3_toNat ((state.a &&& x) % 256)

set_option maxRecDepth 8000 in
theorem switch_shld (state : State8080) (pc0 : Nat) :
    emulate8080Op_switch state pc0 0x22 =
      (opcode_word_add state pc0).bind fun address =>
        (shld state address).bind fun state => some (pc_add state 3) := rfl

set_option maxRecDepth 8000 in
theorem switch_lhld (state : State8080) (pc0 : Nat) :
    emulate8080Op_switch state pc0 0x2a =
      (opcode_word_add state pc0).bind fun address =>
        (lhld state address).bind fun state => some (pc_add state 3) := rfl

/-- With operand address `0xFFFF`, `shld` stores `h` at index `0x10000`. -/
theorem shld_none_at_top (state : State8080) : shld state 0xFFFF = none := by
  simp [shld, store, MEMORY_SIZE]

/-- With operand address `0xFFFF`, `lhld` loads `h` from index `0x10000`. -/
theorem lhld_none_at_top (state : State8080) : lhld state 0xFFFF = none := by
  simp [lhld, load, MEMORY_SIZE]

set_option maxRecDepth 8000 in
/-- C25, evaluated where it fails: with operand address `0xFFFF`, SHLD stores L at
`memory[0xFFFF]` and then H at `memory[address + 1] = memory[0x10000]`, and LHLD
loads H from the same index: `address + 1` is not wrapped to `0x0000`, and the
index is outside the buffer of `0x10000` bytes, so neither step has a defined
outcome. -/
theorem shld_lhld_at_top_out_of_bounds :
    (∀ state : State8080, shld state 0xFFFF = none ∧ lhld state 0xFFFF = none) ∧
    store State8080.zero.memory (0xFFFF + 1) 0 = none ∧
    load State8080.zero.memory (0xFFFF + 1) = none ∧
    load State8080.zero.memory 0x0000 = some 0 ∧
    emulate8080Op (State8080.sample 0x22 0xff 0xff) = none ∧
    emulate8080Op (State8080.sample 0x2a 0xff 0xff) = none :=
  ⟨fun state => ⟨shld_none_at_top state, lhld_none_at_top state⟩, rfl, rfl, rfl, rfl, rfl⟩

/-! ## `Init8080` -/

/-- The fields that `Init8080` assigns are zero afterwards. -/
theorem Init8080_assigned (raw : State8080) :
    (Init8080 raw).a = 0 ∧ (Init8080 raw).b = 0 ∧ (Init8080 raw).c = 0 ∧
    (Init8080 raw).d = 0 ∧ (Init8080 raw).e = 0 ∧ (Init8080 raw).h = 0 ∧
    (Init8080 raw).l = 0 ∧
    (Init8080 raw).cc = { z := 0, s := 0, p := 0, cy := 0, ac := 0, pad := 0 } ∧
    (Init8080 raw).int_enable = 0 ∧ (Init8080 raw).cycles = 0 :=
  ⟨rfl, rfl, rfl, rfl, rfl, rfl, rfl, rfl, rfl, rfl⟩

/-- The fields `sp`, `pc` and `halted` are whatever the allocated block held. -/
theorem Init8080_unassigned (raw : State8080) :
    (Init8080 raw).sp = raw.sp ∧ (Init8080 raw).pc = raw.pc ∧
    (Init8080 raw).halted = raw.halted :=
  ⟨rfl, rfl, rfl⟩

/-- C26, evaluated where it fails: `Init8080` zeroes the registers, the flags,
`int_enable` and the cycle counter, but never assigns `sp`, `pc` and `halted`; on a
block that `malloc` returns with those bytes set they are not zero afterwards. -/
theorem Init8080_leaves_fields_unset :
    (∀ raw : State8080, (Init8080 raw).sp = raw.sp ∧ (Init8080 raw).pc = raw.pc ∧
      (Init8080 raw).halted = raw.halted) ∧
    (Init8080 { State8080.zero with sp := 0xBEEF, pc := 0xDEAD, halted := 0xAA }).sp = 0xBEEF ∧
    (Init8080 { State8080.zero with sp := 0xBEEF, pc := 0xDEAD, halted := 0xAA }).pc = 0xDEAD ∧
    (Init8080 { State8080.zero with sp := 0xBEEF, pc := 0xDEAD, halted := 0xAA }).halted = 0xAA ∧
    (Init8080 { State8080.zero with sp := 0xBEEF, pc := 0xDEAD, halted := 0xAA }).a = 0 ∧
    (Init8080 { State8080.zero with sp := 0xBEEF, pc := 0xDEAD, halted := 0xAA }).int_enable
      = 0 :=
  ⟨Init8080_unassigned, rfl, rfl, rfl, rfl, rfl⟩

/-! ## DAD (0x09, 0x19, 0x29, 0x39) -/

set_option maxRecDepth 8000 in
theorem switch_dad_b (state : State8080) (pc0 : Nat) :
    emulate8080Op_switch state pc0 0x09 = some (pc_add (dad_b state) 1) := rfl

set_option maxRecDepth 8000 in
theorem switch_dad_d (state : State8080) (pc0 : Nat) :
    emulate8080Op_switch state pc0 0x19 = some (pc_add (dad_d state) 1) := rfl

set_option maxRecDepth 8000 in
theorem switch_dad_h (state : State8080) (pc0 : Nat) :
    emulate8080Op_switch state pc0 0x29 = some (pc_add (dad_h state) 1) := rfl

set_option maxRecDepth 8000 in
theorem switch_dad_sp (state : State8080) (pc0 : Nat) :
    emulate8080Op_switch state pc0 0x39 = some (pc_add (dad_sp state) 1) := rfl

/-- Reading HL after `write_hl` gives the value written, as a 16-bit number. -/
theorem read_hl_write_hl (state : State8080) (v : Nat) :
    read_hl (write_hl state v) = v % 65536 := by
  have h := pair_read_write (v % 65536) (Nat.mod_lt _ (by decide))
  rw [Nat.mod_mod] at h
  exact h

/-- What `write_hl` leaves alone. -/
theorem write_hl_frame (state : State8080) (v : Nat) :
    { write_hl state v with h := state.h, l := state.l } = state := rfl

/-- One step at DAD B. -/
theorem dad_b_step_eq (state : State8080) (hpc : state.pc < 65536)
    (hop : state.memory state.pc = 0x09) :
    emulate8080Op state =
      some (pc_add (dad_b { state with cycles := (state.cycles + 10) % 65536 }) 1) := by
  rw [emulate8080Op_eq state hpc, hop, switch_dad_b]
  rfl

/-- One step at DAD D. -/
theorem dad_d_step_eq (state : State8080) (hpc : state.pc < 65536)
    (hop : state.memory state.pc = 0x19) :
    emulate8080Op state =
      some (pc_add (dad_d { state with cycles := (state.cycles + 10) % 65536 }) 1) := by
  rw [emulate8080Op_eq state hpc, hop, switch_dad_d]
  rfl

/-- One step at DAD H. -/
theorem dad_h_step_eq (state : State8080) (hpc : state.pc < 65536)
    (hop : state.memory state.pc = 0x29) :
    emulate8080Op state =
      some (pc_add (dad_h { state with cycles := (state.cycles + 10) % 65536 }) 1) := by
  rw [emulate8080Op_eq state hpc, hop, switch_dad_h]
  rfl

/-- One step at DAD SP. -/
theorem dad_sp_step_eq (state : State8080) (hpc : state.pc < 65536)
    (hop : state.memory state.pc = 0x39) :
    emulate8080Op state =
      some (pc_add (dad_sp { state with cycles := (state.cycles + 10) % 65536 }) 1) := by
  rw [emulate8080Op_eq state hpc, hop, switch_dad_sp]
  rfl

/-- C28: for each of DAD B (0x09), DAD D (0x19), DAD H (0x29) and DAD SP (0x39) and
every state, one step stores `(HL + rp) mod 65536` in HL, where `rp` is the value
of BC, DE, HL or `sp` before the step; apart from H, L, Carry, `pc` and the cycle
counter nothing changes (Zero, Sign, Parity, Auxiliary-Carry, `sp`, memory and the
registers other than H and L are as before). -/
theorem dad_step (state : State8080) (hpc : state.pc < 65536) :
    (state.memory state.pc = 0x09 →
      ∃ st, emulate8080Op state = some st ∧
        read_hl st = (read_hl state + read_bc state) % 65536 ∧
        { st with h := state.h, l := state.l, cc := { st.cc with cy := state.cc.cy },
                  pc := state.pc, cycles := state.cycles } = state) ∧
    (state.memory state.pc = 0x19 →
      ∃ st, emulate8080Op state = some st ∧
        read_hl st = (read_hl state + read_de state) % 65536 ∧
        { st with h := state.h, l := state.l, cc := { st.cc with cy := state.cc.cy },
                  pc := state.pc, cycles := state.cycles } = state) ∧
    (state.memory state.pc = 0x29 →
      ∃ st, emulate8080Op state = some st ∧
        read_hl st = (read_hl state + read_hl state) % 65536 ∧
        { st with h := state.h, l := state.l, cc := { st.cc with cy := state.cc.cy },
                  pc := state.pc, cycles := state.cycles } = state) ∧
    (state.memory state.pc = 0x39 →
      ∃ st, emulate8080Op state = some st ∧
        read_hl st = (read_hl state + state.sp) % 65536 ∧
        { st with h := state.h, l := state.l, cc := { st.cc with cy := state.cc.cy },
                  pc := state.pc, cycles := state.cycles } = state) := by
  refine ⟨fun hop => ⟨_, dad_b_step_eq state hpc hop, ?_, rfl⟩,
    fun hop => ⟨_, dad_d_step_eq state hpc hop, ?_, rfl⟩,
    fun hop => ⟨_, dad_h_step_eq state hpc hop, ?_, rfl⟩,
    fun hop => ⟨_, dad_sp_step_eq state hpc hop, ?_, rfl⟩⟩
  all_goals
    simp only [dad_b, dad_d, dad_h, dad_sp, pc_add]
    rw [show ∀ s : State8080, read_hl { s with pc := (s.pc + 1) % 65536 } = read_hl s from
      fun _ => rfl, read_hl_write_hl]
    rfl

/-- Witness for C28: DAD B at `0x100` with `HL = 0xFFFF` and `BC = 0x0002`. -/
theorem dad_step_witness :
    ({ State8080.sample 0x09 0 0 with h := 0xff, l := 0xff, c := 0x02 } : State8080).pc
      < 65536 ∧
    ∃ st, emulate8080Op { State8080.sample 0x09 0 0 with h := 0xff, l := 0xff, c := 0x02 }
        = some st ∧
      read_hl st = 0x0001 ∧ st.c = 0x02 ∧ st.sp = 0x2400 := by
  obtain ⟨st, hst, hhl, hfr⟩ :=
    (dad_step { State8080.sample 0x09 0 0 with h := 0xff, l := 0xff, c := 0x02 }
      (by decide)).1 rfl
  refine ⟨by decide, st, hst, hhl, ?_, ?_⟩
  · exact congrArg State8080.c hfr
  · exact congrArg State8080.sp hfr

theorem shr16_eq_div (x : Nat) : x >>> 16 = x / 65536 :=
  Nat.shiftRight_eq_div_pow x 16

/-- The carry that `dad_d` stores is the carry of the 16-bit addition. -/
theorem dad_d_cy (state : State8080) :
    (dad_d state).cc.cy = if 65536 ≤ read_hl state + read_de state then 1 else 0 := by
  have h1 := read_hl_lt state
  have h2 : read_de state < 65536 := Nat.mod_lt _ (by decide)
  show (((read_hl state + read_de state) >>> 16) &&& 1) % 2 = _
  rw [shr16_eq_div, Nat.and_one_is_mod]
  split <;> omega

/-- The carry that `dad_b` stores is bit 0 of HL: `read_bc(state) >> 16` is 0. -/
theorem dad_b_cy (state : State8080) : (dad_b state).cc.cy = read_hl state % 2 := by
  have h2 : read_bc state < 65536 := Nat.mod_lt _ (by decide)
  show ((read_hl state + (read_bc state >>> 16)) &&& 1) % 2 = _
  rw [shr16_eq_div, Nat.and_one_is_mod, Nat.div_eq_of_lt h2]
  omega

/-- The carry that `dad_h` stores is bit 0 of HL. -/
theorem dad_h_cy (state : State8080) : (dad_h state).cc.cy = read_hl state % 2 := by
  have h2 := read_hl_lt state
  show ((read_hl state + (read_hl state >>> 16)) &&& 1) % 2 = _
  rw [shr16_eq_div, Nat.and_one_is_mod, Nat.div_eq_of_lt h2]
  omega

set_option maxRecDepth 8000 in
/-- C29, evaluated where it fails: `dad_b`, `dad_h` and `dad_sp` store
`(HL + (rp >> 16)) & 1`, which is bit 0 of HL, in Carry, where `dad_d` stores
`((HL + DE) >> 16) & 1`.  DAD B with `HL = 1`, `BC = 0` sets Carry although
`HL + BC < 65536`, and with `HL = BC = 0x8000` clears it although
`HL + BC = 65536`; DAD H and DAD SP with `HL = 1` set Carry without overflow. -/
theorem dad_carry_is_low_bit_of_hl :
    (∀ state : State8080, (dad_b state).cc.cy = read_hl state % 2) ∧
    (∀ state : State8080, (dad_h state).cc.cy = read_hl state % 2) ∧
    (∀ state : State8080,
      (dad_d state).cc.cy = if 65536 ≤ read_hl state + read_de state then 1 else 0) ∧
    (emulate8080Op { State8080.sample 0x09 0 0 with l := 1 }).map (fun st => st.cc.cy)
      = some 1 ∧
    (emulate8080Op { State8080.sample 0x09 0 0 with h := 0x80, b := 0x80 }).map
      (fun st => st.cc.cy) = some 0 ∧
    (emulate8080Op { State8080.sample 0x29 0 0 with l := 1 }).map (fun st => st.cc.cy)
      = some 1 ∧
    (emulate8080Op { State8080.sample 0x39 0 0 with l := 1 }).map (fun st => st.cc.cy)
      = some 1 ∧
    read_hl ({ State8080.sample 0x39 0 0 with l := 1 } : State8080) +
      ({ State8080.sample 0x39 0 0 with l := 1 } : State8080).sp = 0x2401 :=
  ⟨dad_b_cy, dad_h_cy, dad_d_cy, rfl, rfl, rfl, rfl, rfl⟩

/-! ## The shift register behind ports 2, 3 and 4 -/

theorem sameShift_refl (p : Ports) : p.sameShift p := ⟨rfl, rfl, rfl, rfl⟩

theorem sameShift_trans (p q r : Ports) (h1 : p.sameShift q) (h2 : q.sameShift r) :
    p.sameShift r :=
  ⟨h2.1.trans h1.1, h2.2.1.trans h1.2.1, h2.2.2.1.trans h1.2.2.1, h2.2.2.2.trans h1.2.2.2⟩

theorem play_on_rise_frame (p q : Ports) (cur last bit index : Nat)
    (h : play_on_rise p cur last bit index = some q) : p.sameShift q := by
  unfold play_on_rise play_wav_file at h
  split_ifs at h
  · rw [← Option.some.inj h]
    exact ⟨rfl, rfl, rfl, rfl⟩
  · rw [← Option.some.inj h]
    exact sameShift_refl p

theorem play_on_rise_some (p : Ports) (cur last bit index : Nat) (hdev : p.deviceId ≠ 0) :
    ∃ q, play_on_rise p cur last bit index = some q := by
  unfold play_on_rise play_wav_file
  split_ifs
  · exact ⟨_, rfl⟩
  · exact ⟨_, rfl⟩

/-- The function `play_sound` does not touch the shift register. -/
theorem play_sound_frame (p q : Ports) (h : play_sound p = some q) : p.sameShift q := by
  unfold play_sound at h
  obtain ⟨m, hm, hq⟩ := Option.bind_eq_some.mp h
  have h1 : p.sameShift m := by
    split_ifs at hm
    · simp only [Option.bind_eq_some] at hm
      obtain ⟨a1, e1, a2, e2, a3, e3, e4⟩ := hm
      have s1 := play_on_rise_frame _ _ _ _ _ _ e1
      have s2 := play_on_rise_frame _ _ _ _ _ _ e2
      have s3 := play_on_rise_frame _ _ _ _ _ _ e3
      have s4 : a3.sameShift m := by
        rw [← Option.some.inj e4]
        exact ⟨rfl, rfl, rfl, rfl⟩
      exact sameShift_trans _ _ _ (sameShift_trans _ _ _ (sameShift_trans _ _ _ s1 s2) s3) s4
    · rw [← Option.some.inj hm]
      exact sameShift_refl p
  have h2 : m.sameShift q := by
    split_ifs at hq
    · simp only [Option.bind_eq_some] at hq
      obtain ⟨a1, e1, a2, e2, a3, e3, a4, e4, a5, e5, e6⟩ := hq
      have s1 := play_on_rise_frame _ _ _ _ _ _ e1
      have s2 := play_on_rise_frame _ _ _ _ _ _ e2
      have s3 := play_on_rise_frame _ _ _ _ _ _ e3
      have s4 := play_on_rise_frame _ _ _ _ _ _ e4
      have s5 := play_on_rise_frame _ _ _ _ _ _ e5
      have s6 : a5.sameShift q := by
        rw [← Option.some.inj e6]
        exact ⟨rfl, rfl, rfl, rfl⟩
      exact sameShift_trans _ _ _ (sameShift_trans _ _ _ (sameShift_trans _ _ _
        (sameShift_trans _ _ _ (sameShift_trans _ _ _ s1 s2) s3) s4) s5) s6
    · rw [← Option.some.inj hq]
      exact sameShift_refl m
  exact sameShift_trans _ _ _ h1 h2

/-- With an audio device, `play_sound` returns. -/
theorem play_sound_some (p : Ports) (hdev : p.deviceId ≠ 0) : ∃ q, play_sound p = some q := by
  unfold play_sound
  have hm : ∃ m, (if p.sound1_ ≠ p.last_sound1_ then
      (play_on_rise p p.sound1_ p.last_sound1_ 0x2 1).bind fun p =>
      (play_on_rise p p.sound1_ p.last_sound1_ 0x4 2).bind fun p =>
      (play_on_rise p p.sound1_ p.last_sound1_ 0x8 3).bind fun p =>
      some { p with last_sound1_ := p.sound1_ }
    else some p) = some m ∧ m.deviceId ≠ 0 := by
    split_ifs
    · obtain ⟨a1, e1⟩ := play_on_rise_some p p.sound1_ p.last_sound1_ 0x2 1 hdev
      have d1 : a1.deviceId ≠ 0 := (play_on_rise_frame _ _ _ _ _ _ e1).2.2.2 ▸ hdev
      obtain ⟨a2, e2⟩ := play_on_rise_some a1 a1.sound1_ a1.last_sound1_ 0x4 2 d1
      have d2 : a2.deviceId ≠ 0 := (play_on_rise_frame _ _ _ _ _ _ e2).2.2.2 ▸ d1
      obtain ⟨a3, e3⟩ := play_on_rise_some a2 a2.sound1_ a2.last_sound1_ 0x8 3 d2
      have d3 : a3.deviceId ≠ 0 := (play_on_rise_frame _ _ _ _ _ _ e3).2.2.2 ▸ d2
      rw [e1, Option.some_bind, e2, Option.some_bind, e3, Option.some_bind]
      exact ⟨_, rfl, d3⟩
    · exact ⟨p, rfl, hdev⟩
  obtain ⟨m, em, dm⟩ := hm
  rw [em, Option.some_bind]
  split_ifs
  · obtain ⟨a1, e1⟩ := play_on_rise_some m m.sound2_ m.last_sound2_ 0x1 4 dm
    have d1 : a1.deviceId ≠ 0 := (play_on_rise_frame _ _ _ _ _ _ e1).2.2.2 ▸ dm
    obtain ⟨a2, e2⟩ := play_on_rise_some a1 a1.sound2_ a1.last_sound2_ 0x2 5 d1
    have d2 : a2.deviceId ≠ 0 := (play_on_rise_frame _ _ _ _ _ _ e2).2.2.2 ▸ d1
    obtain ⟨a3, e3⟩ := play_on_rise_some a2 a2.sound2_ a2.last_sound2_ 0x4 6 d2
    have d3 : a3.deviceId ≠ 0 := (play_on_rise_frame _ _ _ _ _ _ e3).2.2.2 ▸ d2
    obtain ⟨a4, e4⟩ := play_on_rise_some a3 a3.sound2_ a3.last_sound2_ 0x8 7 d3
    have d4 : a4.deviceId ≠ 0 := (play_on_rise_frame _ _ _ _ _ _ e4).2.2.2 ▸ d3
    obtain ⟨a5, e5⟩ := play_on_rise_some a4 a4.sound2_ a4.last_sound2_ 0x10 8 d4
    rw [e1, Option.some_bind, e2, Option.some_bind, e3, Option.some_bind, e4,
      Option.some_bind, e5, Option.some_bind]
    exact ⟨_, rfl⟩
  · exact ⟨m, rfl⟩

theorem and_7_eq_mod (x : Nat) : x &&& 0x7 = x % 8 :=
  Nat.and_pow_two_sub_one_eq_mod x 3

/-- A write to port 2 stores the low three bits of the value as the bit-offset. -/
theorem machine_out_2 (p q : Ports) (s : Nat) (h : machine_out p 2 s = some q) :
    q.shift0 = p.shift0 ∧ q.shift1 = p.shift1 ∧ q.shift_offset = s % 8 ∧
      q.deviceId = p.deviceId := by
  have hf := play_sound_frame { p with shift_offset := (s &&& 0x7) % 256 } q h
  refine ⟨hf.1, hf.2.1, ?_, hf.2.2.2⟩
  rw [hf.2.2.1]
  show (s &&& 0x7) % 256 = s % 8
  rw [and_7_eq_mod]
  omega

/-- A write to port 4 moves `shift1` to `shift0` and stores the value in `shift1`. -/
theorem machine_out_4 (p q : Ports) (x : Nat) (h : machine_out p 4 x = some q) :
    q.shift0 = p.shift1 ∧ q.shift1 = x % 256 ∧ q.shift_offset = p.shift_offset ∧
      q.deviceId = p.deviceId :=
  play_sound_frame { p with shift0 := p.shift1, shift1 := x % 256 } q h

/-- With an audio device, `machine_out` returns. -/
theorem machine_out_some (p : Ports) (port value : Nat) (hdev : p.deviceId ≠ 0) :
    ∃ q, machine_out p port value = some q := by
  unfold machine_out
  apply play_sound_some
  dsimp only
  split_ifs <;> exact hdev

/-- A read of port 3 with bytes in the shift register and an offset in 0..7. -/
theorem machine_in_3 (p : Ports) (h0 : p.shift0 < 256) (h1 : p.shift1 < 256) :
    machine_in p 3 =
      some ((((p.shift1 <<< 8) ||| p.shift0) >>> (8 - p.shift_offset)) &&& 0xff) := by
  have hv : (p.shift1 <<< 8) ||| p.shift0 < 65536 := by
    rw [shl8_or_eq _ _ h0]
    omega
  show some ((((((p.shift1 <<< 8) ||| p.shift0) % 65536) >>> (8 - p.shift_offset)) &&& 0xff)
    % 256) = _
  rw [Nat.mod_eq_of_lt hv, and_ff_eq_mod, Nat.mod_mod]

/-- C30: the shift register is a windowed 16-bit register: after
`machine_out(2, s)`, `machine_out(4, x)` and `machine_out(4, y)` (bytes `x`, `y`),
`machine_in(3)` returns `(((y << 8) | x) >> (8 - (s mod 8))) & 0xFF`; the bit-offset
stored by the port-2 write is `s mod 8`, in 0..7; and with offset 0 the read
returns `y`.  The three writes return whenever the audio device is open. -/
theorem shift_register_window (p : Ports) (s x y : Nat) (hx : x < 256) (hy : y < 256) :
    (p.deviceId ≠ 0 →
      ∃ p1 p2 p3, machine_out p 2 s = some p1 ∧ machine_out p1 4 x = some p2 ∧
        machine_out p2 4 y = some p3) ∧
    (∀ p1, machine_out p 2 s = some p1 → p1.shift_offset = s % 8 ∧ p1.shift_offset < 8) ∧
    (∀ p1 p2 p3, machine_out p 2 s = some p1 → machine_out p1 4 x = some p2 →
      machine_out p2 4 y = some p3 →
      machine_in p3 3 = some ((((y <<< 8) ||| x) >>> (8 - s % 8)) &&& 0xFF) ∧
      (s % 8 = 0 → machine_in p3 3 = some y)) := by
  refine ⟨fun hdev => ?_, fun p1 h1 => ?_, fun p1 p2 p3 h1 h2 h3 => ?_⟩
  · obtain ⟨p1, h1⟩ := machine_out_some p 2 s hdev
    have d1 : p1.deviceId ≠ 0 := (machine_out_2 p p1 s h1).2.2.2 ▸ hdev
    obtain ⟨p2, h2⟩ := machine_out_some p1 4 x d1
    have d2 : p2.deviceId ≠ 0 := (machine_out_4 p1 p2 x h2).2.2.2 ▸ d1
    obtain ⟨p3, h3⟩ := machine_out_some p2 4 y d2
    exact ⟨p1, p2, p3, h1, h2, h3⟩
  · have ho := (machine_out_2 p p1 s h1).2.2.1
    rw [ho]
    exact ⟨rfl, Nat.mod_lt _ (by decide)⟩
  · have ho := (machine_out_2 p p1 s h1).2.2.1
    obtain ⟨_, a1, a2, _⟩ := machine_out_4 p1 p2 x h2
    obtain ⟨b0, b1, b2, _⟩ := machine_out_4 p2 p3 y h3
    have e0 : p3.shift0 = x := by rw [b0, a1, Nat.mod_eq_of_lt hx]
    have e1 : p3.shift1 = y := by rw [b1, Nat.mod_eq_of_lt hy]
    have e2 : p3.shift_offset = s % 8 := by rw [b2, a2, ho]
    have hin := machine_in_3 p3 (by omega) (by omega)
    rw [e0, e1, e2] at hin
    refine ⟨hin, fun hs => ?_⟩
    rw [hin, hs, shl8_or_eq _ _ hx, shr8_eq_div, and_ff_eq_mod]
    congr 1
    omega

/-- Witness for C30: offset 3, then the bytes `0x34` and `0x12`, on the ports as
`spaceinvaders.c` initialises them, with audio device 2. -/
theorem shift_register_window_witness :
    (0x34 : Nat) < 256 ∧ (0x12 : Nat) < 256 ∧ (Ports.zero 2).deviceId ≠ 0 ∧
    ∃ p1 p2 p3, machine_out (Ports.zero 2) 2 3 = some p1 ∧ machine_out p1 4 0x34 = some p2 ∧
      machine_out p2 4 0x12 = some p3 ∧ p1.shift_offset = 3 ∧
      machine_in p3 3 = some 0x91 := by
  have h := shift_register_window (Ports.zero 2) 3 0x34 0x12 (by decide) (by decide)
  obtain ⟨p1, p2, p3, h1, h2, h3⟩ := h.1 (by decide)
  refine ⟨by decide, by decide, by decide, p1, p2, p3, h1, h2, h3, (h.2.1 p1 h1).1, ?_⟩
  rw [(h.2.2 p1 p2 p3 h1 h2 h3).1]
  rfl

/-! ## Steps that stay inside the buffer -/

theorem bind_isSome {α β : Type} (x : Option α) (F : α → Option β) (hx : x.isSome = true)
    (hF : ∀ a, x = some a → (F a).isSome = true) : (x.bind F).isSome = true := by
  cases x with
  | none => exact absurd hx (by simp)
  | some a => exact hF a rfl

theorem ite_isSome {α : Type} (c : Prop) [Decidable c] (a b : Option α)
    (ha : a.isSome = true) (hb : b.isSome = true) : (if c then a else b).isSome = true := by
  split_ifs
  · exact ha
  · exact hb

theorem load_isSome (m : Nat → Nat) (i : Nat) (h : i < 65536) : (load m i).isSome = true := by
  unfold load
  rw [if_pos (show i < MEMORY_SIZE from h)]
  rfl

theorem store_isSome (m : Nat → Nat) (i v : Nat) (h : i < 65536) :
    (store m i v).isSome = true := by
  unfold store
  rw [if_pos (show i < MEMORY_SIZE from h)]
  rfl

theorem opcode_at_isSome (state : State8080) (pc0 k : Nat) (h : pc0 + k < 65536) :
    (opcode_at state pc0 k).isSome = true :=
  load_isSome _ _ h

theorem opcode_word_isSome (state : State8080) (pc0 : Nat) (h : pc0 + 2 < 65536) :
    (opcode_word state pc0).isSome = true := by
  rw [opcode_word_eq state pc0 h]
  rfl

theorem opcode_word_add_eq (state : State8080) (pc0 : Nat) (h : pc0 + 2 < 65536) :
    opcode_word_add state pc0 =
      some ((state.memory (pc0 + 1) + (state.memory (pc0 + 2) <<< 8)) % 65536) := by
  have h1 : pc0 + 1 < 65536 := by omega
  simp [opcode_word_add, opcode_at, load, MEMORY_SIZE, h, h1]

theorem opcode_word_add_isSome (state : State8080) (pc0 : Nat) (h : pc0 + 2 < 65536) :
    (opcode_word_add state pc0).isSome = true := by
  rw [opcode_word_add_eq state pc0 h]
  rfl

theorem opcode_word_add_lt (state : State8080) (pc0 a : Nat)
    (h : opcode_word_add state pc0 = some a) : a < 65536 := by
  unfold opcode_word_add at h
  simp only [Option.bind_eq_some] at h
  obtain ⟨_, _, _, _, h3⟩ := h
  rw [← Option.some.inj h3]
  exact Nat.mod_lt _ (by decide)

theorem push_isSome (state : State8080) (v : Nat) (hsp : state.sp < 65536)
    (h1 : state.sp ≠ 1) : (push state v).isSome = true := by
  rw [push_eq state v hsp h1]
  rfl

theorem pop_isSome (state : State8080) (hsp : state.sp + 1 < 65536) :
    (pop state).isSome = true := by
  rw [pop_eq state hsp]
  rfl

theorem call_isSome (state : State8080) (w : Nat) (hsp : state.sp < 65536)
    (h1 : state.sp ≠ 1) : (call state w).isSome = true :=
  bind_isSome _ _ (push_isSome state state.pc hsp h1) (fun _ _ => rfl)

theorem ret_isSome (state : State8080) (hsp : state.sp + 1 < 65536) :
    (ret state).isSome = true :=
  bind_isSome _ _ (pop_isSome state hsp) (fun _ _ => rfl)

theorem xthl_isSome (state : State8080) (hsp : state.sp + 1 < 65536) :
    (xthl state).isSome = true := by
  have h0 : state.sp < 65536 := by omega
  simp [xthl, load, store, MEMORY_SIZE, hsp, h0]

theorem stax_b_isSome (state : State8080) : (stax_b state).isSome = true :=
  bind_isSome _ _ (store_isSome _ _ _ (Nat.mod_lt _ (by decide))) (fun _ _ => rfl)

theorem stax_d_isSome (state : State8080) : (stax_d state).isSome = true :=
  bind_isSome _ _ (store_isSome _ _ _ (Nat.mod_lt _ (by decide))) (fun _ _ => rfl)

theorem inr_m_isSome (state : State8080) : (inr_m state).isSome = true := by
  have h := read_hl_lt state
  simp only [inr_m, load, store, MEMORY_SIZE, read_hl] at h ⊢
  simp [h]

theorem dcr_m_isSome (state : State8080) : (dcr_m state).isSome = true := by
  have h := read_hl_lt state
  simp only [dcr_m, load, store, MEMORY_SIZE, read_hl] at h ⊢
  simp [h]

theorem shld_isSome (state : State8080) (address : Nat) (h : address + 1 < 65536) :
    (shld state address).isSome = true := by
  have h0 : address < 65536 := by omega
  simp [shld, store, MEMORY_SIZE, h, h0]

theorem lhld_isSome (state : State8080) (address : Nat) (h : address + 1 < 65536) :
    (lhld state address).isSome = true := by
  have h0 : address < 65536 := by omega
  simp [lhld, load, MEMORY_SIZE, h, h0]

theorem push_psw_isSome (state : State8080) (hsp : state.sp < 65536) (h1 : state.sp ≠ 1) :
    (push_psw state).isSome = true :=
  push_isSome state ((state.a <<< 8) ||| psw_flags state) hsp h1

theorem pop_psw_isSome (state : State8080) (hsp : state.sp + 1 < 65536) :
    (pop_psw state).isSome = true :=
  bind_isSome _ _ (pop_isSome state hsp) (fun _ _ => rfl)

theorem read_bc_lt (state : State8080) : read_bc state < 65536 :=
  Nat.mod_lt _ (by decide)

theorem read_de_lt (state : State8080) : read_de state < 65536 :=
  Nat.mod_lt _ (by decide)

theorem ite_isSome_of {α : Type} (c : Prop) [Decidable c] (a b : Option α)
    (ha : c → a.isSome = true) (hb : b.isSome = true) :
    (if c then a else b).isSome = true := by
  split_ifs with h
  · exact ha h
  · exact hb

set_option maxRecDepth 100000 in
set_option maxHeartbeats 4000000 in
/-- Every case of the switch returns when the two operand bytes are inside the
buffer, `sp` is neither 1 nor `0xFFFF`, and the operand address of SHLD and LHLD
is not `0xFFFF`. -/
theorem switch_isSome (state : State8080) (pc0 op : Nat) (hpc : pc0 + 2 < 65536)
    (hsp : state.sp < 65536) (h1 : state.sp ≠ 1) (h2 : state.sp + 1 < 65536)
    (hw : ∀ a, opcode_word_add state pc0 = some a → op = 0x22 ∨ op = 0x2a →
      a + 1 < 65536) :
    (emulate8080Op_switch state pc0 op).isSome = true := by
  unfold emulate8080Op_switch emulate8080Op_cases
  iterate 256 (refine ite_isSome_of _ _ _ ?_ ?_; rotate_left)
  · rfl
  all_goals (
    intro hk
    repeat' first
      | (with_reducible exact Option.isSome_some)
      | (with_reducible refine bind_isSome _ _ ?_ ?_)
      | (with_reducible refine ite_isSome _ _ _ ?_ ?_)
      | intro _ _
      | (with_reducible refine opcode_at_isSome _ _ _ ?_)
      | (with_reducible refine opcode_word_isSome _ _ ?_)
      | (with_reducible refine opcode_word_add_isSome _ _ ?_)
      | (with_reducible refine load_isSome _ _ ?_)
      | (with_reducible refine store_isSome _ _ _ ?_)
      | (with_reducible refine push_isSome _ _ ?_ ?_)
      | (with_reducible refine pop_isSome _ ?_)
      | (with_reducible refine call_isSome _ _ ?_ ?_)
      | (with_reducible refine ret_isSome _ ?_)
      | (with_reducible refine xthl_isSome _ ?_)
      | (with_reducible exact stax_b_isSome _)
      | (with_reducible exact stax_d_isSome _)
      | (with_reducible exact inr_m_isSome _)
      | (with_reducible exact dcr_m_isSome _)
      | (with_reducible refine shld_isSome _ _ ?_)
      | (with_reducible refine lhld_isSome _ _ ?_)
      | (with_reducible refine push_psw_isSome _ ?_ ?_)
      | (with_reducible refine pop_psw_isSome _ ?_)
      | (with_reducible exact read_hl_lt _)
      | (with_reducible exact read_bc_lt _)
      | (with_reducible exact read_de_lt _)
      | (with_reducible exact hw _ ‹_› (Or.inl hk))
      | (with_reducible exact hw _ ‹_› (Or.inr hk))
      | (with_reducible exact opcode_word_add_lt _ _ _ ‹_›)
      | exact hsp
      | exact h1
      | exact h2
      | omega)

/-- A step returns when the opcode and its two operand bytes are inside the
buffer, `sp` is neither 1 nor `0xFFFF`, and the operand address of SHLD and LHLD
is not `0xFFFF`. -/
theorem emulate8080Op_returns (state : State8080) (hwf : state.WF)
    (hpc : state.pc + 2 < 65536) (h1 : state.sp ≠ 1) (h2 : state.sp ≠ 0xFFFF)
    (hw : state.memory state.pc = 0x22 ∨ state.memory state.pc = 0x2a →
      state.memory (state.pc + 1) + 256 * state.memory (state.pc + 2) ≠ 0xFFFF) :
    ∃ st, emulate8080Op state = some st := by
  have hsp := hwf.sp_lt
  have hlo := hwf.mem_lt (state.pc + 1)
  have hhi := hwf.mem_lt (state.pc + 2)
  rw [emulate8080Op_eq state (by omega)]
  apply Option.isSome_iff_exists.mp
  refine switch_isSome _ state.pc _ hpc hsp h1 (show state.sp + 1 < 65536 by omega) ?_
  intro a ha hop
  rw [opcode_word_add_eq _ state.pc hpc] at ha
  have hne := hw hop
  rw [← Option.some.inj ha]
  show (state.memory (state.pc + 1) + (state.memory (state.pc + 2) <<< 8)) % 65536 + 1 < 65536
  rw [Nat.shiftLeft_eq]
  omega

/-! ## The program counter in the switch

No case of the switch that is not a jump, call, return, RST or PCHL reads `pc`: it
fetches its operands through `opcode`, and ends with `state->pc += n`. -/

theorem read_hl_withPc (state : State8080) (p : Nat) :
    read_hl (state.withPc p) = read_hl state := rfl

theorem read_bc_withPc (state : State8080) (p : Nat) :
    read_bc (state.withPc p) = read_bc state := rfl

theorem read_de_withPc (state : State8080) (p : Nat) :
    read_de (state.withPc p) = read_de state := rfl

theorem pc_add_withPc (state : State8080) (n p : Nat) :
    pc_add (state.withPc p) n = state.withPc ((p + n) % 65536) := rfl

theorem opcode_at_withPc (state : State8080) (pc0 k p : Nat) :
    opcode_at (state.withPc p) pc0 k = opcode_at state pc0 k := rfl

theorem opcode_word_withPc (state : State8080) (pc0 p : Nat) :
    opcode_word (state.withPc p) pc0 = opcode_word state pc0 := rfl

theorem opcode_word_add_withPc (state : State8080) (pc0 p : Nat) :
    opcode_word_add (state.withPc p) pc0 = opcode_word_add state pc0 := rfl

theorem push_withPc (state : State8080) (v p : Nat) :
    push (state.withPc p) v = Option.map (fun st => st.withPc p) (push state v) := by
  simp only [push, store, State8080.withPc]
  split_ifs <;> rfl

theorem pop_withPc (state : State8080) (p : Nat) :
    pop (state.withPc p) = Option.map (fun r => (r.1, r.2.withPc p)) (pop state) := by
  simp only [pop, load, State8080.withPc]
  split_ifs <;> rfl

theorem xthl_withPc (state : State8080) (p : Nat) :
    xthl (state.withPc p) = Option.map (fun st => st.withPc p) (xthl state) := by
  simp only [xthl, load, store, State8080.withPc]
  split_ifs <;> rfl

theorem stax_b_withPc (state : State8080) (p : Nat) :
    stax_b (state.withPc p) = Option.map (fun st => st.withPc p) (stax_b state) := by
  simp only [stax_b, read_bc, load, store, State8080.withPc]
  split_ifs <;> rfl

theorem stax_d_withPc (state : State8080) (p : Nat) :
    stax_d (state.withPc p) = Option.map (fun st => st.withPc p) (stax_d state) := by
  simp only [stax_d, read_de, load, store, State8080.withPc]
  split_ifs <;> rfl

theorem inr_m_withPc (state : State8080) (p : Nat) :
    inr_m (state.withPc p) = Option.map (fun st => st.withPc p) (inr_m state) := by
  simp only [inr_m, read_hl, load, store, State8080.withPc]
  split_ifs <;> rfl

theorem dcr_m_withPc (state : State8080) (p : Nat) :
    dcr_m (state.withPc p) = Option.map (fun st => st.withPc p) (dcr_m state) := by
  simp only [dcr_m, read_hl, load, store, State8080.withPc]
  split_ifs <;> rfl

theorem push_psw_withPc (state : State8080) (p : Nat) :
    push_psw (state.withPc p) = Option.map (fun st => st.withPc p) (push_psw state) := by
  simp only [push_psw, psw_flags, push, store, State8080.withPc]
  split_ifs <;> rfl

theorem pop_psw_withPc (state : State8080) (p : Nat) :
    pop_psw (state.withPc p) = Option.map (fun st => st.withPc p) (pop_psw state) := by
  simp only [pop_psw, pop, load, State8080.withPc]
  split_ifs <;> rfl

theorem shld_withPc (state : State8080) (address p : Nat) :
    shld (state.withPc p) address =
      Option.map (fun st => st.withPc p) (shld state address) := by
  simp only [shld, load, store, State8080.withPc]
  split_ifs <;> rfl

theorem lhld_withPc (state : State8080) (address p : Nat) :
    lhld (state.withPc p) address =
      Option.map (fun st => st.withPc p) (lhld state address) := by
  simp only [lhld, load, store, State8080.withPc]
  split_ifs <;> rfl

theorem inx_b_withPc (state : State8080) (p : Nat) :
    inx_b (state.withPc p) = (inx_b state).withPc p := by
  simp only [inx_b, State8080.withPc]
  split_ifs <;> rfl

set_option maxRecDepth 100000 in
set_option maxHeartbeats 4000000 in
/-- Every case that is not a jump, call, return, RST or PCHL commutes with
replacing the program counter, and ends with `pc` advanced by the length of the
instruction. -/
theorem cases_withPc (state : State8080) (pc0 op p : Nat)
    (hnb : spec_changes_flow op = false) :
    emulate8080Op_cases none (state.withPc p) pc0 op =
      Option.map (fun st => st.withPc ((p + spec_instruction_length op) % 65536))
        (emulate8080Op_cases none state pc0 op) := by
  unfold emulate8080Op_cases
  iterate 256 (refine ite_map_congr _ _ _ _ _ _ ?_ ?_; rotate_left)
  · rfl
  all_goals (
    intro hk
    subst hk
    first
      | exact absurd hnb (by decide)
      | (simp only [read_hl_withPc, read_bc_withPc, read_de_withPc, pc_add_withPc,
          opcode_at_withPc, opcode_word_withPc, opcode_word_add_withPc, push_withPc,
          pop_withPc, xthl_withPc, stax_b_withPc, stax_d_withPc,
          inr_m_withPc, dcr_m_withPc, shld_withPc, lhld_withPc, push_psw_withPc,
          pop_psw_withPc, inx_b_withPc, map_bind_push, bind_map_push, map_some_push,
          map_ite_push]
         first | done | rfl))

/-- A case that is not a jump, call, return, RST or PCHL ends with `pc` advanced
by the length of the instruction. -/
theorem switch_pc (state st : State8080) (pc0 op : Nat) (hop : op < 256)
    (hnb : spec_changes_flow op = false)
    (h : emulate8080Op_switch state pc0 op = some st) :
    st.pc = (state.pc + spec_instruction_length op) % 65536 := by
  have hd := cases_default_irrelevant (some (pc_add state 1)) none state pc0 op hop
  have hm := cases_withPc state pc0 op state.pc hnb
  have he : state.withPc state.pc = state := rfl
  have hs : emulate8080Op_cases none state pc0 op = some st := hd ▸ h
  rw [he, hs] at hm
  exact congrArg State8080.pc (Option.some.inj hm)

/-- C27: for every opcode byte that is not a jump, call, return, RST or PCHL, a
step advances `pc` by the length of the instruction modulo 65536: 3 for LXI, SHLD,
LHLD, STA and LDA, 2 for MVI, the immediate ALU opcodes, OUT and IN, and 1 for
every other such opcode.  The step returns whenever the two bytes after the
opcode are inside the buffer, `sp` is neither 1 nor `0xFFFF` and the operand
address of SHLD and LHLD is not `0xFFFF`. -/
theorem pc_advances_by_length (state : State8080) (hwf : state.WF)
    (hnb : spec_changes_flow (state.memory state.pc) = false) :
    (state.pc + 2 < 65536 → state.sp ≠ 1 → state.sp ≠ 0xFFFF →
      (state.memory state.pc = 0x22 ∨ state.memory state.pc = 0x2a →
        state.memory (state.pc + 1) + 256 * state.memory (state.pc + 2) ≠ 0xFFFF) →
      ∃ st, emulate8080Op state = some st) ∧
    ∀ st, emulate8080Op state = some st →
      st.pc = (state.pc + spec_instruction_length (state.memory state.pc)) % 65536 := by
  refine ⟨fun hpc h1 h2 hw => emulate8080Op_returns state hwf hpc h1 h2 hw, ?_⟩
  intro st h
  obtain ⟨_, x, hx, hst⟩ := emulate8080Op_some state st h
  rw [hst]
  exact switch_pc state x state.pc _ (hwf.mem_lt _) hnb hx

/-- Witness for C27: LXI B,0x1234 (three bytes), MVI B,0x12 (two bytes) and MOV B,C
(one byte) at `0x100`. -/
theorem pc_advances_by_length_witness :
    (State8080.sample 0x01 0x34 0x12).WF ∧
    spec_changes_flow ((State8080.sample 0x01 0x34 0x12).memory 0x100) = false ∧
    (∃ st, emulate8080Op (State8080.sample 0x01 0x34 0x12) = some st ∧ st.pc = 0x103) ∧
    (∃ st, emulate8080Op (State8080.sample 0x06 0x12 0) = some st ∧ st.pc = 0x102) ∧
    (∃ st, emulate8080Op (State8080.sample 0x41 0 0) = some st ∧ st.pc = 0x101) := by
  have w3 := sample_wf 0x01 0x34 0x12 (by decide) (by decide) (by decide)
  have w2 := sample_wf 0x06 0x12 0 (by decide) (by decide) (by decide)
  have w1 := sample_wf 0x41 0 0 (by decide) (by decide) (by decide)
  have c3 := pc_advances_by_length (State8080.sample 0x01 0x34 0x12) w3 rfl
  have c2 := pc_advances_by_length (State8080.sample 0x06 0x12 0) w2 rfl
  have c1 := pc_advances_by_length (State8080.sample 0x41 0 0) w1 rfl
  obtain ⟨s3, e3⟩ := c3.1 (by decide) (by decide) (by decide) (by decide)
  obtain ⟨s2, e2⟩ := c2.1 (by decide) (by decide) (by decide) (by decide)
  obtain ⟨s1, e1⟩ := c1.1 (by decide) (by decide) (by decide) (by decide)
  exact ⟨w3, rfl, ⟨s3, e3, c3.2 s3 e3⟩, ⟨s2, e2, c2.2 s2 e2⟩, ⟨s1, e1, c1.2 s1 e1⟩⟩

/-! ## RST (0xc7, 0xcf, 0xd7, 0xdf, 0xe7, 0xef, 0xf7, 0xff) -/

set_option maxRecDepth 8000 in
theorem switch_rst0 (state : State8080) (pc0 : Nat) :
    emulate8080Op_switch state pc0 0xc7 = call state 0x00 := rfl

set_option maxRecDepth 8000 in
/-- The cases RST 1 .. RST 7. -/
theorem switch_rst (state : State8080) (pc0 n : Nat) (h1 : 1 ≤ n) (h7 : n < 8) :
    emulate8080Op_switch state pc0 (0xc7 + 8 * n) = call (pc_add state 1) (8 * n) := by
  interval_cases n <;> rfl

theorem cycles_rst (n : Nat) (h : n < 8) : OPCODES_CYCLES.getD (0xc7 + 8 * n) 0 = 11 := by
  interval_cases n <;> rfl

/-- One step at RST `n` for `n` in 1..7, away from `sp = 1`: the address of the
next instruction is pushed and `pc` becomes `8 * n`. -/
theorem rst_step_eq (state : State8080) (n : Nat) (h1 : 1 ≤ n) (h7 : n < 8) (hwf : state.WF)
    (hop : state.memory state.pc = 0xc7 + 8 * n) (hsp : state.sp ≠ 1) :
    emulate8080Op state =
      some { state with
        pc := 8 * n
        sp := (state.sp + 65536 - 2) % 65536
        memory := fun j =>
          if j = (state.sp + 65536 - 2) % 65536 then (state.pc + 1) % 65536 % 256
          else if j = (state.sp + 65536 - 1) % 65536 then (state.pc + 1) % 65536 / 256
          else state.memory j
        cycles := (state.cycles + 11) % 65536 } := by
  rw [emulate8080Op_eq state hwf.pc_lt, hop, switch_rst _ _ n h1 h7, cycles_rst n h7]
  rw [call_eq (pc_add { state with cycles := (state.cycles + 11) % 65536 } 1) (8 * n)
    hwf.sp_lt hsp (Nat.mod_lt _ (by decide)) (by omega)]
  rfl

/-- One step at RST 0, away from `sp = 1`: the address of the RST itself is
pushed. -/
theorem rst0_step_eq (state : State8080) (hwf : state.WF)
    (hop : state.memory state.pc = 0xc7) (hsp : state.sp ≠ 1) :
    emulate8080Op state =
      some { state with
        pc := 0
        sp := (state.sp + 65536 - 2) % 65536
        memory := fun j =>
          if j = (state.sp + 65536 - 2) % 65536 then state.pc % 256
          else if j = (state.sp + 65536 - 1) % 65536 then state.pc / 256
          else state.memory j
        cycles := (state.cycles + 11) % 65536 } := by
  rw [emulate8080Op_eq state hwf.pc_lt, hop, switch_rst0]
  rw [call_eq { state with cycles := (state.cycles + OPCODES_CYCLES.getD 0xc7 0) % 65536 } 0
    hwf.sp_lt hsp hwf.pc_lt (by decide)]
  rfl

set_option maxRecDepth 8000 in
/-- C31, evaluated where it fails: case 0xc7 (RST 0) calls `call(state, 0x00)`
without the `state->pc += 1` that the other seven RST cases run first, so it
pushes the address of the RST itself.  RST 0 at `0x100` pushes `0x0100` where RST 1
at `0x100` pushes `0x0101`, and with a RET at address 0 the step after RST 0 comes
back to `0x100`, the RST again. -/
theorem rst0_pushes_its_own_address :
    (∀ state : State8080, execute_opcode 0xc7 state =
      call { state with cycles := (state.cycles + 11) % 65536 } 0x00) ∧
    (∀ state : State8080, execute_opcode 0xcf state =
      call (pc_add { state with cycles := (state.cycles + 11) % 65536 } 1) 0x08) ∧
    (emulate8080Op (State8080.sample 0xc7 0 0)).map
      (fun st => (st.pc, st.sp, st.memory 0x23FE, st.memory 0x23FF))
        = some (0x0000, 0x23FE, 0x00, 0x01) ∧
    (emulate8080Op (State8080.sample 0xcf 0 0)).map
      (fun st => (st.pc, st.sp, st.memory 0x23FE, st.memory 0x23FF))
        = some (0x0008, 0x23FE, 0x01, 0x01) ∧
    ((emulate8080Op { State8080.sample 0xc7 0 0 with
        memory := fun i => if i = 0 then 0xc9 else (State8080.sample 0xc7 0 0).memory i }).bind
      emulate8080Op).map (fun st => (st.pc, st.sp)) = some (0x0100, 0x2400) :=
  ⟨fun _ => rfl, fun _ => rfl, rfl, rfl, rfl⟩

/-! ## INR and DCR -/

theorem inr_ac_eq (v : Nat) :
    (decide ((v + 1) % 256 &&& 0xf = 0)).toNat = (carry 4 v 1 false).toNat := by
  rw [carry4_eq, and_0f_eq_mod]
  congr 1
  rw [decide_eq_decide]
  simp only [Bool.toNat_false]
  omega

/-- The function of the cases INR r: the register holds `(v + 1) mod 256`, Zero,
Sign, Parity and Auxiliary-Carry are those of `add(v, 1, 0)`, Carry is as before. -/
theorem inr_reg_flags (state : State8080) (reg : Reg8) :
    (inr_reg state reg).getReg reg = (state.getReg reg + 1) % 256 ∧
    (inr_reg state reg).cc.z = (add state reg 1 false).cc.z ∧
    (inr_reg state reg).cc.s = (add state reg 1 false).cc.s ∧
    (inr_reg state reg).cc.p = (add state reg 1 false).cc.p ∧
    (inr_reg state reg).cc.ac = (add state reg 1 false).cc.ac ∧
    (inr_reg state reg).cc.cy = state.cc.cy := by
  cases reg
  all_goals
    refine ⟨rfl, rfl, rfl, rfl, ?_, rfl⟩
    exact inr_ac_eq _

/-- The low byte of the pair value HL is L. -/
theorem read_hl_mod (state : State8080) : read_hl state % 256 = state.l % 256 := by
  unfold read_hl
  rw [Nat.shiftLeft_eq]
  omega

/-- Case 0x34 (INR M) computes Zero from the low byte of the address HL. -/
theorem inr_m_z (state : State8080) :
    (inr_m state).map (fun st => st.cc.z) = some (decide (state.l % 256 = 0)).toNat := by
  have h := read_hl_lt state
  have hm := read_hl_mod state
  simp only [inr_m, load, store, MEMORY_SIZE, read_hl] at h hm ⊢
  simp [h, update_zsp, read_hl, hm]

set_option maxRecDepth 8000 in
/-- C32, evaluated where it fails: case 0x34 (INR M) ends with
`update_zsp(state, read_hl(state))`, so Zero, Sign and Parity come from the low
byte of the address HL and not from the incremented byte.  With `HL = 0x2000` and
`memory[0x2000] = 1` the step stores 2 and sets Zero and Parity (those of `0x00`),
where `add(1, 1, 0)` clears both.  The register cases INR r do give the flags of
`add(v, 1, 0)` and keep Carry. -/
theorem inr_m_flags_from_address :
    (∀ (state : State8080) (reg : Reg8),
      (inr_reg state reg).getReg reg = (state.getReg reg + 1) % 256 ∧
      (inr_reg state reg).cc.z = (add state reg 1 false).cc.z ∧
      (inr_reg state reg).cc.s = (add state reg 1 false).cc.s ∧
      (inr_reg state reg).cc.p = (add state reg 1 false).cc.p ∧
      (inr_reg state reg).cc.ac = (add state reg 1 false).cc.ac ∧
      (inr_reg state reg).cc.cy = state.cc.cy) ∧
    (∀ state : State8080,
      (inr_m state).map (fun st => st.cc.z) = some (decide (state.l % 256 = 0)).toNat) ∧
    (emulate8080Op { State8080.sampleAt 0x34 0 0 0x01 with h := 0x20, l := 0x00 }).map
      (fun st => (st.memory 0x2000, st.cc.z, st.cc.s, st.cc.p, st.cc.ac))
        = some (2, 1, 0, 1, 0) ∧
    ((add { State8080.zero with a := 0x01 } .a 1 false).cc.z,
      (add { State8080.zero with a := 0x01 } .a 1 false).cc.s,
      (add { State8080.zero with a := 0x01 } .a 1 false).cc.p,
      (add { State8080.zero with a := 0x01 } .a 1 false).cc.ac) = (0, 0, 0, 0) :=
  ⟨inr_reg_flags, inr_m_z, rfl, rfl⟩

theorem dcr_value_eq (v : Nat) : (v + 256 - 1) % 256 = (v + not8 1 + (!false).toNat) % 256 := by
  have h : not8 1 = 254 := rfl
  rw [h]
  show (v + 256 - 1) % 256 = (v + 254 + 1) % 256
  omega

theorem dcr_ac_eq (v : Nat) :
    (!(decide ((v + 256 - 1) % 256 &&& 0xF = 0xF))).toNat =
      (carry 4 v (not8 1) (!false)).toNat := by
  have h : not8 1 = 254 := rfl
  rw [carry4_eq, and_0f_eq_mod, h]
  congr 1
  rw [← decide_not, decide_eq_decide]
  show ¬ (v + 256 - 1) % 256 % 16 = 15 ↔ v % 16 + 254 % 16 + 1 ≥ 16
  omega

/-- Zero, Sign and Parity of a byte `w` as `update_zsp` stores them do not depend on
the state. -/
theorem update_zsp_value (s t : State8080) (w w1 : Nat) (h : w % 256 = w1 % 256) :
    (update_zsp s w).cc.z = (update_zsp t w1).cc.z ∧
    (update_zsp s w).cc.s = (update_zsp t w1).cc.s ∧
    (update_zsp s w).cc.p = (update_zsp t w1).cc.p := by
  simp only [update_zsp, h]
  exact ⟨trivial, trivial, trivial⟩

/-- The function of the cases DCR r: the register holds `(v - 1) mod 256`, Zero,
Sign, Parity and Auxiliary-Carry are those of `subtract(v, 1, 0)`, Carry is as
before. -/
theorem dcr_reg_flags (state : State8080) (reg : Reg8) :
    (dcr_reg state reg).getReg reg = (state.getReg reg + 256 - 1) % 256 ∧
    (dcr_reg state reg).cc.z = (subtract state reg 1 false).cc.z ∧
    (dcr_reg state reg).cc.s = (subtract state reg 1 false).cc.s ∧
    (dcr_reg state reg).cc.p = (subtract state reg 1 false).cc.p ∧
    (dcr_reg state reg).cc.ac = (subtract state reg 1 false).cc.ac ∧
    (dcr_reg state reg).cc.cy = state.cc.cy := by
  have hv : ∀ v, (v + 256 - 1) % 256 % 256 = (v + not8 1 + (!false).toNat) % 256 % 256 :=
    fun v => by rw [dcr_value_eq]
  cases reg
  all_goals
    refine ⟨?_, ?_, ?_, ?_, ?_, ?_⟩
    all_goals
      simp only [dcr_reg, subtract, add, update_zsp, State8080.setReg, State8080.getReg, hv]
    exact dcr_ac_eq _

/-- Case 0x35 (DCR M) in closed form. -/
theorem dcr_m_eq (state : State8080) :
    dcr_m state = some (update_zsp
      { state with
        memory := fun j =>
          if j = read_hl state then (state.memory (read_hl state) + 256 - 1) % 256
          else state.memory j
        cc := { state.cc with
          ac := (!(decide ((state.memory (read_hl state) + 256 - 1) % 256 &&& 0xF = 0xF))).toNat } }
      ((state.memory (read_hl state) + 256 - 1) % 256)) := by
  have h := read_hl_lt state
  simp only [dcr_m, load, store, MEMORY_SIZE, read_hl] at h ⊢
  simp only [h, if_true, Option.some_bind, Nat.mod_mod]


set_option maxRecDepth 8000 in
/-- The cases DCR r, by the register field of the opcode. -/
theorem switch_dcr_reg (state : State8080) (pc0 k : Nat) (hk : k < 8) (h6 : k ≠ 6) :
    emulate8080Op_switch state pc0 (0x05 + 8 * k) =
      some (pc_add (dcr_reg state (reg8_of k)) 1) := by
  interval_cases k <;> first | rfl | exact absurd rfl h6

set_option maxRecDepth 8000 in
theorem switch_dcr_m (state : State8080) (pc0 : Nat) :
    emulate8080Op_switch state pc0 0x35 = (dcr_m state).bind fun st => some (pc_add st 1) := rfl

/-- The register operands, by index. -/
theorem operand8_reg (state : State8080) (k : Nat) (hk : k < 8) (h6 : k ≠ 6) :
    operand8 state k = some (state.getReg (reg8_of k)) := by
  interval_cases k <;> first | rfl | exact absurd rfl h6

/-- The flags of `subtract` on a register are those of `subtract` on an
accumulator holding the same value. -/
theorem subtract_cc_reg (state : State8080) (reg : Reg8) (b : Nat) (cy : Bool) :
    (subtract state reg b cy).cc =
      (subtract { state with a := state.getReg reg } .a b cy).cc := by
  cases reg <;> rfl

/-- The flags of `add` on a register are those of `add` on an accumulator holding
the same value. -/
theorem add_cc_reg (state : State8080) (reg : Reg8) (b : Nat) (cy : Bool) :
    (add state reg b cy).cc = (add { state with a := state.getReg reg } .a b cy).cc := by
  cases reg <;> rfl

/-- Case 0x35 (DCR M): the byte at HL holds `(v - 1) mod 256`, Zero, Sign, Parity
and Auxiliary-Carry are those of `subtract(v, 1, 0)`, Carry is as before. -/
theorem dcr_m_flags (state : State8080) :
    ∃ st, dcr_m state = some st ∧
      load st.memory (read_hl st) = some ((state.memory (read_hl state) + 256 - 1) % 256) ∧
      st.cc.z =
        (subtract { state with a := state.memory (read_hl state) } .a 1 false).cc.z ∧
      st.cc.s =
        (subtract { state with a := state.memory (read_hl state) } .a 1 false).cc.s ∧
      st.cc.p =
        (subtract { state with a := state.memory (read_hl state) } .a 1 false).cc.p ∧
      st.cc.ac =
        (subtract { state with a := state.memory (read_hl state) } .a 1 false).cc.ac ∧
      st.cc.cy = state.cc.cy := by
  have hv : ∀ v, (v + 256 - 1) % 256 % 256 = (v + not8 1 + (!false).toNat) % 256 % 256 :=
    fun v => by rw [dcr_value_eq]
  have hl : read_hl state < MEMORY_SIZE := read_hl_lt state
  refine ⟨_, dcr_m_eq state, ?_, ?_, ?_, ?_, ?_, rfl⟩
  · show load _ (read_hl state) = _
    rw [load, if_pos hl]
    show some (if read_hl state = read_hl state then _ else _) = _
    rw [if_pos rfl]
  · simp only [subtract, add, update_zsp, State8080.setReg, State8080.getReg, hv]
  · simp only [subtract, add, update_zsp, State8080.setReg, State8080.getReg, hv]
  · simp only [subtract, add, update_zsp, State8080.setReg, State8080.getReg, hv]
  · simp only [subtract, add, update_zsp, State8080.setReg, State8080.getReg, hv]
    exact dcr_ac_eq _

/-- One step at DCR r. -/
theorem dcr_reg_step_eq (state : State8080) (k : Nat) (hk : k < 8) (h6 : k ≠ 6)
    (hpc : state.pc < 65536) (hop : state.memory state.pc = 0x05 + 8 * k) :
    emulate8080Op state =
      some (pc_add (dcr_reg { state with cycles := (state.cycles + 5) % 65536 } (reg8_of k)) 1) := by
  have hc : OPCODES_CYCLES.getD (0x05 + 8 * k) 0 = 5 := by
    interval_cases k <;> first | rfl | exact absurd rfl h6
  rw [emulate8080Op_eq state hpc, hop, switch_dcr_reg _ _ k hk h6, hc]

/-- One step at DCR M. -/
theorem dcr_m_step_eq (state : State8080) (hpc : state.pc < 65536)
    (hop : state.memory state.pc = 0x35) :
    emulate8080Op state =
      (dcr_m { state with cycles := (state.cycles + 10) % 65536 }).bind fun st =>
        some (pc_add st 1) := by
  rw [emulate8080Op_eq state hpc, hop, switch_dcr_m]
  rfl

/-- C33: for each decrement opcode `0x05 + 8 * k` (DCR B, C, D, E, H, L, M, A) and
every state whose operand holds `v`: one step leaves `(v - 1) mod 256` in the
operand, sets Zero, Sign, Parity and Auxiliary-Carry to those that
`subtract(v, 1, 0)` produces, and leaves Carry unchanged. -/
theorem dcr_step (state : State8080) (k v : Nat) (hk : k < 8) (hpc : state.pc < 65536)
    (hop : state.memory state.pc = 0x05 + 8 * k) (hv : operand8 state k = some v) :
    ∃ st, emulate8080Op state = some st ∧
      operand8 st k = some ((v + 256 - 1) % 256) ∧
      st.cc.z = (subtract { state with a := v } .a 1 false).cc.z ∧
      st.cc.s = (subtract { state with a := v } .a 1 false).cc.s ∧
      st.cc.p = (subtract { state with a := v } .a 1 false).cc.p ∧
      st.cc.ac = (subtract { state with a := v } .a 1 false).cc.ac ∧
      st.cc.cy = state.cc.cy := by
  by_cases h6 : k = 6
  · subst h6
    have hl : read_hl state < MEMORY_SIZE := read_hl_lt state
    have hv2 : state.memory (read_hl state) = v := by
      rw [show operand8 state 6 = load state.memory (read_hl state) from rfl, load,
        if_pos hl] at hv
      exact Option.some.inj hv
    obtain ⟨st, hst, hm, hz, hs, hp, hac, hcy⟩ :=
      dcr_m_flags { state with cycles := (state.cycles + 10) % 65536 }
    rw [dcr_m_step_eq state hpc hop, hst, Option.some_bind]
    rw [show ({ state with cycles := (state.cycles + 10) % 65536 } : State8080).memory
      (read_hl { state with cycles := (state.cycles + 10) % 65536 }) = v from hv2] at hm hz hs hp hac
    exact ⟨_, rfl, hm, hz, hs, hp, hac, hcy⟩
  · have hr := operand8_reg state k hk h6
    rw [hv] at hr
    have hv2 : state.getReg (reg8_of k) = v := (Option.some.inj hr).symm
    obtain ⟨hg, hz, hs, hp, hac, hcy⟩ :=
      dcr_reg_flags { state with cycles := (state.cycles + 5) % 65536 } (reg8_of k)
    rw [subtract_cc_reg] at hz hs hp hac
    rw [show ({ state with cycles := (state.cycles + 5) % 65536 } : State8080).getReg
      (reg8_of k) = v from hv2] at hg hz hs hp hac
    refine ⟨_, dcr_reg_step_eq state k hk h6 hpc hop, ?_, hz, hs, hp, hac, hcy⟩
    rw [operand8_reg _ k hk h6]
    exact congrArg some hg

/-- Witness for C33: DCR M at `0x100` with `HL = 0x2000` and `memory[0x2000] = 0`,
Carry set. -/
theorem dcr_step_witness :
    (6 : Nat) < 8 ∧
    operand8 { State8080.sampleAt 0x35 0 0 0x00 with
      h := 0x20, cc := ConditionCodes.ofFlags 0 0 0 0 1 } 6 = some 0 ∧
    ∃ st, emulate8080Op { State8080.sampleAt 0x35 0 0 0x00 with
        h := 0x20, cc := ConditionCodes.ofFlags 0 0 0 0 1 } = some st ∧
      operand8 st 6 = some 0xFF ∧ st.cc.z = 0 ∧ st.cc.s = 1 ∧ st.cc.p = 1 ∧ st.cc.ac = 0 ∧
      st.cc.cy = 1 := by
  obtain ⟨st, hst, hm, hz, hs, hp, hac, hcy⟩ :=
    dcr_step { State8080.sampleAt 0x35 0 0 0x00 with
      h := 0x20, cc := ConditionCodes.ofFlags 0 0 0 0 1 } 6 0 (by decide) (by decide) rfl rfl
  exact ⟨by decide, rfl, st, hst, hm, hz.trans rfl, hs.trans rfl, hp.trans rfl, hac.trans rfl,
    hcy.trans rfl⟩

/-! ## MOV (0x40 .. 0x7f without 0x76) -/

set_option maxRecDepth 8000 in
set_option maxHeartbeats 2000000 in
/-- The cases MOV, by the destination and source fields of the opcode. -/
theorem switch_mov (state : State8080) (pc0 op : Nat) (h1 : 0x40 ≤ op) (h2 : op ≤ 0x7f)
    (h76 : op ≠ 0x76) :
    emulate8080Op_switch state pc0 op =
      (operand8 state (op % 8)).bind fun v =>
        (setOperand8 state (op / 8 % 8) v).bind fun st => some (pc_add st 1) := by
  interval_cases op <;> first
    | rfl
    | exact absurd rfl h76
    | (show ((store state.memory (read_hl state) _).bind fun m =>
          some (pc_add { state with memory := m } 1)) =
        ((store state.memory (read_hl state) _).bind fun m =>
          some { state with memory := m }).bind fun st => some (pc_add st 1)
       generalize store state.memory (read_hl state) _ = x
       cases x <;> rfl)


/-- The two three-bit fields of an opcode byte. -/
theorem opcode_fields (op : Nat) : (op >>> 3) &&& 7 = op / 8 % 8 ∧ op &&& 7 = op % 8 :=
  ⟨by rw [Nat.shiftRight_eq_div_pow]; exact Nat.and_pow_two_sub_one_eq_mod _ 3,
   Nat.and_pow_two_sub_one_eq_mod op 3⟩

/-- In a well-formed state every operand is a byte. -/
theorem operand8_lt (state : State8080) (hwf : state.WF) (k v : Nat)
    (h : operand8 state k = some v) : v < 256 := by
  unfold operand8 load at h
  have := hwf.mem_lt (read_hl state)
  have := hwf.a_lt; have := hwf.b_lt; have := hwf.c_lt; have := hwf.d_lt
  have := hwf.e_lt; have := hwf.h_lt; have := hwf.l_lt
  split_ifs at h <;> (cases h; assumption)

/-- Assigning the operand `d`: it reads back as the byte assigned, and the flags, SP,
PC, the control fields, the other registers and the other memory bytes stay. -/
theorem setOperand8_spec (state : State8080) (d v : Nat) (hd : d < 8) :
    ∃ st, setOperand8 state d v = some st ∧ operand8 st d = some (v % 256) ∧
      st.cc = state.cc ∧ st.sp = state.sp ∧ st.pc = state.pc ∧ st.cycles = state.cycles ∧
      st.int_enable = state.int_enable ∧ st.halted = state.halted ∧
      (∀ r : Reg8, d = 6 ∨ r ≠ reg8_of d → st.getReg r = state.getReg r) ∧
      (∀ i, (d = 6 → i ≠ read_hl state) → st.memory i = state.memory i) := by
  have hl : read_hl state < MEMORY_SIZE := read_hl_lt state
  by_cases h6 : d = 6
  · subst h6
    refine ⟨{ state with memory := fun j => if j = read_hl state then v % 256
        else state.memory j }, ?_, ?_, rfl, rfl, rfl, rfl, rfl, rfl, ?_, ?_⟩
    · simp only [setOperand8, store, if_pos hl, if_true, Option.some_bind]
    · show load _ (read_hl state) = _
      simp only [load, if_pos hl, if_true]
    · intro r _
      cases r <;> rfl
    · intro i hi
      exact if_neg (hi rfl)
  · refine ⟨state.setReg (reg8_of d) v, ?_, ?_, ?_, ?_, ?_, ?_, ?_, ?_, ?_, ?_⟩
    · simp only [setOperand8, if_neg h6]
    · interval_cases d <;> first | rfl | exact absurd rfl h6
    all_goals interval_cases d <;> first
      | rfl
      | exact absurd rfl h6
      | (intro r hr; cases r <;> first | rfl | exact absurd rfl (hr.resolve_left h6))

/-- One step at a MOV opcode, in closed form. -/
theorem mov_step_eq (state : State8080) (op : Nat) (hpc : state.pc < 65536)
    (h1 : 0x40 ≤ op) (h2 : op ≤ 0x7f) (h76 : op ≠ 0x76) (hop : state.memory state.pc = op) :
    emulate8080Op state =
      (operand8 state (op % 8)).bind fun v =>
        (setOperand8 { state with
            cycles := (state.cycles + OPCODES_CYCLES.getD op 0) % 65536 } (op / 8 % 8) v).bind
          fun st => some (pc_add st 1) := by
  rw [emulate8080Op_eq state hpc, hop, switch_mov _ _ _ h1 h2 h76]
  rfl

/-- C34: every MOV opcode (0x40 .. 0x7f other than 0x76), with destination index
`(op >> 3) & 7` and source index `op & 7` in the order B, C, D, E, H, L, M, A, makes
one step that returns, after which the destination holds the value the source had
before; PC has advanced by one and the cycle counter by the cost of the opcode; the
flags, SP, the control flags, every other register and every other memory byte are
unchanged. -/
theorem mov_step (state : State8080) (op : Nat) (hwf : state.WF)
    (h1 : 0x40 ≤ op) (h2 : op ≤ 0x7f) (h76 : op ≠ 0x76) (hop : state.memory state.pc = op) :
    ∃ v st, operand8 state (op &&& 7) = some v ∧ emulate8080Op state = some st ∧
      operand8 st ((op >>> 3) &&& 7) = some v ∧
      st.pc = (state.pc + 1) % 65536 ∧
      st.cycles = (state.cycles + OPCODES_CYCLES.getD op 0) % 65536 ∧
      st.cc = state.cc ∧ st.sp = state.sp ∧
      st.int_enable = state.int_enable ∧ st.halted = state.halted ∧
      (∀ r : Reg8, (op >>> 3) &&& 7 = 6 ∨ r ≠ reg8_of ((op >>> 3) &&& 7) →
        st.getReg r = state.getReg r) ∧
      (∀ i, ((op >>> 3) &&& 7 = 6 → i ≠ read_hl state) → st.memory i = state.memory i) := by
  rw [(opcode_fields op).1, (opcode_fields op).2]
  obtain ⟨v, hv⟩ := operand8_some state (op % 8)
  have hv256 : v % 256 = v := Nat.mod_eq_of_lt (operand8_lt state hwf _ _ hv)
  obtain ⟨st, hst, hrd, hcc, hsp, hpc, hcyc, hie, hh, hreg, hmem⟩ :=
    setOperand8_spec { state with
      cycles := (state.cycles + OPCODES_CYCLES.getD op 0) % 65536 } (op / 8 % 8) v
      (Nat.mod_lt _ (by decide))
  refine ⟨v, pc_add st 1, hv, ?_, ?_, ?_, hcyc, hcc, hsp, hie, hh, hreg, hmem⟩
  · rw [mov_step_eq state op hwf.pc_lt h1 h2 h76 hop, hv, Option.some_bind, hst,
      Option.some_bind]
  · rw [← hv256]
    exact hrd
  · show (st.pc + 1) % 65536 = _
    rw [hpc]

set_option maxRecDepth 8000 in
/-- MOV M, B (0x70) with B = 0x5a and HL = 0x2000: the byte at 0x2000 becomes 0x5a. -/
theorem mov_step_witness :
    ∃ v st, operand8 { State8080.sampleAt 0x70 0 0 0x11 with b := 0x5a, h := 0x20 }
        (0x70 &&& 7) = some v ∧
      emulate8080Op { State8080.sampleAt 0x70 0 0 0x11 with b := 0x5a, h := 0x20 } = some st ∧
      operand8 st ((0x70 >>> 3) &&& 7) = some v ∧
      st.pc = (0x100 + 1) % 65536 ∧
      st.cycles = (0 + OPCODES_CYCLES.getD 0x70 0) % 65536 ∧
      st.cc = State8080.zero.cc ∧ st.sp = 0x2400 ∧
      st.int_enable = 0 ∧ st.halted = 0 ∧
      (∀ r : Reg8, (0x70 >>> 3) &&& 7 = 6 ∨ r ≠ reg8_of ((0x70 >>> 3) &&& 7) →
        st.getReg r =
          ({ State8080.sampleAt 0x70 0 0 0x11 with b := 0x5a, h := 0x20 } : State8080).getReg r) ∧
      (∀ i, ((0x70 >>> 3) &&& 7 = 6 → i ≠
          read_hl { State8080.sampleAt 0x70 0 0 0x11 with b := 0x5a, h := 0x20 }) →
        st.memory i =
          ({ State8080.sampleAt 0x70 0 0 0x11 with b := 0x5a, h := 0x20 } : State8080).memory i) :=
  mov_step { State8080.sampleAt 0x70 0 0 0x11 with b := 0x5a, h := 0x20 } 0x70
    ⟨by decide, by decide, by decide, by decide, by decide, by decide, by decide, by decide,
      by decide, fun i => by
        show (if i = 0x2000 then 0x11 else if i = 0x100 then 0x70 else if i = 0x101 then 0
          else if i = 0x102 then 0 else 0) < 256
        split_ifs <;> decide,
      ⟨by decide, by decide, by decide, by decide, by decide, by decide⟩, by decide, by decide,
      by decide⟩
    (by decide) (by decide) (by decide) rfl

/-! ## The register ALU opcodes (0x80 .. 0xbf) -/

set_option maxRecDepth 8000 in
set_option maxHeartbeats 2000000 in
/-- The cases 0x80 .. 0xbf, by the operation and source fields of the opcode. -/
theorem switch_alu (state : State8080) (pc0 op : Nat) (h1 : 0x80 ≤ op) (h2 : op ≤ 0xbf) :
    emulate8080Op_switch state pc0 op =
      (operand8 state (op % 8)).bind fun v =>
        some (pc_add (alu_case (op / 8 % 8) state v) 1) := by
  interval_cases op <;> rfl

theorem update_zsp_zspOf (state : State8080) (r : Nat) (hr : r < 256) :
    (update_zsp state r).cc.zspOf r := by
  rw [update_zsp_cc, Nat.mod_eq_of_lt hr]
  refine ⟨?_, bit7_of_byte r, ?_⟩
  · show (decide (r = 0)).toNat = _
    by_cases h : r = 0 <;> simp [h]
  · show (parity r).toNat = _
    rw [parity_eq_even_popcount r hr]
    by_cases h : Even (popcount8 r) <;> simp [h]

theorem zspOf_congr (cc cc1 : ConditionCodes) (r : Nat) (hz : cc1.z = cc.z) (hs : cc1.s = cc.s)
    (hp : cc1.p = cc.p) (h : cc.zspOf r) : cc1.zspOf r :=
  ⟨hz.trans h.1, hs.trans h.2.1, hp.trans h.2.2⟩

theorem add_zspOf (state : State8080) (v : Nat) (cy : Bool) :
    (add state .a v cy).cc.zspOf ((state.a + v + cy.toNat) % 256) :=
  zspOf_congr _ _ _ rfl rfl rfl
    (update_zsp_zspOf state ((state.a + v + cy.toNat) % 256) (Nat.mod_lt _ (by decide)))

theorem subtract_zspOf (state : State8080) (v : Nat) (cy : Bool) :
    (subtract state .a v cy).cc.zspOf ((state.a + not8 v + (!cy).toNat) % 256) :=
  zspOf_congr _ _ _ rfl rfl rfl
    (update_zsp_zspOf state ((state.a + not8 v + (!cy).toNat) % 256) (Nat.mod_lt _ (by decide)))

theorem ana_zspOf (state : State8080) (v : Nat) :
    (ana state v).cc.zspOf ((state.a &&& v) % 256) :=
  zspOf_congr _ _ _ rfl rfl rfl
    (update_zsp_zspOf { state with a := (state.a &&& v) % 256 } ((state.a &&& v) % 256)
      (Nat.mod_lt _ (by decide)))

theorem xra_zspOf (state : State8080) (v : Nat) :
    (xra state v).cc.zspOf ((state.a ^^^ v) % 256) :=
  zspOf_congr _ _ _ rfl rfl rfl
    (update_zsp_zspOf state ((state.a ^^^ v) % 256) (Nat.mod_lt _ (by decide)))

theorem ora_zspOf (state : State8080) (v : Nat) :
    (ora state v).cc.zspOf ((state.a ||| v) % 256) :=
  zspOf_congr _ _ _ rfl rfl rfl
    (update_zsp_zspOf state ((state.a ||| v) % 256) (Nat.mod_lt _ (by decide)))

theorem cmp_zspOf (state : State8080) (v : Nat) :
    (cmp state v).cc.zspOf ((state.a + 65536 - v % 256) % 65536 % 256) := by
  have h := update_zsp_zspOf state ((state.a + 65536 - v % 256) % 65536 % 256)
    (Nat.mod_lt _ (by decide))
  rw [← and_ff_eq_mod] at h ⊢
  exact zspOf_congr _ _ _ rfl rfl rfl h

theorem carry_flag_toNat (c : Nat) (h : c < 2) : (decide (c ≠ 0)).toNat = c := by
  interval_cases c <;> rfl

/-- Every register ALU case leaves all fields but the accumulator and the flags. -/
theorem alu_case_frame (state : State8080) (j v : Nat) (hj : j < 8) :
    (alu_case j state v).b = state.b ∧ (alu_case j state v).c = state.c ∧
    (alu_case j state v).d = state.d ∧ (alu_case j state v).e = state.e ∧
    (alu_case j state v).h = state.h ∧ (alu_case j state v).l = state.l ∧
    (alu_case j state v).sp = state.sp ∧ (alu_case j state v).memory = state.memory ∧
    (alu_case j state v).pc = state.pc ∧ (alu_case j state v).cycles = state.cycles ∧
    (alu_case j state v).int_enable = state.int_enable ∧
    (alu_case j state v).halted = state.halted := by
  interval_cases j <;> exact ⟨rfl, rfl, rfl, rfl, rfl, rfl, rfl, rfl, rfl, rfl, rfl, rfl⟩

theorem sub_byte_eq (a v : Nat) (hv : v < 256) :
    (a + (255 - v) + 1) % 256 = (((a : Int) - v) % 256).toNat := by
  omega

theorem sbb_byte_eq (a v c : Nat) (hv : v < 256) (hc : c < 2) :
    (a + (255 - v) + (1 - c)) % 256 = (((a : Int) - v - c) % 256).toNat := by
  omega

theorem cmp_byte_eq (a v : Nat) (hv : v < 256) :
    (a + 65536 - v % 256) % 65536 % 256 = (((a : Int) - v) % 256).toNat := by
  omega

theorem xor_byte (a v : Nat) (ha : a < 256) (hv : v < 256) : (a ^^^ v) % 256 = a ^^^ v :=
  Nat.mod_eq_of_lt (show a ^^^ v < 2 ^ 8 from Nat.xor_lt_two_pow ha hv)

theorem or_byte (a v : Nat) (ha : a < 256) (hv : v < 256) : (a ||| v) % 256 = a ||| v :=
  Nat.mod_eq_of_lt (show a ||| v < 2 ^ 8 from Nat.or_lt_two_pow ha hv)

theorem and_byte (a v : Nat) (ha : a < 256) : (a &&& v) % 256 = a &&& v :=
  Nat.mod_eq_of_lt (lt_of_le_of_lt Nat.and_le_left ha)

/-- The accumulator and Zero, Sign, Parity after a register ALU case are what the
specification gives for the operation. -/
theorem alu_case_spec (state : State8080) (j v : Nat) (hj : j < 8) (ha : state.a < 256)
    (hv : v < 256) (hcy : state.cc.cy < 2) :
    (alu_case j state v).a = spec_alu_result j state.a v state.cc.cy ∧
    (alu_case j state v).cc.zspOf (spec_alu_flag_byte j state.a v state.cc.cy) := by
  have hn : not8 v = 255 - v := not8_eq_sub v hv
  have hc := carry_flag_toNat state.cc.cy hcy
  have hnc : (!decide (state.cc.cy ≠ 0)).toNat = 1 - state.cc.cy := by
    generalize state.cc.cy = c at hcy
    interval_cases c <;> rfl
  have hand := and_byte state.a v ha
  have hxor := xor_byte state.a v ha hv
  have hor := or_byte state.a v ha hv
  have e0 : (state.a + v + false.toNat) % 256 = (state.a + v) % 256 := by
    simp only [Bool.toNat_false, Nat.add_zero]
  have e1 : (state.a + v + (decide (state.cc.cy ≠ 0)).toNat) % 256 =
      (state.a + v + state.cc.cy) % 256 := by rw [hc]
  have e2 : (state.a + not8 v + (!false).toNat) % 256 =
      (((state.a : Int) - v) % 256).toNat := by
    rw [hn]
    simp only [Bool.not_false, Bool.toNat_true]
    exact sub_byte_eq state.a v hv
  have e3 : (state.a + not8 v + (!decide (state.cc.cy ≠ 0)).toNat) % 256 =
      (((state.a : Int) - v - state.cc.cy) % 256).toNat := by
    rw [hn, hnc]
    exact sbb_byte_eq state.a v state.cc.cy hv hcy
  have e7 := cmp_byte_eq state.a v hv
  have a0 : ∀ cy, (add state .a v cy).a = (state.a + v + cy.toNat) % 256 :=
    fun cy => add_getReg state .a v cy
  have a2 : ∀ cy, (subtract state .a v cy).a = (state.a + not8 v + (!cy).toNat) % 256 :=
    fun cy => add_getReg state .a (not8 v) (!cy)
  have a4 : (ana state v).a = (state.a &&& v) % 256 := rfl
  have a5 : (xra state v).a = (state.a ^^^ v) % 256 := rfl
  have a6 : (ora state v).a = (state.a ||| v) % 256 := rfl
  have a7 : (cmp state v).a = state.a := rfl
  interval_cases j
  all_goals simp +decide only [alu_case, spec_alu_result, spec_alu_flag_byte, if_true, if_false]
  · exact ⟨(a0 _).trans e0, e0 ▸ add_zspOf state v false⟩
  · exact ⟨(a0 _).trans e1, e1 ▸ add_zspOf state v _⟩
  · exact ⟨(a2 _).trans e2, e2 ▸ subtract_zspOf state v false⟩
  · exact ⟨(a2 _).trans e3, e3 ▸ subtract_zspOf state v _⟩
  · exact ⟨a4.trans hand, hand ▸ ana_zspOf state v⟩
  · exact ⟨a5.trans hxor, hxor ▸ xra_zspOf state v⟩
  · exact ⟨a6.trans hor, hor ▸ ora_zspOf state v⟩
  · exact ⟨a7, e7 ▸ cmp_zspOf state v⟩

/-- One step at a register ALU opcode, in closed form. -/
theorem alu_step_eq (state : State8080) (op : Nat) (hpc : state.pc < 65536)
    (h1 : 0x80 ≤ op) (h2 : op ≤ 0xbf) (hop : state.memory state.pc = op) :
    emulate8080Op state =
      (operand8 state (op % 8)).bind fun v =>
        some (pc_add (alu_case (op / 8 % 8)
          { state with cycles := (state.cycles + OPCODES_CYCLES.getD op 0) % 65536 } v) 1) := by
  rw [emulate8080Op_eq state hpc, hop, switch_alu _ _ _ h1 h2]
  rfl

/-- C35: every register ALU opcode (0x80 .. 0xbf), with operation index
`(op >> 3) & 7` in the order ADD, ADC, SUB, SBB, ANA, XRA, ORA, CMP and source `s`
selected by `op & 7` in the order B, C, D, E, H, L, M, A, makes one step that
returns, after which A is `(A+s)`, `(A+s+CY)`, `(A-s)`, `(A-s-CY)` modulo 256,
`A AND s`, `A XOR s`, `A OR s`, or A itself for CMP; Zero, Sign and Parity are
those of that result, and of `(A-s) mod 256` for CMP; B, C, D, E, H, L, SP and the
memory are unchanged. -/
theorem alu_step (state : State8080) (op : Nat) (hwf : state.WF)
    (h1 : 0x80 ≤ op) (h2 : op ≤ 0xbf) (hop : state.memory state.pc = op) :
    ∃ s st, operand8 state (op &&& 7) = some s ∧ emulate8080Op state = some st ∧
      st.a = spec_alu_result ((op >>> 3) &&& 7) state.a s state.cc.cy ∧
      st.cc.zspOf (spec_alu_flag_byte ((op >>> 3) &&& 7) state.a s state.cc.cy) ∧
      st.b = state.b ∧ st.c = state.c ∧ st.d = state.d ∧ st.e = state.e ∧
      st.h = state.h ∧ st.l = state.l ∧ st.sp = state.sp ∧ st.memory = state.memory := by
  rw [(opcode_fields op).1, (opcode_fields op).2]
  obtain ⟨s, hs⟩ := operand8_some state (op % 8)
  have hs256 := operand8_lt state hwf _ _ hs
  have hj : op / 8 % 8 < 8 := Nat.mod_lt _ (by decide)
  obtain ⟨ha, hz⟩ := alu_case_spec
    { state with cycles := (state.cycles + OPCODES_CYCLES.getD op 0) % 65536 }
    (op / 8 % 8) s hj hwf.a_lt hs256 hwf.cc_wf.cy_lt
  have hf := alu_case_frame
    { state with cycles := (state.cycles + OPCODES_CYCLES.getD op 0) % 65536 }
    (op / 8 % 8) s hj
  refine ⟨s, pc_add (alu_case (op / 8 % 8)
      { state with cycles := (state.cycles + OPCODES_CYCLES.getD op 0) % 65536 } s) 1,
    hs, ?_, ha, hz, hf.1, hf.2.1, hf.2.2.1, hf.2.2.2.1, hf.2.2.2.2.1,
    hf.2.2.2.2.2.1, hf.2.2.2.2.2.2.1, hf.2.2.2.2.2.2.2.1⟩
  rw [alu_step_eq state op hwf.pc_lt h1 h2 hop, hs, Option.some_bind]

set_option maxRecDepth 8000 in
/-- SBB M (0x9e) with A = 0x10, CY = 1 and the byte 0x20 at HL = 0x2000:
`0x10 - 0x20 - 1` is `0xef` modulo 256, with Sign set, Zero clear and odd parity. -/
theorem alu_step_witness :
    ∃ s st, operand8 { State8080.sampleAt 0x9e 0 0 0x20 with
        a := 0x10, h := 0x20, cc := ConditionCodes.ofFlags 0 0 0 0 1 } (0x9e &&& 7) = some s ∧
      emulate8080Op { State8080.sampleAt 0x9e 0 0 0x20 with
        a := 0x10, h := 0x20, cc := ConditionCodes.ofFlags 0 0 0 0 1 } = some st ∧
      st.a = spec_alu_result ((0x9e >>> 3) &&& 7) 0x10 s 1 ∧
      st.cc.zspOf (spec_alu_flag_byte ((0x9e >>> 3) &&& 7) 0x10 s 1) ∧
      st.b = 0 ∧ st.c = 0 ∧ st.d = 0 ∧ st.e = 0 ∧ st.h = 0x20 ∧ st.l = 0 ∧ st.sp = 0x2400 ∧
      st.memory = ({ State8080.sampleAt 0x9e 0 0 0x20 with
        a := 0x10, h := 0x20, cc := ConditionCodes.ofFlags 0 0 0 0 1 } : State8080).memory :=
  alu_step { State8080.sampleAt 0x9e 0 0 0x20 with
        a := 0x10, h := 0x20, cc := ConditionCodes.ofFlags 0 0 0 0 1 } 0x9e
    ⟨by decide, by decide, by decide, by decide, by decide, by decide, by decide, by decide,
      by decide, (sampleAt_wf 0x9e 0 0 0x20 (by decide) (by decide) (by decide)
        (by decide)).mem_lt,
      ⟨by decide, by decide, by decide, by decide, by decide, by decide⟩, by decide, by decide,
      by decide⟩
    (by decide) (by decide) rfl

/-- The witness step of C35 evaluated: SBB M leaves `0xef` in A with Sign set. -/
theorem alu_step_sample :
    (emulate8080Op { State8080.sampleAt 0x9e 0 0 0x20 with
        a := 0x10, h := 0x20, cc := ConditionCodes.ofFlags 0 0 0 0 1 }).map
      (fun st => (st.a, st.cc.z, st.cc.s, st.cc.p, st.pc)) = some (0xef, 0, 1, 0, 0x101) ∧
    spec_alu_result 3 0x10 0x20 1 = 0xef := by
  decide

/-! ## Immediate ALU opcodes against their register forms -/

/-- ANI leaves Auxiliary-Carry as it was; the accumulator and the other four flags
are those of ANA. -/
theorem ani_vs_ana (state : State8080) (v : Nat) :
    (ani state v).cc.ac = state.cc.ac ∧
    (ana state v).cc.ac = (state.a &&& v) % 256 / 8 % 2 ∧
    (ani state v).a = (ana state v).a ∧ (ani state v).cc.z = (ana state v).cc.z ∧
    (ani state v).cc.s = (ana state v).cc.s ∧ (ani state v).cc.p = (ana state v).cc.p ∧
    (ani state v).cc.cy = (ana state v).cc.cy :=
  ⟨rfl, ana_ac state v, rfl, rfl, rfl, rfl, rfl⟩

/-- ORI leaves Auxiliary-Carry as it was while ORA clears it; the accumulator and the
other four flags are those of ORA. -/
theorem ori_vs_ora (state : State8080) (v : Nat) :
    (ori state v).cc.ac = state.cc.ac ∧ (ora state v).cc.ac = 0 ∧
    (ori state v).a = (ora state v).a ∧ (ori state v).cc.z = (ora state v).cc.z ∧
    (ori state v).cc.s = (ora state v).cc.s ∧ (ori state v).cc.p = (ora state v).cc.p ∧
    (ori state v).cc.cy = (ora state v).cc.cy :=
  ⟨rfl, rfl, rfl, rfl, rfl, rfl, rfl⟩

/-- XRI computes the accumulator and the flags of XRA. -/
theorem xri_eq_xra (state : State8080) (v : Nat) :
    (xri state v).a = (xra state v).a ∧ (xri state v).cc = (xra state v).cc :=
  ⟨rfl, rfl⟩

set_option maxRecDepth 8000 in
/-- The cases ADI, ACI, SUI, SBI and CPI apply to `opcode[1]` the function that ADD,
ADC, SUB, SBB and CMP apply to the register, and XRI, ANI and ORI their own bodies. -/
theorem switch_immediate (state : State8080) (pc0 : Nat) :
    emulate8080Op_switch state pc0 0xc6 =
      ((opcode_at state pc0 1).bind fun v => some (pc_add (alu_case 0 state v) 2)) ∧
    emulate8080Op_switch state pc0 0xce =
      ((opcode_at state pc0 1).bind fun v => some (pc_add (alu_case 1 state v) 2)) ∧
    emulate8080Op_switch state pc0 0xd6 =
      ((opcode_at state pc0 1).bind fun v => some (pc_add (alu_case 2 state v) 2)) ∧
    emulate8080Op_switch state pc0 0xde =
      ((opcode_at state pc0 1).bind fun v => some (pc_add (alu_case 3 state v) 2)) ∧
    emulate8080Op_switch state pc0 0xe6 =
      ((opcode_at state pc0 1).bind fun v => some (pc_add (ani state v) 2)) ∧
    emulate8080Op_switch state pc0 0xee =
      ((opcode_at state pc0 1).bind fun v => some (pc_add (xri state v) 2)) ∧
    emulate8080Op_switch state pc0 0xf6 =
      ((opcode_at state pc0 1).bind fun v => some (pc_add (ori state v) 2)) ∧
    emulate8080Op_switch state pc0 0xfe =
      ((opcode_at state pc0 1).bind fun v => some (pc_add (alu_case 7 state v) 2)) :=
  ⟨rfl, rfl, rfl, rfl, rfl, rfl, rfl, rfl⟩

set_option maxRecDepth 8000 in
/-- C36, where it fails: ANI (0xe6) and ORI (0xf6) never write Auxiliary-Carry,
while ANA B sets it to bit 3 of the result and ORA B clears it; the accumulator and
the other four flags agree.  With A = 0x08 and operand 0x08 from a state with
Auxiliary-Carry 0, ANA B leaves Auxiliary-Carry 1 and ANI leaves 0; with A = 0x01
and operand 0x00 from a state with Auxiliary-Carry 1, ORA B leaves 0 and ORI leaves
1.  The tuples are (A, Z, S, P, CY, AC) after one step. -/
theorem ani_ori_aux_carry_differs_from_register_form :
    (∀ (state : State8080) (v : Nat),
      (ani state v).cc.ac = state.cc.ac ∧
      (ana state v).cc.ac = (state.a &&& v) % 256 / 8 % 2 ∧
      (ani state v).a = (ana state v).a ∧ (ani state v).cc.z = (ana state v).cc.z ∧
      (ani state v).cc.s = (ana state v).cc.s ∧ (ani state v).cc.p = (ana state v).cc.p ∧
      (ani state v).cc.cy = (ana state v).cc.cy) ∧
    (∀ (state : State8080) (v : Nat),
      (ori state v).cc.ac = state.cc.ac ∧ (ora state v).cc.ac = 0 ∧
      (ori state v).a = (ora state v).a ∧ (ori state v).cc.z = (ora state v).cc.z ∧
      (ori state v).cc.s = (ora state v).cc.s ∧ (ori state v).cc.p = (ora state v).cc.p ∧
      (ori state v).cc.cy = (ora state v).cc.cy) ∧
    (emulate8080Op { State8080.sample 0xe6 0x08 0 with a := 0x08 }).map
      (fun st => (st.a, st.cc.z, st.cc.s, st.cc.p, st.cc.cy, st.cc.ac)) =
        some (0x08, 0, 0, 0, 0, 0) ∧
    (emulate8080Op { State8080.sample 0xa0 0 0 with a := 0x08, b := 0x08 }).map
      (fun st => (st.a, st.cc.z, st.cc.s, st.cc.p, st.cc.cy, st.cc.ac)) =
        some (0x08, 0, 0, 0, 0, 1) ∧
    (emulate8080Op { State8080.sample 0xf6 0x00 0 with
        a := 0x01, cc := ConditionCodes.ofFlags 0 0 1 0 0 }).map
      (fun st => (st.a, st.cc.z, st.cc.s, st.cc.p, st.cc.cy, st.cc.ac)) =
        some (0x01, 0, 0, 0, 0, 1) ∧
    (emulate8080Op { State8080.sample 0xb0 0 0 with
        a := 0x01, b := 0x00, cc := ConditionCodes.ofFlags 0 0 1 0 0 }).map
      (fun st => (st.a, st.cc.z, st.cc.s, st.cc.p, st.cc.cy, st.cc.ac)) =
        some (0x01, 0, 0, 0, 0, 0) :=
  ⟨fun state v => ⟨rfl, ana_ac state v, rfl, rfl, rfl, rfl, rfl⟩,
   fun _ _ => ⟨rfl, rfl, rfl, rfl, rfl, rfl, rfl⟩, by decide, by decide, by decide, by decide⟩

/-! ## Decimal adjustment after an addition -/

/-- The arithmetic of DAA after an addition of two packed-BCD bytes with the digit
sums `H` (high digits) and `L` (low digits and carry-in). -/
theorem bcd_digit_sums (H L : Nat) (hH18 : H ≤ 18) (hL19 : L ≤ 19) :
    ((16 * H + L) % 256 +
      ((if ¬ (L < 16) ∨ (16 * H + L) % 256 % 16 > 9 then 0x06 else 0) +
        (if ¬ (16 * H + L < 256) ∨ (16 * H + L) % 256 / 16 > 9 ∨
            ((16 * H + L) % 256 / 16 ≥ 9 ∧ (16 * H + L) % 256 % 16 > 9)
          then 0x60 else 0))) % 256 =
      16 * ((10 * H + L) % 100 / 10) + (10 * H + L) % 100 % 10 ∧
    ((¬ (16 * H + L < 256) ∨ (16 * H + L) % 256 / 16 > 9 ∨
        ((16 * H + L) % 256 / 16 ≥ 9 ∧ (16 * H + L) % 256 % 16 > 9)) ↔
      10 * H + L ≥ 100) := by
  interval_cases H <;> interval_cases L <;> decide

/-- The arithmetic of DAA after `add` of two packed-BCD bytes. -/
theorem bcd_arith (x y c : Nat) (hx : isPackedBCD x) (hy : isPackedBCD y) (hc : c ≤ 1) :
    ((x + y + c) % 256 +
      ((if ¬ (x % 16 + y % 16 + c < 16) ∨ (x + y + c) % 256 % 16 > 9 then 0x06 else 0) +
        (if ¬ (x + y + c < 256) ∨ (x + y + c) % 256 / 16 > 9 ∨
            ((x + y + c) % 256 / 16 ≥ 9 ∧ (x + y + c) % 256 % 16 > 9)
          then 0x60 else 0))) % 256 =
      bcdEncode ((bcdValue x + bcdValue y + c) % 100) ∧
    ((¬ (x + y + c < 256) ∨ (x + y + c) % 256 / 16 > 9 ∨
        ((x + y + c) % 256 / 16 ≥ 9 ∧ (x + y + c) % 256 % 16 > 9)) ↔
      bcdValue x + bcdValue y + c ≥ 100) := by
  obtain ⟨hx1, hx2⟩ := hx
  obtain ⟨hy1, hy2⟩ := hy
  have e1 : x + y + c = 16 * (x / 16 + y / 16) + (x % 16 + y % 16 + c) := by omega
  have e2 : bcdValue x + bcdValue y + c =
      10 * (x / 16 + y / 16) + (x % 16 + y % 16 + c) := by
    unfold bcdValue
    omega
  have h := bcd_digit_sums (x / 16 + y / 16) (x % 16 + y % 16 + c) (by omega) (by omega)
  rw [← e1, ← e2] at h
  exact h

theorem bcd_lt (x : Nat) (hx : isPackedBCD x) : x < 256 := by
  obtain ⟨hx1, hx2⟩ := hx
  omega

theorem add_ac_ne_zero (state : State8080) (v : Nat) (cy : Bool) :
    (add state .a v cy).cc.ac ≠ 0 ↔ ¬ (state.a % 16 + v % 16 + cy.toNat < 16) := by
  rw [add_cc]
  show (carry 4 state.a v cy).toNat ≠ 0 ↔ _
  rw [carry4_eq]
  by_cases h : state.a % 16 + v % 16 + cy.toNat < 16 <;> simp [h]

theorem add_cy_ne_zero (state : State8080) (v : Nat) (cy : Bool) (ha : state.a < 256)
    (hv : v < 256) :
    (add state .a v cy).cc.cy ≠ 0 ↔ ¬ (state.a + v + cy.toNat < 256) := by
  rw [(add_spec state .a v cy ha hv).2.1]
  show (if state.a + v + cy.toNat ≥ 256 then 1 else 0) ≠ 0 ↔ _
  split_ifs <;> omega

/-- The accumulator and Carry after `daa`. -/
theorem daa_a_cy (state : State8080) :
    (daa state).a = (state.a +
      ((if state.cc.ac ≠ 0 ∨ state.a % 16 > 9 then 0x06 else 0) +
        (if state.cc.cy ≠ 0 ∨ state.a / 16 > 9 ∨ (state.a / 16 ≥ 9 ∧ state.a % 16 > 9)
          then 0x60 else 0))) % 256 ∧
    (daa state).cc.cy = (if state.cc.cy ≠ 0 ∨ state.a / 16 > 9 ∨
      (state.a / 16 ≥ 9 ∧ state.a % 16 > 9) then 1 else 0) := by
  rw [daa_eq]
  refine ⟨?_, rfl⟩
  dsimp only
  generalize ((if state.cc.ac ≠ 0 ∨ state.a % 16 > 9 then 0x06 else 0) +
      (if state.cc.cy ≠ 0 ∨ state.a / 16 > 9 ∨ (state.a / 16 ≥ 9 ∧ state.a % 16 > 9)
        then 0x60 else 0)) = corr
  have h := add_getReg state .a corr false
  simp only [State8080.getReg, Bool.toNat_false, Nat.add_zero] at h
  exact h

/-- The function `daa` applied to the result of `add` on two packed-BCD bytes. -/
theorem daa_add (state : State8080) (y : Nat) (c : Bool) (hx : isPackedBCD state.a)
    (hy : isPackedBCD y) :
    (daa (add state .a y c)).a =
      bcdEncode ((bcdValue state.a + bcdValue y + c.toNat) % 100) ∧
    (daa (add state .a y c)).cc.cy =
      (if bcdValue state.a + bcdValue y + c.toNat ≥ 100 then 1 else 0) := by
  have hc : c.toNat ≤ 1 := by cases c <;> simp
  obtain ⟨h1, h2⟩ := bcd_arith state.a y c.toNat hx hy hc
  obtain ⟨ha, hcy⟩ := daa_a_cy (add state .a y c)
  have hA : (add state .a y c).a = (state.a + y + c.toNat) % 256 := add_getReg state .a y c
  have hac := add_ac_ne_zero state y c
  have hcy0 := add_cy_ne_zero state y c (bcd_lt _ hx) (bcd_lt _ hy)
  rw [hA] at ha hcy
  simp only [hac, hcy0] at ha hcy
  refine ⟨ha.trans h1, hcy.trans ?_⟩
  simp only [h2]

/-- C37: decimal adjustment makes binary addition into packed-BCD addition.  For
packed-BCD bytes `x` (in A) and `y` and a carry-in `c`, after `add(x, y, c)` on the
accumulator the step at a DAA opcode (0x27) returns, A holds the packed-BCD encoding
of `(X + Y + c) mod 100` and Carry is 1 exactly when `X + Y + c >= 100`, where `X`
and `Y` are the decimal values of `x` and `y`. -/
theorem daa_after_add (state : State8080) (y : Nat) (c : Bool)
    (hx : isPackedBCD state.a) (hy : isPackedBCD y)
    (hpc : state.pc < 65536) (hop : state.memory state.pc = 0x27) :
    ∃ st, emulate8080Op (add state .a y c) = some st ∧
      st.a = bcdEncode ((bcdValue state.a + bcdValue y + c.toNat) % 100) ∧
      st.cc.cy = (if bcdValue state.a + bcdValue y + c.toNat ≥ 100 then 1 else 0) := by
  have hpc1 : (add state .a y c).pc < 65536 := hpc
  have hop1 : (add state .a y c).memory (add state .a y c).pc = 0x27 := hop
  obtain ⟨ha, hcy⟩ := daa_add
    { state with cycles := (state.cycles + OPCODES_CYCLES.getD 0x27 0) % 65536 } y c hx hy
  refine ⟨pc_add (daa (add
    { state with cycles := (state.cycles + OPCODES_CYCLES.getD 0x27 0) % 65536 } .a y c)) 1,
    ?_, ha, hcy⟩
  rw [emulate8080Op_eq _ hpc1, hop1, switch_daa]
  rfl

set_option maxRecDepth 8000 in
/-- With A = 0x59, operand 0x41 and no carry-in: 59 + 41 = 100, so DAA leaves 0x00 in
A and sets Carry. -/
theorem daa_after_add_witness :
    ∃ st, emulate8080Op (add { State8080.sample 0x27 0 0 with a := 0x59 } .a 0x41 false) =
        some st ∧
      st.a = bcdEncode ((bcdValue 0x59 + bcdValue 0x41 + false.toNat) % 100) ∧
      st.cc.cy = (if bcdValue 0x59 + bcdValue 0x41 + false.toNat ≥ 100 then 1 else 0) :=
  daa_after_add { State8080.sample 0x27 0 0 with a := 0x59 } 0x41 false
    ⟨by decide, by decide⟩ ⟨by decide, by decide⟩ (by decide) rfl

set_option maxRecDepth 8000 in
/-- The witness of C37 evaluated: the addition leaves 0x9a, DAA corrects it to 0x00
with Carry set. -/
theorem daa_after_add_sample :
    (add { State8080.sample 0x27 0 0 with a := 0x59 } .a 0x41 false).a = 0x9a ∧
    (emulate8080Op (add { State8080.sample 0x27 0 0 with a := 0x59 } .a 0x41 false)).map
      (fun st => (st.a, st.cc.cy, st.pc)) = some (0x00, 1, 0x101) ∧
    bcdEncode ((bcdValue 0x59 + bcdValue 0x41 + false.toNat) % 100) = 0x00 := by
  decide

/-! ## The halted flag is never read -/

/-- Replacing `halted` before a case other than HLT is the same as replacing it
after the case. -/
theorem switch_halted (state : State8080) (pc0 op h : Nat) (h76 : op ≠ 0x76) :
    emulate8080Op_switch { state with halted := h } pc0 op =
      Option.map (fun st => { st with halted := h }) (emulate8080Op_switch state pc0 op) := by
  by_cases hf3 : op = 0xf3
  · subst hf3
    rw [switch_di, switch_di]
    rfl
  by_cases hfb : op = 0xfb
  · subst hfb
    rw [switch_ei, switch_ei]
    rfl
  have hm := switch_withCtl state pc0 op state.cycles state.int_enable h h76 hf3 hfb
  have he : state.withCtl state.cycles state.int_enable h = { state with halted := h } := rfl
  rw [he] at hm
  rw [hm]
  cases hsw : emulate8080Op_switch state pc0 op with
  | none => rfl
  | some st =>
    obtain ⟨hc, hie, _⟩ := switch_preserves_ctl state st pc0 op h76 hf3 hfb hsw
    show some (st.withCtl state.cycles state.int_enable h) = some { st with halted := h }
    rw [← hie, ← hc]
    rfl

/-- The step from a state with `halted` replaced is the step from the state itself,
with `halted` replaced afterwards: by 1 after HLT, by the same value otherwise. -/
theorem emulate8080Op_halted_irrelevant (s : State8080) (h : Nat) :
    emulate8080Op { s with halted := h } =
      (emulate8080Op s).map fun st =>
        { st with halted := if s.memory s.pc = 0x76 then 1 else h } := by
  unfold emulate8080Op load
  dsimp only
  by_cases hpc : s.pc < MEMORY_SIZE
  · rw [if_pos hpc, Option.some_bind, Option.some_bind]
    by_cases h76 : s.memory s.pc = 0x76
    · rw [if_pos h76, h76, switch_hlt, switch_hlt]
      rfl
    · rw [if_neg h76]
      exact switch_halted
        { s with cycles := (s.cycles + OPCODES_CYCLES.getD (s.memory s.pc) 0) % 65536 }
        s.pc (s.memory s.pc) h h76
  · rw [if_neg hpc]
    rfl

theorem agreeUpToHalted_eq (s t : State8080) (h : s.agreeUpToHalted t) :
    t = { s with halted := t.halted } := by
  obtain ⟨h1, h2, h3, h4, h5, h6, h7, h8, h9, h10, h11, h12, h13⟩ := h
  cases s
  cases t
  dsimp only at h1 h2 h3 h4 h5 h6 h7 h8 h9 h10 h11 h12 h13
  subst h1 h2 h3 h4 h5 h6 h7 h8 h9 h10 h11 h12 h13
  rfl

/-- Two steps from states that differ only in `halted`. -/
theorem step_agreeUpToHalted (s t : State8080) (h : s.agreeUpToHalted t) :
    (emulate8080Op s = none ∧ emulate8080Op t = none) ∨
    ∃ s1 t1, emulate8080Op s = some s1 ∧ emulate8080Op t = some t1 ∧
      s1.agreeUpToHalted t1 ∧
      s1.cycles = (s.cycles + OPCODES_CYCLES.getD (s.memory s.pc) 0) % 65536 := by
  have ht := emulate8080Op_halted_irrelevant s t.halted
  rw [← agreeUpToHalted_eq s t h] at ht
  cases hs : emulate8080Op s with
  | none =>
    rw [hs] at ht
    exact Or.inl ⟨rfl, ht⟩
  | some s1 =>
    rw [hs] at ht
    exact Or.inr ⟨s1, _, rfl, ht, ⟨rfl, rfl, rfl, rfl, rfl, rfl, rfl, rfl, rfl, rfl, rfl, rfl,
      rfl⟩, emulate8080Op_cycles s s1 hs⟩

/-- The step is `execute_opcode` at the opcode byte at `pc`, when `pc` is inside the
buffer. -/
theorem emulate8080Op_executes (state : State8080) (hpc : state.pc < 65536) :
    emulate8080Op state = execute_opcode (state.memory state.pc) state := by
  rw [emulate8080Op_eq state hpc]
  rfl

/-- After a step from a state with `halted = 1`, `halted` is 1. -/
theorem emulate8080Op_stays_halted (state st : State8080) (hh : state.halted = 1)
    (h : emulate8080Op state = some st) : st.halted = 1 := by
  by_cases h76 : state.memory state.pc = 0x76
  · obtain ⟨hpc, _, _, _⟩ := emulate8080Op_some state st h
    rw [hlt_step_eq state hpc h76] at h
    rw [← Option.some.inj h]
  · rw [emulate8080Op_halted state st h h76, hh]

/-- Two steps from states that differ only in `halted`, where the step returns. -/
theorem step_agreeUpToHalted_returns (s t : State8080) (h : s.agreeUpToHalted t)
    (hwf : s.WF) (hpc : s.pc + 2 < 65536) (h1 : s.sp ≠ 1) (h2 : s.sp ≠ 0xFFFF)
    (hw : s.memory s.pc = 0x22 ∨ s.memory s.pc = 0x2a →
      s.memory (s.pc + 1) + 256 * s.memory (s.pc + 2) ≠ 0xFFFF) :
    ∃ s1 t1, emulate8080Op s = some s1 ∧ emulate8080Op t = some t1 ∧
      execute_opcode (s.memory s.pc) s = some s1 ∧
      s1.agreeUpToHalted t1 ∧
      s1.cycles = (s.cycles + OPCODES_CYCLES.getD (s.memory s.pc) 0) % 65536 := by
  obtain ⟨s1, hs1⟩ := emulate8080Op_returns s hwf hpc h1 h2 hw
  rcases step_agreeUpToHalted s t h with ⟨hn, _⟩ | ⟨s1', t1, e1, e2, ha, hc⟩
  · rw [hs1] at hn
    exact absurd hn (by simp)
  · refine ⟨s1', t1, e1, e2, ?_, ha, hc⟩
    rw [← emulate8080Op_executes s (by omega)]
    exact e1

/-- The step after a HLT: if `s` is the state that a step at HLT returned from `s0`
and the step from `s` is inside the buffer, it returns what executing the opcode
after the HLT gives. -/
theorem step_after_hlt (s s0 : State8080) (hwf : s.WF) (hpc : s.pc + 2 < 65536)
    (h1 : s.sp ≠ 1) (h2 : s.sp ≠ 0xFFFF)
    (hw : s.memory s.pc = 0x22 ∨ s.memory s.pc = 0x2a →
      s.memory (s.pc + 1) + 256 * s.memory (s.pc + 2) ≠ 0xFFFF)
    (h76 : s0.memory s0.pc = 0x76) (hs0 : emulate8080Op s0 = some s) :
    s.halted = 1 ∧ s.pc = (s0.pc + 1) % 65536 ∧ s.memory = s0.memory ∧
    s.cycles = (s0.cycles + 7) % 65536 ∧
    ∃ s1 u1, emulate8080Op s = some s1 ∧
      emulate8080Op { s with halted := 0 } = some u1 ∧
      execute_opcode (s0.memory ((s0.pc + 1) % 65536)) s = some s1 ∧
      s1.agreeUpToHalted u1 ∧ s1.halted = 1 ∧
      s1.cycles = (s.cycles +
        OPCODES_CYCLES.getD (s0.memory ((s0.pc + 1) % 65536)) 0) % 65536 := by
  obtain ⟨hpc0, _, _, _⟩ := emulate8080Op_some s0 s hs0
  rw [hlt_step_eq s0 hpc0 h76] at hs0
  have hs := Option.some.inj hs0
  have hh : s.halted = 1 := by rw [← hs]
  have hp : s.pc = (s0.pc + 1) % 65536 := by rw [← hs]
  have hm : s.memory = s0.memory := by rw [← hs]
  have hc : s.cycles = (s0.cycles + 7) % 65536 := by rw [← hs]
  obtain ⟨s1, u1, e1, e2, e3, ha, hcy⟩ := step_agreeUpToHalted_returns s
    { s with halted := 0 }
    ⟨rfl, rfl, rfl, rfl, rfl, rfl, rfl, rfl, rfl, rfl, rfl, rfl, rfl⟩ hwf hpc h1 h2 hw
  rw [hm, hp] at e3 hcy
  exact ⟨hh, hp, hm, hc, s1, u1, e1, e2, e3, ha, emulate8080Op_stays_halted s s1 hh e1, hcy⟩

/-- C38: `emulate8080Op` executes the instruction at PC whatever `halted` is.  Let
`s` and `t` differ only in `halted`.  Then the step fails from both (a memory index
outside the buffer) or returns from both, and the two results agree on the
registers, the flags, the memory, SP, PC, `int_enable` and the cycle counter, which
has grown by the cost of the opcode at PC.  When `s` is within the ranges of the C
types, the opcode at PC and its two operand bytes are inside the buffer, SP is
neither 1 nor 0xFFFF and the operand address of SHLD and LHLD is not 0xFFFF, the
step does return from both, and from `s` it returns what executing the opcode at PC
gives.  In particular, if then `s` is the state that a step at HLT (0x76) returned
from `s0`, `halted` is 1 and PC is one past the HLT in `s`, and the step from `s`
returns what executing the opcode at that PC gives, with the cost of that opcode
added to the cycle counter and `halted` still 1; up to `halted` it is what the step
from `s` with `halted` cleared returns. -/
theorem halted_does_not_stop_the_step (s t : State8080) (h : s.agreeUpToHalted t) :
    ((emulate8080Op s = none ∧ emulate8080Op t = none) ∨
      ∃ s1 t1, emulate8080Op s = some s1 ∧ emulate8080Op t = some t1 ∧
        s1.agreeUpToHalted t1 ∧
        s1.cycles = (s.cycles + OPCODES_CYCLES.getD (s.memory s.pc) 0) % 65536) ∧
    (s.WF → s.pc + 2 < 65536 → s.sp ≠ 1 → s.sp ≠ 0xFFFF →
      (s.memory s.pc = 0x22 ∨ s.memory s.pc = 0x2a →
        s.memory (s.pc + 1) + 256 * s.memory (s.pc + 2) ≠ 0xFFFF) →
      (∃ s1 t1, emulate8080Op s = some s1 ∧ emulate8080Op t = some t1 ∧
        execute_opcode (s.memory s.pc) s = some s1 ∧
        s1.agreeUpToHalted t1 ∧
        s1.cycles = (s.cycles + OPCODES_CYCLES.getD (s.memory s.pc) 0) % 65536) ∧
      (∀ s0 : State8080, s0.memory s0.pc = 0x76 → emulate8080Op s0 = some s →
        s.halted = 1 ∧ s.pc = (s0.pc + 1) % 65536 ∧ s.memory = s0.memory ∧
        s.cycles = (s0.cycles + 7) % 65536 ∧
        ∃ s1 u1, emulate8080Op s = some s1 ∧
          emulate8080Op { s with halted := 0 } = some u1 ∧
          execute_opcode (s0.memory ((s0.pc + 1) % 65536)) s = some s1 ∧
          s1.agreeUpToHalted u1 ∧ s1.halted = 1 ∧
          s1.cycles = (s.cycles +
            OPCODES_CYCLES.getD (s0.memory ((s0.pc + 1) % 65536)) 0) % 65536)) :=
  ⟨step_agreeUpToHalted s t h, fun hwf hpc h1 h2 hw =>
    ⟨step_agreeUpToHalted_returns s t h hwf hpc h1 h2 hw,
      fun s0 h76 hs0 => step_after_hlt s s0 hwf hpc h1 h2 hw h76 hs0⟩⟩

set_option maxRecDepth 8000 in
/-- HLT at 0x100 followed by INR B at 0x101.  The step at HLT returns the state `s`
with `halted = 1`, PC = 0x101 and 7 cycles; the step from `s` returns, and it has
run INR B: B = 1, PC = 0x102, 12 cycles, `halted` still 1.  The step from `s` with
`halted` cleared returns the same with `halted = 0`. -/
theorem halted_does_not_stop_the_step_witness :
    emulate8080Op (State8080.sample 0x76 0x04 0) =
      some { State8080.sample 0x76 0x04 0 with halted := 1, pc := 0x101, cycles := 7 } ∧
    ∃ s1 u1,
      emulate8080Op
        { State8080.sample 0x76 0x04 0 with halted := 1, pc := 0x101, cycles := 7 } =
          some s1 ∧
      emulate8080Op
        { State8080.sample 0x76 0x04 0 with halted := 0, pc := 0x101, cycles := 7 } =
          some u1 ∧
      execute_opcode 0x04
        { State8080.sample 0x76 0x04 0 with halted := 1, pc := 0x101, cycles := 7 } =
          some s1 ∧
      s1.agreeUpToHalted u1 ∧ s1.halted = 1 ∧ u1.halted = 0 ∧
      s1.b = 1 ∧ s1.pc = 0x102 ∧ s1.cycles = 12 := by
  have hwf : ({ State8080.sample 0x76 0x04 0 with
      halted := 1, pc := 0x101, cycles := 7 } : State8080).WF :=
    { sample_wf 0x76 0x04 0 (by decide) (by decide) (by decide) with
      halted_lt := by decide, pc_lt := by decide, cycles_lt := by decide }
  have hstep : emulate8080Op (State8080.sample 0x76 0x04 0) =
      some { State8080.sample 0x76 0x04 0 with halted := 1, pc := 0x101, cycles := 7 } := rfl
  obtain ⟨_, _, _, _, s1, u1, e1, e2, e3, ha, hh, hc⟩ :=
    ((halted_does_not_stop_the_step
      { State8080.sample 0x76 0x04 0 with halted := 1, pc := 0x101, cycles := 7 }
      { State8080.sample 0x76 0x04 0 with halted := 0, pc := 0x101, cycles := 7 }
      ⟨rfl, rfl, rfl, rfl, rfl, rfl, rfl, rfl, rfl, rfl, rfl, rfl, rfl⟩).2
      hwf (by decide) (by decide) (by decide) (by decide)).2
      (State8080.sample 0x76 0x04 0) rfl hstep
  have v1 : emulate8080Op
      { State8080.sample 0x76 0x04 0 with halted := 1, pc := 0x101, cycles := 7 } =
      some { State8080.sample 0x76 0x04 0 with
        halted := 1, pc := 0x102, cycles := 12, b := 1 } := rfl
  have v2 : emulate8080Op
      { State8080.sample 0x76 0x04 0 with halted := 0, pc := 0x101, cycles := 7 } =
      some { State8080.sample 0x76 0x04 0 with
        halted := 0, pc := 0x102, cycles := 12, b := 1 } := rfl
  have q1 := Option.some.inj (e1.symm.trans v1)
  have q2 := Option.some.inj (e2.symm.trans v2)
  refine ⟨hstep, s1, u1, e1, e2, e3, ha, hh, ?_, ?_, ?_, ?_⟩
  · rw [q2]
  · rw [q1]
  · rw [q1]
  · rw [q1]

set_option maxRecDepth 8000 in
/-- The same run evaluated: HLT sets `halted` and costs 7 cycles; the next step
runs INR B at 0x101 and costs 5 more.  The tuples are (B, PC, cycles, halted). -/
theorem halted_step_sample :
    (emulate8080Op (State8080.sample 0x76 0x04 0)).map
      (fun st => (st.b, st.pc, st.cycles, st.halted)) = some (0, 0x101, 7, 1) ∧
    ((emulate8080Op (State8080.sample 0x76 0x04 0)).bind emulate8080Op).map
      (fun st => (st.b, st.pc, st.cycles, st.halted)) = some (1, 0x102, 12, 1) := by
  decide

/-! ## Bounds of the accesses of `render` -/

theorem render_fill_inBounds (y x : Nat) (hy : y < WIDTH) (hx : x < HEIGHT) :
    ∀ a ∈ render_fill y x, a.inBounds := by
  unfold WIDTH at hy
  unfold HEIGHT at hx
  intro a ha
  simp only [render_fill, HEIGHT, List.mem_cons, List.mem_singleton, List.not_mem_nil,
    or_false] at ha
  rcases ha with rfl | rfl
  · show 0x2400 ≤ _ ∧ _ ≤ 0x3FFF
    omega
  · exact ⟨hy, hx⟩

theorem render_draw_inBounds (y x : Nat) (hy : y < HEIGHT) (hx : x < WIDTH) :
    ∀ a ∈ render_draw y x, a.inBounds ∨ a = .rotated x (HEIGHT - y) := by
  unfold HEIGHT at hy
  unfold WIDTH at hx
  intro a ha
  simp only [render_draw, DISPLAY_SCALE, List.mem_append, List.mem_cons, List.mem_singleton,
    List.not_mem_nil, or_false, List.mem_flatMap, List.mem_range'_1] at ha
  rcases ha with (rfl | rfl) | ⟨i, hi, j, hj, rfl | rfl⟩
  · exact Or.inr rfl
  · exact Or.inl ⟨hy, hx⟩
  · exact Or.inl ⟨hy, hx⟩
  · refine Or.inl ?_
    show j < 448 ∧ i < 512
    omega

/-- Every access of `render` is within bounds, or is a read
`rotated_screen[x][HEIGHT - y]` of the second loop nest. -/
theorem render_accesses_inBounds :
    ∀ a ∈ render_accesses, a.inBounds ∨
      ∃ y x, y < HEIGHT ∧ x < WIDTH ∧ a = .rotated x (HEIGHT - y) := by
  intro a ha
  simp only [render_accesses, List.mem_append, List.mem_flatMap, List.mem_range] at ha
  rcases ha with ⟨y, hy, x, hx, h⟩ | ⟨y, hy, x, hx, h⟩
  · exact Or.inl (render_fill_inBounds y x hy hx a h)
  · rcases render_draw_inBounds y x hy hx a h with h1 | h1
    · exact Or.inl h1
    · exact Or.inr ⟨y, x, hy, hx, h1⟩

/-- The second loop nest reads `rotated_screen[x][HEIGHT - y]` for every `y`, `x` of
its ranges. -/
theorem render_reads_rotated (y x : Nat) (hy : y < HEIGHT) (hx : x < WIDTH) :
    RenderAccess.rotated x (HEIGHT - y) ∈ render_accesses := by
  simp only [render_accesses, List.mem_append, List.mem_flatMap, List.mem_range]
  exact Or.inr ⟨y, hy, x, hx, by simp [render_draw]⟩

/-- C39, where it fails: in the first iteration of the second loop nest (`y = 0`)
`render` reads `rotated_screen[x][256]` for every `x < 224`, one past the end of a row
of the array declared `[224][256]`, and for `x = 223` past the end of the whole
array.  Every other access is within bounds: the memory reads are in
`0x2400 .. 0x3FFF`, the other accesses of `rotated_screen` and all of `fixed_screen`
within their declarations, and the pixels within 448 by 512. -/
theorem render_reads_past_row_end :
    (∀ x, x < 224 → RenderAccess.rotated x 256 ∈ render_accesses) ∧
    ¬ (RenderAccess.rotated 223 256).inBounds ∧
    223 * 256 + 256 = 224 * 256 ∧
    (∀ a ∈ render_accesses, a.inBounds ∨ ∃ x, x < 224 ∧ a = .rotated x 256) := by
  refine ⟨fun x hx => render_reads_rotated 0 x (by decide) hx, fun h => ?_, rfl, ?_⟩
  · exact absurd h.2 (by decide)
  · intro a ha
    rcases render_accesses_inBounds a ha with h | ⟨y, x, hy, hx, rfl⟩
    · exact Or.inl h
    · unfold HEIGHT at hy
      unfold WIDTH at hx
      by_cases h0 : y = 0
      · subst h0
        exact Or.inr ⟨x, hx, rfl⟩
      · refine Or.inl ?_
        show x < 224 ∧ HEIGHT - y < 256
        unfold HEIGHT
        omega

/-! ## Interrupt timing of the driver loop -/

theorem driver_run_append (d : Driver) (ks ls : List Nat) :
    driver_run d (ks ++ ls) = driver_run (driver_run d ks) ls := by
  induction ks generalizing d with
  | nil => rfl
  | cons k ks ih => exact ih _

theorem driver_trace_append (d : Driver) (ks ls : List Nat) :
    driver_trace d (ks ++ ls) = driver_trace d ks ++ driver_trace (driver_run d ks) ls := by
  induction ks generalizing d with
  | nil => rfl
  | cons k ks ih =>
    show _ :: driver_trace _ (ks ++ ls) = _ :: _ ++ _
    rw [ih]
    rfl

theorem driver_run_cons (d : Driver) (k : Nat) (ks : List Nat) :
    driver_run d (k :: ks) = driver_run (driver_iteration d k).1 ks := rfl

theorem driver_trace_cons (d : Driver) (k : Nat) (ks : List Nat) :
    driver_trace d (k :: ks) =
      (driver_iteration d k).2 :: driver_trace (driver_iteration d k).1 ks := rfl

set_option maxRecDepth 100000 in
/-- Every entry of `OPCODES_CYCLES` is between 4 and 18. -/
theorem OPCODES_CYCLES_range :
    ∀ op, op < 256 → 4 ≤ OPCODES_CYCLES.getD op 0 ∧ OPCODES_CYCLES.getD op 0 ≤ 18 := by
  decide!

/-- An iteration that neither delivers an interrupt nor resets the counter. -/
theorem driver_iteration_quiet (d : Driver) (k : Nat) (h1 : d.cycles + k ≤ d.interrupt_timing)
    (h2 : d.cycles + k < 33333) :
    driver_iteration d k = ({ d with cycles := d.cycles + k }, none, false) := by
  have hm : (d.cycles + k) % 65536 = d.cycles + k := Nat.mod_eq_of_lt (by omega)
  have h3 : ¬ (d.cycles + k > d.interrupt_timing) := by omega
  have h4 : ¬ (d.cycles + k ≥ 33333) := by omega
  simp only [driver_iteration, hm, if_neg h3, if_neg h4, decide_eq_false h4]

/-- Instructions of cost `k` while the counter stays at or below `interrupt_timing`
and below 33333: only the counter changes, nothing is delivered. -/
theorem driver_run_quiet (n k : Nat) (d : Driver)
    (h1 : d.cycles + n * k ≤ d.interrupt_timing) (h2 : d.cycles + n * k < 33333) :
    driver_run d (List.replicate n k) = { d with cycles := d.cycles + n * k } ∧
    driver_trace d (List.replicate n k) = List.replicate n (none, false) := by
  induction n generalizing d with
  | zero =>
    simp only [Nat.zero_mul, Nat.add_zero, List.replicate]
    exact ⟨rfl, rfl⟩
  | succ n ih =>
    have e : (n + 1) * k = k + n * k := by ring
    rw [e] at h1 h2
    have hq := driver_iteration_quiet d k (by omega) (by omega)
    have ih1 := ih { d with cycles := d.cycles + k } (by simpa [Nat.add_assoc] using h1)
      (by simpa [Nat.add_assoc] using h2)
    constructor
    · show driver_run (driver_iteration d k).1 (List.replicate n k) = _
      rw [hq, ih1.1, e, Nat.add_assoc]
    · show (driver_iteration d k).2 :: driver_trace (driver_iteration d k).1 _ = _
      rw [hq, ih1.2]
      rfl

/-- What one iteration delivers, and the next interrupt number afterwards. -/
theorem driver_iteration_next (d : Driver) (k : Nat) :
    (driver_iteration d k).2.1 =
      (if (d.cycles + k) % 65536 > d.interrupt_timing then some d.next_interrupt else none) ∧
    (driver_iteration d k).1.next_interrupt =
      (if (d.cycles + k) % 65536 > d.interrupt_timing then
        (if d.next_interrupt = 1 then 2 else 1) else d.next_interrupt) := by
  by_cases hc : (d.cycles + k) % 65536 > d.interrupt_timing
  · rw [if_pos hc, if_pos hc]
    unfold driver_iteration
    dsimp only
    rw [if_pos hc, if_pos hc]
    split_ifs <;> exact ⟨rfl, rfl⟩
  · rw [if_neg hc, if_neg hc]
    unfold driver_iteration
    dsimp only
    rw [if_neg hc, if_neg hc]
    split_ifs <;> exact ⟨rfl, rfl⟩

/-- The interrupts delivered by any run alternate, beginning with `next_interrupt`. -/
theorem driver_deliveries_alternate (ks : List Nat) (d : Driver) :
    ∃ n, (driver_trace d ks).filterMap Prod.fst = alternating d.next_interrupt n := by
  induction ks generalizing d with
  | nil => exact ⟨0, rfl⟩
  | cons k ks ih =>
    obtain ⟨n, hn⟩ := ih (driver_iteration d k).1
    obtain ⟨h1, h2⟩ := driver_iteration_next d k
    rw [h2] at hn
    by_cases hc : (d.cycles + k) % 65536 > d.interrupt_timing
    · rw [if_pos hc] at h1 hn
      refine ⟨n + 1, ?_⟩
      show ((driver_iteration d k).2 :: driver_trace _ ks).filterMap Prod.fst = _
      rw [List.filterMap_cons_some h1, hn]
      rfl
    · rw [if_neg hc] at h1 hn
      refine ⟨n, ?_⟩
      show ((driver_iteration d k).2 :: driver_trace _ ks).filterMap Prod.fst = _
      rw [List.filterMap_cons_none h1, hn]

/-- With `interrupt_timing = 33333`, an iteration resets the counter without
delivering an interrupt exactly when the counter has reached 33333 itself. -/
theorem driver_iteration_reset_only (d : Driver) (k : Nat) (ht : d.interrupt_timing = 33333) :
    (driver_iteration d k).2 = (none, true) ↔ (d.cycles + k) % 65536 = 33333 := by
  simp only [driver_iteration, ht]
  by_cases h1 : (d.cycles + k) % 65536 > 33333
  · have h2 : (d.cycles + k) % 65536 ≥ 33333 := by omega
    simp [h1, h2]
    omega
  · by_cases h2 : (d.cycles + k) % 65536 ≥ 33333
    · simp [h1, h2]
      omega
    · simp [h1, h2]
      omega

/-- A run that brings the counter to 33329 after one delivery of interrupt 1: 4167
instructions of 4 cycles, one of 5 cycles, 4164 of 4 cycles. -/
theorem driver_run_to_frame_end :
    driver_run Driver.start (List.replicate 4166 4 ++ 4 :: 5 :: List.replicate 4164 4) =
      { cycles := 33329, interrupt_timing := 33333, next_interrupt := 2 } ∧
    driver_trace Driver.start (List.replicate 4166 4 ++ 4 :: 5 :: List.replicate 4164 4) =
      List.replicate 4166 (none, false) ++ (some 1, false) :: (none, false) ::
        List.replicate 4164 (none, false) := by
  have q1 := driver_run_quiet 4166 4 Driver.start (by decide) (by decide)
  have q2 := driver_run_quiet 4164 4
    { cycles := 16673, interrupt_timing := 33333, next_interrupt := 2 } (by decide) (by decide)
  have s1 : driver_iteration { Driver.start with cycles := Driver.start.cycles + 4166 * 4 } 4 =
      ({ cycles := 16668, interrupt_timing := 33333, next_interrupt := 2 }, some 1, false) := by
    decide
  have s2 : driver_iteration { cycles := 16668, interrupt_timing := 33333, next_interrupt := 2 }
      5 = ({ cycles := 16673, interrupt_timing := 33333, next_interrupt := 2 }, none, false) := by
    decide
  constructor
  · rw [driver_run_append, q1.1, driver_run_cons, s1, driver_run_cons, s2, q2.1]
  · rw [driver_trace_append, q1.1, q1.2, driver_trace_cons, s1, driver_trace_cons, s2, q2.2]

/-- C40, where it fails.  The interrupts delivered by any run of the loop from
(0, 16666, 1) alternate 1, 2, 1, 2, ...; but the counter is compared with
`>` for the delivery and with `>=` for the reset.  After 4167 instructions of 4
cycles (interrupt 1 is delivered at 16668), one of 5 cycles and 4164 of 4 cycles the
variables are (33329, 33333, 2); the next instruction of 4 cycles brings the counter
to 33333 exactly, and the iteration resets it to 0 without delivering interrupt 2.
With `interrupt_timing = 33333` this happens exactly when the counter reaches 33333
itself.  The costs 4 and 5 are those of NOP and INX B. -/
theorem cycle_reset_without_frame_interrupt :
    (∀ ks : List Nat, ∃ n,
      (driver_trace Driver.start ks).filterMap Prod.fst = alternating 1 n) ∧
    driver_run Driver.start (List.replicate 4166 4 ++ 4 :: 5 :: List.replicate 4164 4) =
      { cycles := 33329, interrupt_timing := 33333, next_interrupt := 2 } ∧
    driver_trace Driver.start (List.replicate 4166 4 ++ 4 :: 5 :: List.replicate 4164 4) =
      List.replicate 4166 (none, false) ++ (some 1, false) :: (none, false) ::
        List.replicate 4164 (none, false) ∧
    driver_iteration { cycles := 33329, interrupt_timing := 33333, next_interrupt := 2 } 4 =
      ({ cycles := 0, interrupt_timing := 33333, next_interrupt := 2 }, none, true) ∧
    (∀ (d : Driver) (k : Nat), d.interrupt_timing = 33333 →
      ((driver_iteration d k).2 = (none, true) ↔ (d.cycles + k) % 65536 = 33333)) ∧
    OPCODES_CYCLES.getD 0x00 0 = 4 ∧ OPCODES_CYCLES.getD 0x03 0 = 5 ∧
    (∀ op, op < 256 → 4 ≤ OPCODES_CYCLES.getD op 0 ∧ OPCODES_CYCLES.getD op 0 ≤ 18) :=
  ⟨fun ks => driver_deliveries_alternate ks Driver.start, driver_run_to_frame_end.1,
    driver_run_to_frame_end.2, by decide, driver_iteration_reset_only, by decide, by decide,
    OPCODES_CYCLES_range⟩

end Emu8080
